import Mathlib

/-!
# Daisy four-track tape machine: the per-track transport state machine

Shallow embedding of `TapeMachineTrack` from
`src/seed/FourTrackLooper/FourTrackTapeMachine.cpp`.

Modelling conventions.

* The three transport fields `playhead_position`, `record_position` and
  `track_length` are C++ `float`s that only ever hold the values `0.0f` and
  results of `+= 1.0f`; every such value below `2^24` is an exactly
  representable integer and the code keeps them below `TAPE_BUFFER_SIZE`
  (2 880 000), so they are modelled as `Nat`.
* Audio samples (`float`) are rationals `ℚ`.  `Process` and the mixers are
  embedded with exact arithmetic; where the rounding of single precision
  arithmetic enters a statement (the record/play round trip), `Rounded.Process`
  embeds `Process` with every `float` operation rounded, and `round32` is IEEE
  754 binary32 rounding to nearest, ties to even.
* The tape buffer (`int16_t*` into QSPI memory) is a total map from index to
  the stored integer.  `static_cast<int16_t>` is truncation toward zero
  followed by a two's complement wrap into sixteen bits.
* `daisysp::Looper` is an external primitive.  Its state is an abstract type
  `L` and its four methods used here are the fields of `LooperOps L`; every
  general theorem quantifies over both.
-/

namespace TapeMachine

/-! ## Constants (lines 7-13) -/

def NUM_TRACKS : Nat := 4
def SAMPLE_RATE : Nat := 48000
def LOOP_MAX_TIME : Nat := 30
def TAPE_MAX_TIME : Nat := 60
def LOOP_BUFFER_SIZE : Nat := SAMPLE_RATE * LOOP_MAX_TIME
def TAPE_BUFFER_SIZE : Nat := SAMPLE_RATE * TAPE_MAX_TIME

/-! ## Enumerations (lines 18-32) -/

inductive TrackMode where
  | MODE_LOOP
  | MODE_TAPE
deriving DecidableEq, Repr

inductive TrackState where
  | STATE_STOPPED
  | STATE_PLAYING
  | STATE_RECORDING
  | STATE_OVERDUBBING
deriving DecidableEq, Repr

open TrackMode TrackState

/-! ## Sample conversion -/

/-- Conversion of a real number to an integer by discarding the fraction,
as a C++ float-to-integer cast does. -/
def truncToZero (x : ℚ) : Int := if 0 ≤ x then ⌊x⌋ else ⌈x⌉

/-- Two's complement reduction of an integer into the `int16_t` range. -/
def wrapInt16 (z : Int) : Int := (z + 32768) % 65536 - 32768

/-- Cast `static_cast<int16_t>(x)` of a sample value. -/
def toInt16 (x : ℚ) : Int := wrapInt16 (truncToZero x)

/-- Quantisation used when writing the tape: `static_cast<int16_t>(x * 32767.0f)`
(lines 127-128 and 162), with the product taken exactly.  `Rounded.quantize`
rounds the product to binary32 before the cast, as the program does. -/
def quantize (x : ℚ) : Int := toInt16 (x * 32767)

/-- Dequantisation used when reading the tape:
`static_cast<float>(tape_buffer[pos]) / 32767.0f` (lines 145 and 160), with the
quotient taken exactly.  `Rounded.dequantize` rounds it to binary32. -/
def dequantize (s : Int) : ℚ := (s : ℚ) / 32767

/-- Helper `fclamp` of daisysp: `fmin(fmax(x, lo), hi)`. -/
def fclamp (x lo hi : ℚ) : ℚ := min (max x lo) hi

/-- Zero fill loop `for(i = 0; i < n; i++) buf[i] = 0;` (lines 77-80, 286-289):
the buffer after `n` iterations. -/
def zeroFill : Nat → (Nat → Int) → (Nat → Int)
  | 0, buf => buf
  | n + 1, buf => Function.update (zeroFill n buf) n 0

/-! ## The external loop primitive -/

/-- The methods of `daisysp::Looper` that `TapeMachineTrack` calls, as pure
functions on an abstract looper state. -/
structure LooperOps (L : Type) where
  Process : L → ℚ → ℚ × L
  TrigRecord : L → L
  Clear : L → L
  Recording : L → Bool

/-! ## Track (lines 35-56) -/

/-- Fields of `TapeMachineTrack`.  The float `loop_buffer` array is owned by the
looper after `looper.Init(loop_buffer, LOOP_BUFFER_SIZE)` and is part of `L`. -/
structure TapeMachineTrack (L : Type) where
  mode : TrackMode
  state : TrackState
  tape_buffer : Nat → Int
  playhead_position : Nat
  record_position : Nat
  track_length : Nat
  armed : Bool
  muted : Bool
  volume : ℚ
  looper : L
  loop_has_content : Bool

variable {L : Type}

/-- Method `Init` (lines 58-81).  `looper0` is the looper state produced by
`looper.Init`, `mem` the QSPI memory found at `qspi_buffer_start`. -/
def Init (looper0 : L) (mem : Nat → Int) : TapeMachineTrack L :=
  { mode := MODE_LOOP
    state := STATE_STOPPED
    tape_buffer := zeroFill TAPE_BUFFER_SIZE mem
    playhead_position := 0
    record_position := 0
    track_length := 0
    armed := false
    muted := false
    volume := 8 / 10
    looper := looper0
    loop_has_content := false }

/-- Body of `Process` up to the end of the mode/state switch (lines 85-173):
the updated track together with the local variable `output`. -/
def ProcessBody (ops : LooperOps L) (t : TapeMachineTrack L) (input : ℚ) :
    TapeMachineTrack L × ℚ :=
  match t.mode with
  | MODE_LOOP =>
    match t.state with
    | STATE_STOPPED => (t, 0)
    | STATE_RECORDING =>
      let r := ops.Process t.looper input
      let t1 := { t with looper := r.2 }
      if !ops.Recording r.2 then
        ({ t1 with state := STATE_PLAYING, loop_has_content := true }, r.1)
      else
        (t1, r.1)
    | STATE_PLAYING =>
      let r := ops.Process t.looper 0
      ({ t with looper := r.2 }, r.1)
    | STATE_OVERDUBBING =>
      let r := ops.Process t.looper input
      ({ t with looper := r.2 }, r.1)
  | MODE_TAPE =>
    match t.state with
    | STATE_STOPPED => (t, 0)
    | STATE_RECORDING =>
      if t.record_position < TAPE_BUFFER_SIZE - 1 then
        ({ t with
            tape_buffer := Function.update t.tape_buffer t.record_position (quantize input)
            record_position := t.record_position + 1
            track_length := t.record_position + 1 }, input * (1 / 2))
      else
        ({ t with state := STATE_STOPPED }, input * (1 / 2))
    | STATE_PLAYING =>
      if t.playhead_position < t.track_length then
        ({ t with playhead_position := t.playhead_position + 1 },
          dequantize (t.tape_buffer t.playhead_position))
      else
        (t, 0)
    | STATE_OVERDUBBING =>
      if t.playhead_position < t.track_length then
        let existing := dequantize (t.tape_buffer t.playhead_position)
        let mixed := (existing + input) * (7 / 10)
        ({ t with
            tape_buffer := Function.update t.tape_buffer t.playhead_position (quantize mixed)
            playhead_position := t.playhead_position + 1 }, mixed)
      else
        ({ t with state := STATE_STOPPED }, 0)

/-- Method `Process` (lines 83-178): the switch, then "apply volume and mute"
(lines 175-177).  Returns the updated track and the returned sample. -/
def Process (ops : LooperOps L) (t : TapeMachineTrack L) (input : ℚ) :
    TapeMachineTrack L × ℚ :=
  let r := ProcessBody ops t input
  (r.1, if r.1.muted then 0 else r.2 * r.1.volume)

/-- Method `StartRecording` (lines 180-210). -/
def StartRecording (ops : LooperOps L) (t : TapeMachineTrack L) : TapeMachineTrack L :=
  match t.mode with
  | MODE_LOOP =>
    if t.loop_has_content && t.state == STATE_PLAYING then
      { t with state := STATE_OVERDUBBING, looper := ops.TrigRecord t.looper }
    else
      { t with state := STATE_RECORDING, looper := ops.TrigRecord t.looper }
  | MODE_TAPE =>
    if 0 < t.track_length ∧ t.state = STATE_PLAYING then
      { t with state := STATE_OVERDUBBING }
    else
      { t with state := STATE_RECORDING, record_position := 0, track_length := 0 }

/-- Method `StartPlayback` (lines 212-232). -/
def StartPlayback (t : TapeMachineTrack L) : TapeMachineTrack L :=
  match t.mode with
  | MODE_LOOP =>
    if t.loop_has_content then { t with state := STATE_PLAYING } else t
  | MODE_TAPE =>
    if 0 < t.track_length then
      if t.track_length ≤ t.playhead_position then
        { t with state := STATE_PLAYING, playhead_position := 0 }
      else
        { t with state := STATE_PLAYING }
    else t

/-- Method `Stop` (lines 234-253). -/
def Stop (ops : LooperOps L) (t : TapeMachineTrack L) : TapeMachineTrack L :=
  match t.mode with
  | MODE_LOOP =>
    if t.state = STATE_RECORDING ∨ t.state = STATE_OVERDUBBING then
      { t with looper := ops.TrigRecord t.looper, state := STATE_PLAYING,
               loop_has_content := true }
    else
      { t with state := STATE_STOPPED }
  | MODE_TAPE => { t with state := STATE_STOPPED }

/-- Method `Rewind` (lines 255-275). -/
def Rewind (ops : LooperOps L) (t : TapeMachineTrack L) : TapeMachineTrack L :=
  match t.mode with
  | MODE_TAPE => { t with playhead_position := 0 }
  | MODE_LOOP =>
    if t.state = STATE_PLAYING then
      { t with looper := ops.TrigRecord (ops.Clear t.looper), state := STATE_PLAYING }
    else t

/-- Method `Clear` (lines 277-295). -/
def Clear (ops : LooperOps L) (t : TapeMachineTrack L) : TapeMachineTrack L :=
  let t1 : TapeMachineTrack L :=
    match t.mode with
    | MODE_LOOP => { t with looper := ops.Clear t.looper, loop_has_content := false }
    | MODE_TAPE =>
      { t with tape_buffer := zeroFill TAPE_BUFFER_SIZE t.tape_buffer, track_length := 0 }
  { t1 with state := STATE_STOPPED, playhead_position := 0, record_position := 0 }

/-- Method `SetMode` (lines 297-304). -/
def SetMode (ops : LooperOps L) (new_mode : TrackMode) (t : TapeMachineTrack L) :
    TapeMachineTrack L :=
  if new_mode ≠ t.mode then { Stop ops t with mode := new_mode } else t

/-- Method `ToggleMode` (lines 306-309). -/
def ToggleMode (ops : LooperOps L) (t : TapeMachineTrack L) : TapeMachineTrack L :=
  SetMode ops (if t.mode = MODE_LOOP then MODE_TAPE else MODE_LOOP) t

/-- Method `SetVolume` (line 311). -/
def SetVolume (vol : ℚ) (t : TapeMachineTrack L) : TapeMachineTrack L :=
  { t with volume := fclamp vol 0 1 }

/-- Method `ToggleMute` (line 312). -/
def ToggleMute (t : TapeMachineTrack L) : TapeMachineTrack L :=
  { t with muted := !t.muted }

/-- Method `IsRecording` (line 313). -/
def IsRecording (t : TapeMachineTrack L) : Bool :=
  t.state == STATE_RECORDING || t.state == STATE_OVERDUBBING

/-- Method `IsPlaying` (line 314). -/
def IsPlaying (t : TapeMachineTrack L) : Bool :=
  t.state == STATE_PLAYING || t.state == STATE_OVERDUBBING

/-- Method `HasContent` (lines 315-318). -/
def HasContent (t : TapeMachineTrack L) : Bool :=
  match t.mode with
  | MODE_LOOP => t.loop_has_content
  | MODE_TAPE => decide (0 < t.track_length)

/-! ## Command sequences -/

/-- The transport commands and the audio-rate call that drive one track. -/
inductive Command where
  | startRecording
  | startPlayback
  | stop
  | rewind
  | clear
  | setMode (m : TrackMode)
  | toggleMode
  | process (input : ℚ)

/-- One command applied to a track: the new track and, for `process`, the
returned sample. -/
def step (ops : LooperOps L) (t : TapeMachineTrack L) : Command → TapeMachineTrack L × Option ℚ
  | .startRecording => (StartRecording ops t, none)
  | .startPlayback => (StartPlayback t, none)
  | .stop => (Stop ops t, none)
  | .rewind => (Rewind ops t, none)
  | .clear => (Clear ops t, none)
  | .setMode m => (SetMode ops m t, none)
  | .toggleMode => (ToggleMode ops t, none)
  | .process x => ((Process ops t x).1, some (Process ops t x).2)

/-- The trajectory of a command sequence: the track after every command,
paired with the sample that command returned (if it was a `process`). -/
def trajectory (ops : LooperOps L) (t : TapeMachineTrack L) :
    List Command → List (TapeMachineTrack L × Option ℚ)
  | [] => []
  | c :: cs => step ops t c :: trajectory ops (step ops t c).1 cs

/-- Track after a whole command sequence. -/
def runCommands (ops : LooperOps L) (t : TapeMachineTrack L) : List Command → TapeMachineTrack L
  | [] => t
  | c :: cs => runCommands ops (step ops t c).1 cs

/-- Consecutive `Process` calls on the inputs `xs`: the final track and the
list of returned samples. -/
def processMany (ops : LooperOps L) (t : TapeMachineTrack L) :
    List ℚ → TapeMachineTrack L × List ℚ
  | [] => (t, [])
  | x :: xs =>
    let r := Process ops t x
    let rest := processMany ops r.1 xs
    (rest.1, r.2 :: rest.2)

/-- Everything in a track except the `muted` flag, the volume and the unused
`armed` flag: mode, state, the three cursors, content flag, tape contents and
the state of the loop primitive. -/
def transportView (t : TapeMachineTrack L) :
    TrackMode × TrackState × Nat × Nat × Nat × Bool × (Nat → Int) × L :=
  (t.mode, t.state, t.playhead_position, t.record_position, t.track_length,
    t.loop_has_content, t.tape_buffer, t.looper)

/-- States reachable from `Init` by transport commands, `Process` calls and
the two parameter setters. -/
inductive Reachable (ops : LooperOps L) (looper0 : L) (mem : Nat → Int) :
    TapeMachineTrack L → Prop where
  | init : Reachable ops looper0 mem (Init looper0 mem)
  | command (t : TapeMachineTrack L) (c : Command) :
      Reachable ops looper0 mem t → Reachable ops looper0 mem (step ops t c).1
  | setVolume (t : TapeMachineTrack L) (v : ℚ) :
      Reachable ops looper0 mem t → Reachable ops looper0 mem (SetVolume v t)
  | toggleMute (t : TapeMachineTrack L) :
      Reachable ops looper0 mem t → Reachable ops looper0 mem (ToggleMute t)

/-! ## A recording double of the loop primitive, for concrete evaluation -/

/-- Calls made on the loop primitive. -/
inductive LooperCall where
  | process (x : ℚ)
  | trigRecord
  | clear
deriving DecidableEq

/-- A stand-in looper whose state is the log of calls made on it (most recent
first).  It emits silence and reports `Recording` after an odd number of
record toggles.  Used only to instantiate the general theorems. -/
def logOps : LooperOps (List LooperCall) where
  Process := fun l x => (0, LooperCall.process x :: l)
  TrigRecord := fun l => LooperCall.trigRecord :: l
  Clear := fun l => LooperCall.clear :: l
  Recording := fun l => decide (l.count LooperCall.trigRecord % 2 = 1)

/-- Overwrite the `muted` flag, leaving every other field as it is. -/
def setMuted (b : Bool) (t : TapeMachineTrack L) : TapeMachineTrack L :=
  { t with muted := b }

/-! ## Concrete tracks used for evaluation -/

/-- Memory that reads zero everywhere. -/
def zeroMem : Nat → Int := fun _ => 0

/-- A freshly initialised track (Loop mode, volume 0.8). -/
def initTrack : TapeMachineTrack (List LooperCall) := Init [] zeroMem

/-- A freshly initialised track switched to Tape mode. -/
def initTapeTrack : TapeMachineTrack (List LooperCall) := SetMode logOps MODE_TAPE initTrack

/-- A freshly initialised track on which `StartRecording` was pressed in Loop
mode. -/
def loopRecordingTrack : TapeMachineTrack (List LooperCall) := StartRecording logOps initTrack

/-- A Tape-mode track that is playing three recorded samples, at default
volume. -/
def playingTapeTrack : TapeMachineTrack (List LooperCall) :=
  { mode := MODE_TAPE
    state := STATE_PLAYING
    tape_buffer := fun i => if i < 3 then 32767 else 0
    playhead_position := 1
    record_position := 3
    track_length := 3
    armed := false
    muted := false
    volume := 8 / 10
    looper := []
    loop_has_content := false }

/-- A Tape-mode track recording at default volume whose record cursor has
reached the last usable position (silence was recorded so far). -/
def fullTapeTrack : TapeMachineTrack (List LooperCall) :=
  { mode := MODE_TAPE
    state := STATE_RECORDING
    tape_buffer := zeroMem
    playhead_position := 0
    record_position := TAPE_BUFFER_SIZE - 1
    track_length := TAPE_BUFFER_SIZE - 1
    armed := false
    muted := false
    volume := 8 / 10
    looper := []
    loop_has_content := false }

/-- The freshly initialised Tape-mode track after `StartRecording` and one
`Process(1)` call: one full-scale sample is on tape. -/
def recordedOneTrack : TapeMachineTrack (List LooperCall) :=
  (Process logOps (StartRecording logOps initTapeTrack) 1).1

/-- The track `recordedOneTrack` after `StartPlayback` and then `StartRecording`:
it overdubs its one recorded sample from playhead 0, at default volume. -/
def overdubOneTrack : TapeMachineTrack (List LooperCall) :=
  StartRecording logOps (StartPlayback recordedOneTrack)

/-- A freshly initialised Tape-mode track with the volume set to 1. -/
def unityTapeTrack : TapeMachineTrack (List LooperCall) := SetVolume 1 initTapeTrack

/-- The track reached from `Init` by `ToggleMode`, `StartRecording` and
`Process(1)`, as a command sequence. -/
def threeStepTrack : TapeMachineTrack (List LooperCall) :=
  (step logOps (step logOps (step logOps initTrack Command.toggleMode).1
    Command.startRecording).1 (Command.process 1)).1

/-- A short input signal within `[-1, 1]`. -/
def demoInput : List ℚ := [1, -1 / 2, 1 / 4]

/-! ## Invariant and closed forms used in the proofs -/

/-- The three cursors stay strictly inside the tape buffer. -/
def CursorInv (t : TapeMachineTrack L) : Prop :=
  t.playhead_position ≤ TAPE_BUFFER_SIZE - 1 ∧ t.record_position ≤ TAPE_BUFFER_SIZE - 1 ∧
    t.track_length ≤ TAPE_BUFFER_SIZE - 1

/-- Tape contents after the samples `xs` were recorded from index `r` on. -/
def recordedBuffer (buf : Nat → Int) (r : Nat) (xs : List ℚ) : Nat → Int :=
  fun i => if r ≤ i ∧ i < r + xs.length then quantize (xs.getD (i - r) 0) else buf i

/-- Tape contents after the inputs `ys` were overdubbed from index `p` on. -/
def overdubbedBuffer (buf : Nat → Int) (p : Nat) (ys : List ℚ) : Nat → Int :=
  fun i =>
    if p ≤ i ∧ i < p + ys.length then
      quantize ((dequantize (buf i) + ys.getD (i - p) 0) * (7 / 10))
    else buf i

/-- The index at which `Process` reads or writes `tape_buffer` in the state `t`
(lines 127, 144-145 and 159-162), if it touches the buffer at all: the record
cursor when recording below the capacity limit, the playhead when playing or
overdubbing before the end of the content. -/
def tapeAccessIndex (t : TapeMachineTrack L) : Option Nat :=
  match t.mode with
  | MODE_LOOP => none
  | MODE_TAPE =>
    match t.state with
    | STATE_STOPPED => none
    | STATE_RECORDING =>
      if t.record_position < TAPE_BUFFER_SIZE - 1 then some t.record_position else none
    | STATE_PLAYING =>
      if t.playhead_position < t.track_length then some t.playhead_position else none
    | STATE_OVERDUBBING =>
      if t.playhead_position < t.track_length then some t.playhead_position else none

/-- The float value that `Process` hands to `static_cast<int16_t>` while
recording (line 128). -/
def recordCastValue (input : ℚ) : ℚ := input * 32767

/-- The float value that `Process` hands to `static_cast<int16_t>` while
overdubbing (lines 160-162), for the stored sample `stored` and the input. -/
def overdubCastValue (stored : Int) (input : ℚ) : ℚ :=
  (dequantize stored + input) * (7 / 10) * 32767

/-- A Loop-mode track that is playing or overdubbing has its content flag
set. -/
def LoopContentInv (t : TapeMachineTrack L) : Prop :=
  t.mode = MODE_LOOP → (t.state = STATE_PLAYING ∨ t.state = STATE_OVERDUBBING) →
    t.loop_has_content = true

/-- A Tape-mode track that has played its three recorded samples to the end
(playhead equal to the length), at default volume. -/
def endOfTapeTrack : TapeMachineTrack (List LooperCall) :=
  { mode := MODE_TAPE
    state := STATE_PLAYING
    tape_buffer := fun i => if i < 3 then 32767 else 0
    playhead_position := 3
    record_position := 3
    track_length := 3
    armed := false
    muted := false
    volume := 8 / 10
    looper := []
    loop_has_content := false }

/-- The Loop-mode track `loopRecordingTrack` after `Stop`: it is playing its
loop. -/
def loopPlayingTrack : TapeMachineTrack (List LooperCall) := Stop logOps loopRecordingTrack

/-! ## binary32 arithmetic -/

/-- Rounding of a rational to the nearest integer, ties to the even one. -/
def roundHalfEven (q : ℚ) : Int :=
  if q - ⌊q⌋ < 1 / 2 then ⌊q⌋
  else if 1 / 2 < q - ⌊q⌋ then ⌊q⌋ + 1
  else if ⌊q⌋ % 2 = 0 then ⌊q⌋ else ⌊q⌋ + 1

/-- Exponent of the binary32 binade of `x`: the `e` with `2^e ≤ |x| < 2^(e+1)`,
and `-126` (the subnormal range) for smaller values. -/
def binade (x : ℚ) : Int := max (Int.log 2 |x|) (-126)

/-- A value of type `float` nearest to `x`: IEEE 754 binary32 rounding to nearest,
ties to even, with a 24 bit significand and subnormals below `2^-126`.  Every
`float` operation of the program returns `round32` of its exact result.
Overflow to infinity is left out: the values met here stay far below `2^128`. -/
def round32 (x : ℚ) : ℚ := roundHalfEven (x / 2 ^ (binade x - 23)) * 2 ^ (binade x - 23)

namespace Rounded

/-- Quantisation `static_cast<int16_t>(x * 32767.0f)` (lines 127-128 and 162)
with the `float` product rounded by `R`. -/
def quantize (R : ℚ → ℚ) (x : ℚ) : Int := toInt16 (R (x * 32767))

/-- Dequantisation `static_cast<float>(tape_buffer[pos]) / 32767.0f` (lines 145
and 160) with the `float` quotient rounded by `R`. -/
def dequantize (R : ℚ → ℚ) (s : Int) : ℚ := R ((s : ℚ) / 32767)

/-- Body of `Process` up to the end of the mode/state switch (lines 85-173),
with every `float` operation rounded by `R`: the products `input * 32767.0f`,
`input * 0.5f` and `mixed * 32767.0f`, the quotient by `32767.0f`, the sum
`existing + input`, its product with the constant `0.7f` (itself `R (7/10)`).
The constants `0.5f` and `32767.0f` are exact, and so is the conversion of an
`int16_t` to `float`. -/
def ProcessBody (R : ℚ → ℚ) (ops : LooperOps L) (t : TapeMachineTrack L) (input : ℚ) :
    TapeMachineTrack L × ℚ :=
  match t.mode with
  | MODE_LOOP =>
    match t.state with
    | STATE_STOPPED => (t, 0)
    | STATE_RECORDING =>
      let r := ops.Process t.looper input
      let t1 := { t with looper := r.2 }
      if !ops.Recording r.2 then
        ({ t1 with state := STATE_PLAYING, loop_has_content := true }, r.1)
      else
        (t1, r.1)
    | STATE_PLAYING =>
      let r := ops.Process t.looper 0
      ({ t with looper := r.2 }, r.1)
    | STATE_OVERDUBBING =>
      let r := ops.Process t.looper input
      ({ t with looper := r.2 }, r.1)
  | MODE_TAPE =>
    match t.state with
    | STATE_STOPPED => (t, 0)
    | STATE_RECORDING =>
      if t.record_position < TAPE_BUFFER_SIZE - 1 then
        ({ t with
            tape_buffer := Function.update t.tape_buffer t.record_position (quantize R input)
            record_position := t.record_position + 1
            track_length := t.record_position + 1 }, R (input * (1 / 2)))
      else
        ({ t with state := STATE_STOPPED }, R (input * (1 / 2)))
    | STATE_PLAYING =>
      if t.playhead_position < t.track_length then
        ({ t with playhead_position := t.playhead_position + 1 },
          dequantize R (t.tape_buffer t.playhead_position))
      else
        (t, 0)
    | STATE_OVERDUBBING =>
      if t.playhead_position < t.track_length then
        let existing := dequantize R (t.tape_buffer t.playhead_position)
        let mixed := R (R (existing + input) * R (7 / 10))
        ({ t with
            tape_buffer := Function.update t.tape_buffer t.playhead_position (quantize R mixed)
            playhead_position := t.playhead_position + 1 }, mixed)
      else
        ({ t with state := STATE_STOPPED }, 0)

/-- Method `Process` (lines 83-178) with every `float` operation rounded by `R`,
the final product `output * volume` included. -/
def Process (R : ℚ → ℚ) (ops : LooperOps L) (t : TapeMachineTrack L) (input : ℚ) :
    TapeMachineTrack L × ℚ :=
  let r := ProcessBody R ops t input
  (r.1, if r.1.muted then 0 else R (r.2 * r.1.volume))

/-- Consecutive rounded `Process` calls on the inputs `xs`: the final track and
the list of returned samples. -/
def processMany (R : ℚ → ℚ) (ops : LooperOps L) (t : TapeMachineTrack L) :
    List ℚ → TapeMachineTrack L × List ℚ
  | [] => (t, [])
  | x :: xs =>
    let r := Process R ops t x
    let rest := processMany R ops r.1 xs
    (rest.1, r.2 :: rest.2)

end Rounded

/-- A freshly initialised track switched to Tape mode, with the volume that
`Init` stores: the binary32 constant `0.8f`. -/
def float32TapeTrack : TapeMachineTrack (List LooperCall) :=
  { initTapeTrack with volume := round32 (8 / 10) }

/-! ## The C math library -/

/-- The single precision math functions and the daisysp constant `HALFPI_F`
used by the audio callbacks.  They are external to the repository and are taken
as parameters. -/
structure FloatMath where
  sqrtf : ℚ → ℚ
  tanhf : ℚ → ℚ
  cosf : ℚ → ℚ
  sinf : ℚ → ℚ
  log2f : ℚ → ℚ
  HALFPI_F : ℚ

/-- The range property of the hyperbolic tangent: every value lies in
`[-1, 1]`. -/
def TanhBounded (M : FloatMath) : Prop := ∀ x, -1 ≤ M.tanhf x ∧ M.tanhf x ≤ 1

/-- Rational stand-ins for the math functions, used only to instantiate the
general theorems: integer square root, `x / (1 + |x|)` for the hyperbolic
tangent, and low order polynomials for the others. -/
def standInMath : FloatMath where
  sqrtf := fun x => (Nat.sqrt ⌊x⌋₊ : ℚ)
  tanhf := fun x => x / (1 + |x|)
  cosf := fun x => 1 - x * x / 2
  sinf := fun x => x
  log2f := fun x => x - 1
  HALFPI_F := 355 / 226

/-- The Pythagorean identity of cosine and sine. -/
def UnitCircle (M : FloatMath) : Prop :=
  ∀ x, M.cosf x * M.cosf x + M.sinf x * M.sinf x = 1

/-- Rational stand-ins for the math functions in which cosine and sine are the
rational parametrisation of the unit circle by `u = x / 2`; the other functions
are those of `standInMath`. -/
def circleMath : FloatMath where
  sqrtf := standInMath.sqrtf
  tanhf := standInMath.tanhf
  cosf := fun x => (1 - (x / 2) * (x / 2)) / (1 + (x / 2) * (x / 2))
  sinf := fun x => 2 * (x / 2) / (1 + (x / 2) * (x / 2))
  log2f := standInMath.log2f
  HALFPI_F := standInMath.HALFPI_F

/-- A looper stand-in that plays back one constant sample value, which is its
whole state. -/
def constOps : LooperOps ℚ where
  Process := fun c _ => (c, c)
  TrigRecord := fun c => c
  Clear := fun _ => 0
  Recording := fun _ => false

/-! ## FourTrackTapeMachine.cpp: the audio callback (lines 511-544) -/

/-- The track loop of `AudioCallback` (lines 524-533) from the accumulators
`(mixed_output, active_tracks)`: every track processes the mono input, its
sample is added to the mix, and it is counted when its magnitude exceeds
0.001. -/
def trackLoop (ops : LooperOps L) (mono_input : ℚ) :
    List (TapeMachineTrack L) → ℚ × Nat → List (TapeMachineTrack L) × (ℚ × Nat)
  | [], acc => ([], acc)
  | t :: ts, acc =>
    let r := Process ops t mono_input
    let acc1 : ℚ × Nat := (acc.1 + r.2, if |r.2| > 1 / 1000 then acc.2 + 1 else acc.2)
    let rest := trackLoop ops mono_input ts acc1
    (r.1 :: rest.1, rest.2)

/-- The value of `mixed_output` just before the limiter (lines 517-536),
together with the updated tracks. -/
def preLimiterMix (ops : LooperOps L) (master_vol : ℚ) (tracks : List (TapeMachineTrack L))
    (input_left input_right : ℚ) : List (TapeMachineTrack L) × ℚ :=
  let mono_input := (input_left + input_right) * (1 / 2)
  let r := trackLoop ops mono_input tracks (0, 0)
  (r.1, r.2.1 * master_vol)

/-- One sample of `AudioCallback` (lines 515-543): the updated tracks and the
samples written to `out[0][i]` and `out[1][i]`. -/
def AudioSample (M : FloatMath) (ops : LooperOps L) (master_vol : ℚ)
    (tracks : List (TapeMachineTrack L)) (input_left input_right : ℚ) :
    List (TapeMachineTrack L) × ℚ × ℚ :=
  let r := preLimiterMix ops master_vol tracks input_left input_right
  let mixed_output := M.tanhf r.2
  (r.1, mixed_output, mixed_output)

end TapeMachine

/-! # FourTrackLooper.cpp -/

namespace FourTrackLooper

open TapeMachine (LooperOps constOps)

variable {L : Type}

def NUM_TRACKS : Nat := 4

/-- Fields of `LooperTrack` (lines 19-26); the float `buffer` is owned by the
looper. -/
structure LooperTrack (L : Type) where
  looper : L
  volume : ℚ
  muted : Bool
  solo : Bool

/-- Method `Init` (lines 28-34); `looper0` is the looper state produced by
`looper.Init`. -/
def Init (looper0 : L) : LooperTrack L :=
  { looper := looper0, volume := 1, muted := false, solo := false }

/-- Method `Process` (lines 36-41). -/
def Process (ops : LooperOps L) (t : LooperTrack L) (input : ℚ) : LooperTrack L × ℚ :=
  let r := ops.Process t.looper input
  ({ t with looper := r.2 }, if t.muted then 0 else r.1 * t.volume)

/-- Method `ToggleMute` (line 48). -/
def ToggleMute (t : LooperTrack L) : LooperTrack L := { t with muted := !t.muted }

/-- Method `ToggleSolo` (line 49). -/
def ToggleSolo (t : LooperTrack L) : LooperTrack L := { t with solo := !t.solo }

/-- The solo scan of `AudioCallback` (lines 252-260): the value of
`any_solo_active`. -/
def anySoloActive : List (LooperTrack L) → Bool
  | [] => false
  | t :: ts => if t.solo then true else anySoloActive ts

/-- The track loop of `AudioCallback` (lines 263-281) from the accumulators
`(mixed_output, active_tracks)`. -/
def trackLoop (ops : LooperOps L) (mono_input : ℚ) (any_solo_active : Bool) :
    List (LooperTrack L) → ℚ × Nat → List (LooperTrack L) × (ℚ × Nat)
  | [], acc => ([], acc)
  | t :: ts, acc =>
    let r := Process ops t mono_input
    let acc1 : ℚ × Nat :=
      if any_solo_active then
        if r.1.solo then (acc.1 + r.2, acc.2 + 1) else acc
      else (acc.1 + r.2, acc.2 + 1)
    let rest := trackLoop ops mono_input any_solo_active ts acc1
    (r.1 :: rest.1, rest.2)

/-- Result of one sample of `AudioCallback`: the updated tracks, the sum and
the count left by the track loop, and the sample written to both output
channels. -/
structure MixResult (L : Type) where
  tracks : List (LooperTrack L)
  any_solo_active : Bool
  sum : ℚ
  active_tracks : Nat
  out : ℚ

/-- One sample of `AudioCallback` (lines 242-298).  The source mixes the fixed
array `tracks[NUM_TRACKS]`; the list `tracks` stands for that array, and the
statements about the program take `tracks.length = NUM_TRACKS`. -/
def AudioSample (ops : LooperOps L) (master_volume : ℚ) (tracks : List (LooperTrack L))
    (input_left input_right : ℚ) : MixResult L :=
  let mono_input := (input_left + input_right) * (1 / 2)
  let any_solo_active := anySoloActive tracks
  let r := trackLoop ops mono_input any_solo_active tracks (0, 0)
  let mixed1 := if 1 < r.2.2 then r.2.1 / (r.2.2 : ℚ) else r.2.1
  let mixed2 := mixed1 * master_volume
  let dry_level : ℚ := 1 / 10
  let mixed3 := mixed2 + mono_input * dry_level
  { tracks := r.1, any_solo_active := any_solo_active, sum := r.2.1,
    active_tracks := r.2.2, out := mixed3 }

/-- A track of the stand-in looper `constOps` that plays the constant `c` at
volume 1, unmuted. -/
def constTrack (c : ℚ) (solo : Bool) : LooperTrack ℚ :=
  { looper := c, volume := 1, muted := false, solo := solo }

/-- The four tracks of the program, none soloed: two producing `0.5` and `-0.5`,
the other two silent. -/
def cancellingTracks : List (LooperTrack ℚ) :=
  [constTrack (1 / 2) false, constTrack (-1 / 2) false, constTrack 0 false, constTrack 0 false]

/-- The four tracks of the program, none soloed: two producing `0.8`, the other
two silent. -/
def twoSoundingTracks : List (LooperTrack ℚ) :=
  [constTrack (4 / 5) false, constTrack (4 / 5) false, constTrack 0 false, constTrack 0 false]

/-- The four tracks of the program, none soloed, all producing `0.8`. -/
def fourSoundingTracks : List (LooperTrack ℚ) :=
  [constTrack (4 / 5) false, constTrack (4 / 5) false, constTrack (4 / 5) false,
    constTrack (4 / 5) false]

end FourTrackLooper

/-! # FourTrackLooperSimple.cpp -/

namespace FourTrackLooperSimple

open TapeMachine (LooperOps FloatMath)

variable {L : Type}

def NUM_TRACKS : Nat := 4

/-- Fields of `SimpleLooperTrack` (lines 17-23); the float `buffer` is owned by
the looper. -/
structure SimpleLooperTrack (L : Type) where
  looper : L
  volume : ℚ
  muted : Bool

/-- Method `Init` (lines 25-30). -/
def Init (looper0 : L) : SimpleLooperTrack L :=
  { looper := looper0, volume := 8 / 10, muted := false }

/-- Method `Process` (lines 32-37). -/
def Process (ops : LooperOps L) (t : SimpleLooperTrack L) (input : ℚ) :
    SimpleLooperTrack L × ℚ :=
  let r := ops.Process t.looper input
  ({ t with looper := r.2 }, if t.muted then 0 else r.1 * t.volume)

/-- Method `IsRecording` (line 41). -/
def IsRecording (ops : LooperOps L) (t : SimpleLooperTrack L) : Bool :=
  ops.Recording t.looper

/-- The track loop of `AudioCallback` (lines 242-250) from the accumulators
`(mixed_output, active_count)`. -/
def trackLoop (ops : LooperOps L) (mono_input : ℚ) :
    List (SimpleLooperTrack L) → ℚ × Nat → List (SimpleLooperTrack L) × (ℚ × Nat)
  | [], acc => ([], acc)
  | t :: ts, acc =>
    let r := Process ops t mono_input
    let acc1 : ℚ × Nat := if |r.2| > 1 / 1000 then (acc.1 + r.2, acc.2 + 1) else acc
    let rest := trackLoop ops mono_input ts acc1
    (r.1 :: rest.1, rest.2)

/-- The recording scan of `AudioCallback` (lines 262-270): the value of
`any_recording`. -/
def anyRecording (ops : LooperOps L) : List (SimpleLooperTrack L) → Bool
  | [] => false
  | t :: ts => if IsRecording ops t then true else anyRecording ops ts

/-- The value of `mixed_output` just before the limiter (lines 231-275),
together with the updated tracks. -/
def preLimiterMix (M : FloatMath) (ops : LooperOps L) (master_vol : ℚ)
    (tracks : List (SimpleLooperTrack L)) (input_left input_right : ℚ) :
    List (SimpleLooperTrack L) × ℚ :=
  let mono_input := (input_left + input_right) * (1 / 2)
  let r := trackLoop ops mono_input tracks (0, 0)
  let mixed1 := if 1 < r.2.2 then r.2.1 * (1 / M.sqrtf (r.2.2 : ℚ)) else r.2.1
  let mixed2 := mixed1 * master_vol
  let mixed3 := if anyRecording ops r.1 then mixed2 + mono_input * (1 / 10) else mixed2
  (r.1, mixed3)

/-- One sample of `AudioCallback` (lines 229-282): the updated tracks and the
samples written to `out[0][i]` and `out[1][i]`. -/
def AudioSample (M : FloatMath) (ops : LooperOps L) (master_vol : ℚ)
    (tracks : List (SimpleLooperTrack L)) (input_left input_right : ℚ) :
    List (SimpleLooperTrack L) × ℚ × ℚ :=
  let r := preLimiterMix M ops master_vol tracks input_left input_right
  let mixed_output := M.tanhf (r.2 * (9 / 10))
  (r.1, mixed_output, mixed_output)

end FourTrackLooperSimple

/-! # FourTrackLooperAdvanced.cpp -/

namespace FourTrackLooperAdvanced

open TapeMachine (FloatMath truncToZero)

def NUM_TRACKS : Nat := 4
def SAMPLE_RATE : Nat := 48000

/-- The daisysp primitives owned by an `AdvancedLooperTrack` (`Looper`, `Svf`,
`PitchShifter`, `DelayLine`): their state types and the methods the track
calls, as pure functions.  They are external to the repository. -/
structure Prims where
  Looper : Type
  Svf : Type
  PitchShifter : Type
  DelayLine : Type
  looperProcess : Looper → ℚ → ℚ × Looper
  looperRecording : Looper → Bool
  looperIsNearBeginning : Looper → Bool
  looperSetReverse : Looper → Bool → Looper
  looperSetHalfSpeed : Looper → Bool → Looper
  looperTrigRecord : Looper → Looper
  looperClear : Looper → Looper
  svfSetFreq : Svf → ℚ → Svf
  svfProcess : Svf → ℚ → Svf
  svfLow : Svf → ℚ
  pitcherSetTransposition : PitchShifter → ℚ → PitchShifter
  pitcherProcess : PitchShifter → ℚ → ℚ × PitchShifter
  delayRead : DelayLine → ℚ
  delayWrite : DelayLine → ℚ → DelayLine

/-- Fields of `AdvancedLooperTrack` (lines 17-49); the float `buffer` is owned
by the looper. -/
structure AdvancedLooperTrack (P : Prims) where
  looper : P.Looper
  volume : ℚ
  pan : ℚ
  muted : Bool
  solo : Bool
  reverse : Bool
  half_speed : Bool
  pitch_shift : ℚ
  filter_cutoff : ℚ
  feedback_amount : ℚ
  filter : P.Svf
  pitcher : P.PitchShifter
  delay : P.DelayLine
  has_content : Bool
  loop_length : Nat
  sync_point : Nat
  performance_mode : Bool
  crossfade_target : ℚ
  crossfade_current : ℚ

/-- The crossfade ramp of `Process` (lines 139-151): the new value of
`crossfade_current`. -/
def crossfadeStep (current target : ℚ) : ℚ :=
  let rate : ℚ := 1 / 1000
  if current < target then
    if current + rate > target then target else current + rate
  else if current > target then
    if current - rate < target then target else current - rate
  else current

/-- Method `Process` (lines 82-163): the updated track and the returned
sample. -/
def Process (P : Prims) (M : FloatMath) (t : AdvancedLooperTrack P) (input : ℚ)
    (sync_trigger : Bool) : AdvancedLooperTrack P × ℚ :=
  let sync_point := if sync_trigger && P.looperIsNearBeginning t.looper then 0 else t.sync_point
  let lp := P.looperProcess t.looper input
  let has_content :=
    if !P.looperRecording lp.2 && decide (|lp.1| > 1 / 1000) then true else t.has_content
  let looper2 := if t.reverse then P.looperSetReverse lp.2 true else lp.2
  let looper3 := if t.half_speed then P.looperSetHalfSpeed looper2 true else looper2
  let pitched : ℚ × P.PitchShifter :=
    if t.pitch_shift ≠ 1 then
      P.pitcherProcess (P.pitcherSetTransposition t.pitcher (12 * M.log2f t.pitch_shift)) lp.1
    else (lp.1, t.pitcher)
  let filter1 := P.svfProcess (P.svfSetFreq t.filter t.filter_cutoff) pitched.1
  let filtered := P.svfLow filter1
  let delayed := P.delayRead t.delay
  let delay1 :=
    if t.feedback_amount > 0 then
      P.delayWrite t.delay (filtered + delayed * t.feedback_amount * (3 / 10))
    else P.delayWrite t.delay filtered
  let fed := if t.feedback_amount > 0 then filtered + delayed * t.feedback_amount else filtered
  let crossfade_current :=
    if t.performance_mode then crossfadeStep t.crossfade_current t.crossfade_target
    else t.crossfade_current
  let output :=
    if t.performance_mode then fed * (t.volume * crossfade_current) else fed * t.volume
  ({ t with
      sync_point := sync_point
      looper := looper3
      has_content := has_content
      pitcher := pitched.2
      filter := filter1
      delay := delay1
      crossfade_current := crossfade_current },
    if t.muted then 0 else output)

/-- Method `GetStereoOutput` (lines 165-173): the updated track and the values
stored to `*left` and `*right`. -/
def GetStereoOutput (P : Prims) (M : FloatMath) (t : AdvancedLooperTrack P) (input : ℚ)
    (sync_trigger : Bool) : AdvancedLooperTrack P × ℚ × ℚ :=
  let r := Process P M t input sync_trigger
  let pan_rad := r.1.pan * M.HALFPI_F
  (r.1, r.2 * M.cosf pan_rad, r.2 * M.sinf pan_rad)

/-- Method `ToggleSolo` (line 190). -/
def ToggleSolo {P : Prims} (t : AdvancedLooperTrack P) : AdvancedLooperTrack P :=
  { t with solo := !t.solo }

/-- Method `Init` (lines 51-80).  The four arguments are the states of the
primitives after their initialisation calls (lines 53-56 and 75-79). -/
def Init (P : Prims) (looper0 : P.Looper) (filter0 : P.Svf) (pitcher0 : P.PitchShifter)
    (delay0 : P.DelayLine) : AdvancedLooperTrack P :=
  { looper := looper0
    volume := 1
    pan := 0
    muted := false
    solo := false
    reverse := false
    half_speed := false
    pitch_shift := 1
    filter_cutoff := 1000
    feedback_amount := 0
    filter := filter0
    pitcher := pitcher0
    delay := delay0
    has_content := false
    loop_length := 0
    sync_point := 0
    performance_mode := false
    crossfade_target := 1
    crossfade_current := 1 }

/-- Method `SetPan` (line 188). -/
def SetPan {P : Prims} (p : ℚ) (t : AdvancedLooperTrack P) : AdvancedLooperTrack P :=
  { t with pan := TapeMachine.fclamp p (-1) 1 }

/-- The global variables read or written by the audio callback (lines 234-245)
and the static local `last_sync` of `UpdateSync`; the `uint32_t` ones are
natural numbers below `2^32`. -/
structure Globals where
  master_volume : ℚ
  any_solo_active : Bool
  tempo_multiplier : ℚ
  sync_enabled : Bool
  master_clock : Nat
  beat_length : Nat
  sync_trigger : Bool
  last_sync : Nat

/-- The "update solo state" block that ends `UpdateControls` (lines 400-409):
the value it leaves in `any_solo_active`. -/
def UpdateSoloState {P : Prims} : List (AdvancedLooperTrack P) → Bool
  | [] => false
  | t :: ts => if t.solo then true else UpdateSoloState ts

/-- Function `UpdateSync` (lines 412-429), with `uint32_t` arithmetic modulo
`2^32`. -/
def UpdateSync (g : Globals) : Globals :=
  let sync_interval := (truncToZero ((g.beat_length : ℚ) / g.tempo_multiplier)).toNat % 2 ^ 32
  let g1 : Globals :=
    if g.sync_enabled = true ∧ sync_interval ≤ (g.master_clock + 2 ^ 32 - g.last_sync) % 2 ^ 32 then
      { g with sync_trigger := true, last_sync := g.master_clock }
    else
      { g with sync_trigger := false }
  { g1 with master_clock := (g1.master_clock + 1) % 2 ^ 32 }

/-- The track loop of `AudioCallback` (lines 507-528) from the accumulators
`(mixed_left, mixed_right, contributing_tracks)`. -/
def trackLoop (P : Prims) (M : FloatMath) (mono_input : ℚ) (sync_trigger : Bool)
    (any_solo_active : Bool) :
    List (AdvancedLooperTrack P) → ℚ × ℚ × Nat → List (AdvancedLooperTrack P) × (ℚ × ℚ × Nat)
  | [], acc => ([], acc)
  | t :: ts, acc =>
    let r := GetStereoOutput P M t mono_input sync_trigger
    let acc1 : ℚ × ℚ × Nat :=
      if any_solo_active then
        if r.1.solo then (acc.1 + r.2.1, acc.2.1 + r.2.2, acc.2.2 + 1) else acc
      else (acc.1 + r.2.1, acc.2.1 + r.2.2, acc.2.2 + 1)
    let rest := trackLoop P M mono_input sync_trigger any_solo_active ts acc1
    (r.1 :: rest.1, rest.2)

/-- The values of `mixed_left` and `mixed_right` just before the limiter (lines
496-546), with the updated globals and tracks. -/
def preLimiterMix (P : Prims) (M : FloatMath) (g : Globals)
    (tracks : List (AdvancedLooperTrack P)) (input_left input_right : ℚ) :
    Globals × List (AdvancedLooperTrack P) × ℚ × ℚ :=
  let g1 := UpdateSync g
  let mono_input := (input_left + input_right) * (1 / 2)
  let r := trackLoop P M mono_input g1.sync_trigger g1.any_solo_active tracks (0, 0, 0)
  let mix_level : ℚ := 1 / M.sqrtf (r.2.2.2 : ℚ)
  let left1 := if 0 < r.2.2.2 then r.2.1 * mix_level else r.2.1
  let right1 := if 0 < r.2.2.2 then r.2.2.1 * mix_level else r.2.2.1
  let dry_level : ℚ := 5 / 100
  (g1, r.1, left1 * g1.master_volume + input_left * dry_level,
    right1 * g1.master_volume + input_right * dry_level)

/-- One sample of `AudioCallback` (lines 493-554): the updated globals and
tracks and the samples written to `out[0][i]` and `out[1][i]`. -/
def AudioSample (P : Prims) (M : FloatMath) (g : Globals)
    (tracks : List (AdvancedLooperTrack P)) (input_left input_right : ℚ) :
    Globals × List (AdvancedLooperTrack P) × ℚ × ℚ :=
  let r := preLimiterMix P M g tracks input_left input_right
  (r.1, r.2.1, M.tanhf (r.2.2.1 * (8 / 10)), M.tanhf (r.2.2.2 * (8 / 10)))

/-- The call `tracks[i].ToggleSolo()` of `UpdateControls` (line 346) on the
track array. -/
def toggleSoloAt {P : Prims} : Nat → List (AdvancedLooperTrack P) → List (AdvancedLooperTrack P)
  | _, [] => []
  | 0, t :: ts => ToggleSolo t :: ts
  | i + 1, t :: ts => t :: toggleSoloAt i ts

/-- Program states in which an audio frame can start.  `AudioCallback` runs in
the audio interrupt, asynchronously to the main loop that calls
`UpdateControls`, so a frame can start between any two statements of
`UpdateControls`.  At program start no track is soloed and `any_solo_active`
is false (lines 61, 239).  The steps listed are those that touch the solo
logic: a press of a solo button toggles one solo flag (line 346) and leaves
`any_solo_active` as it was; the solo scan first clears `any_solo_active`
(line 401) and at its end has set it to `UpdateSoloState` of the tracks (lines
402-409); one audio sample is `AudioSample`. -/
inductive FrameState (P : Prims) (M : FloatMath) :
    Globals → List (AdvancedLooperTrack P) → Prop where
  | start (g : Globals) (tracks : List (AdvancedLooperTrack P)) :
      tracks.length = NUM_TRACKS → g.any_solo_active = false →
      (∀ t ∈ tracks, t.solo = false) → FrameState P M g tracks
  | toggleSolo (g : Globals) (tracks : List (AdvancedLooperTrack P)) (i : Nat) :
      FrameState P M g tracks → FrameState P M g (toggleSoloAt i tracks)
  | scanReset (g : Globals) (tracks : List (AdvancedLooperTrack P)) :
      FrameState P M g tracks → FrameState P M { g with any_solo_active := false } tracks
  | scanDone (g : Globals) (tracks : List (AdvancedLooperTrack P)) :
      FrameState P M g tracks →
      FrameState P M { g with any_solo_active := UpdateSoloState tracks } tracks
  | audio (g : Globals) (tracks : List (AdvancedLooperTrack P)) (input_left input_right : ℚ) :
      FrameState P M g tracks →
      FrameState P M (AudioSample P M g tracks input_left input_right).1
        (AudioSample P M g tracks input_left input_right).2.1

/-- Stand-ins for the daisysp primitives, used only to instantiate the general
theorems: the looper plays back a constant (its state), the pitch shifter and
the filter pass the signal through, the delay line returns the last value
written. -/
def standInPrims : Prims where
  Looper := ℚ
  Svf := ℚ
  PitchShifter := Unit
  DelayLine := ℚ
  looperProcess := fun c _ => (c, c)
  looperRecording := fun _ => false
  looperIsNearBeginning := fun _ => false
  looperSetReverse := fun c _ => c
  looperSetHalfSpeed := fun c _ => c
  looperTrigRecord := fun c => c
  looperClear := fun _ => 0
  svfSetFreq := fun f _ => f
  svfProcess := fun _ x => x
  svfLow := fun f => f
  pitcherSetTransposition := fun p _ => p
  pitcherProcess := fun p x => (x, p)
  delayRead := fun d => d
  delayWrite := fun _ x => x

/-- A track over `standInPrims` as `Init` leaves it (lines 58-72), playing the
constant `c`, with the given `solo` flag. -/
def standInTrack (c : ℚ) (solo : Bool) : AdvancedLooperTrack standInPrims :=
  { looper := c
    volume := 1
    pan := 0
    muted := false
    solo := solo
    reverse := false
    half_speed := false
    pitch_shift := 1
    filter_cutoff := 1000
    feedback_amount := 0
    filter := (0 : ℚ)
    pitcher := ()
    delay := (0 : ℚ)
    has_content := false
    loop_length := 0
    sync_point := 0
    performance_mode := false
    crossfade_target := 1
    crossfade_current := 1 }

/-- The globals at program start (lines 235-245), with `any_solo_active` as
given. -/
def initGlobals (any_solo_active : Bool) : Globals :=
  { master_volume := 1
    any_solo_active := any_solo_active
    tempo_multiplier := 1
    sync_enabled := true
    master_clock := 0
    beat_length := SAMPLE_RATE
    sync_trigger := false
    last_sync := 0 }

end FourTrackLooperAdvanced

/-! # Mix bus scenarios -/

namespace MixBus

/-- The solo scenario on the four tracks of FourTrackLooper.cpp: tracks
producing `0.2`, `0.4` and `0.6` and a silent fourth track, the second one
soloed. -/
def soloScenario : List (FourTrackLooper.LooperTrack ℚ) :=
  [FourTrackLooper.constTrack (1 / 5) false, FourTrackLooper.constTrack (2 / 5) true,
    FourTrackLooper.constTrack (3 / 5) false, FourTrackLooper.constTrack 0 false]

/-- The tracks of `soloScenario` after the solo and mute buttons of the third
track were pressed: tracks two and three are soloed, and the third, being
muted, returns `0`. -/
def mutedSoloScenario : List (FourTrackLooper.LooperTrack ℚ) :=
  [FourTrackLooper.constTrack (1 / 5) false, FourTrackLooper.constTrack (2 / 5) true,
    FourTrackLooper.ToggleMute (FourTrackLooper.constTrack (3 / 5) true),
    FourTrackLooper.constTrack 0 false]

/-- Four tracks of FourTrackLooperAdvanced.cpp producing `0.2`, `0.4`, `0.6` and
`0`, none soloed. -/
def stereoTracks :
    List (FourTrackLooperAdvanced.AdvancedLooperTrack FourTrackLooperAdvanced.standInPrims) :=
  [FourTrackLooperAdvanced.standInTrack (1 / 5) false,
    FourTrackLooperAdvanced.standInTrack (2 / 5) false,
    FourTrackLooperAdvanced.standInTrack (3 / 5) false,
    FourTrackLooperAdvanced.standInTrack 0 false]

/-- The solo scenario on the four tracks of FourTrackLooperAdvanced.cpp: the
tracks of `stereoTracks` with the second one soloed. -/
def stereoSoloScenario :
    List (FourTrackLooperAdvanced.AdvancedLooperTrack FourTrackLooperAdvanced.standInPrims) :=
  [FourTrackLooperAdvanced.standInTrack (1 / 5) false,
    FourTrackLooperAdvanced.standInTrack (2 / 5) true,
    FourTrackLooperAdvanced.standInTrack (3 / 5) false,
    FourTrackLooperAdvanced.standInTrack 0 false]

/-- Four FourTrackLooper tracks as `Init` leaves them (volume 1, not muted, not
soloed), each playing back a full-scale constant. -/
def fullScaleTracks : List (FourTrackLooper.LooperTrack ℚ) :=
  [FourTrackLooper.constTrack 1 false, FourTrackLooper.constTrack 1 false,
    FourTrackLooper.constTrack 1 false, FourTrackLooper.constTrack 1 false]

end MixBus

namespace TapeMachine

open TrackMode TrackState

variable {L : Type}

/-! ## Basic facts -/

theorem zeroFill_apply (n : Nat) (buf : Nat → Int) (i : Nat) :
    zeroFill n buf i = if i < n then 0 else buf i := by
  induction n with
  | zero => simp [zeroFill]
  | succ n ih =>
    simp only [zeroFill, Function.update_apply, ih]
    by_cases h1 : i = n
    · subst h1; simp
    · by_cases h2 : i < n
      · have : i < n + 1 := by omega
        simp [h1, h2, this]
      · have : ¬ i < n + 1 := by omega
        simp [h1, h2, this]

theorem tape_buffer_size_eq : TAPE_BUFFER_SIZE = 2880000 := by
  simp [TAPE_BUFFER_SIZE, SAMPLE_RATE, TAPE_MAX_TIME]

/-! ## Runs of consecutive Process calls -/

theorem recordedBuffer_nil (buf : Nat → Int) (r : Nat) : recordedBuffer buf r [] = buf := by
  funext i
  simp only [recordedBuffer, List.length_nil, Nat.add_zero]
  have : ¬ (r ≤ i ∧ i < r) := by omega
  simp [this]

theorem recordedBuffer_cons (buf : Nat → Int) (r : Nat) (x : ℚ) (xs : List ℚ) :
    recordedBuffer (Function.update buf r (quantize x)) (r + 1) xs =
      recordedBuffer buf r (x :: xs) := by
  funext i
  simp only [recordedBuffer, List.length_cons, Function.update_apply]
  by_cases h0 : i = r
  · subst h0
    have h1 : ¬ (i + 1 ≤ i ∧ i < i + 1 + xs.length) := by omega
    have h2 : i ≤ i ∧ i < i + (xs.length + 1) := by omega
    simp [h1, h2]
  · by_cases h1 : r + 1 ≤ i ∧ i < r + 1 + xs.length
    · have h2 : r ≤ i ∧ i < r + (xs.length + 1) := by omega
      have h3 : i - r = (i - (r + 1)) + 1 := by omega
      simp only [h1, h2, and_self, if_true]
      rw [h3, List.getD_cons_succ]
    · have h2 : ¬ (r ≤ i ∧ i < r + (xs.length + 1)) := by omega
      simp [h0, h1, h2]

theorem processMany_append (ops : LooperOps L) (xs ys : List ℚ) :
    ∀ t : TapeMachineTrack L,
      processMany ops t (xs ++ ys) =
        ((processMany ops (processMany ops t xs).1 ys).1,
          (processMany ops t xs).2 ++ (processMany ops (processMany ops t xs).1 ys).2) := by
  induction xs with
  | nil => intro t; simp [processMany]
  | cons x xs ih => intro t; simp [processMany, ih]

theorem processMany_length (ops : LooperOps L) (xs : List ℚ) :
    ∀ t : TapeMachineTrack L, (processMany ops t xs).2.length = xs.length := by
  induction xs with
  | nil => intro t; simp [processMany]
  | cons x xs ih => intro t; simp [processMany, ih]

/-- One `Process` call while recording to tape below the capacity limit. -/
theorem Process_recording (ops : LooperOps L) (t : TapeMachineTrack L) (x : ℚ)
    (hm : t.mode = MODE_TAPE) (hs : t.state = STATE_RECORDING)
    (hlt : t.record_position < TAPE_BUFFER_SIZE - 1) :
    Process ops t x =
      ({ t with
          tape_buffer := Function.update t.tape_buffer t.record_position (quantize x)
          record_position := t.record_position + 1
          track_length := t.record_position + 1 },
        if t.muted then 0 else x * (1 / 2) * t.volume) := by
  simp [Process, ProcessBody, hm, hs, hlt]

/-- One `Process` call while recording to tape at the capacity limit. -/
theorem Process_recording_full (ops : LooperOps L) (t : TapeMachineTrack L) (x : ℚ)
    (hm : t.mode = MODE_TAPE) (hs : t.state = STATE_RECORDING)
    (hge : ¬ t.record_position < TAPE_BUFFER_SIZE - 1) :
    Process ops t x =
      ({ t with state := STATE_STOPPED }, if t.muted then 0 else x * (1 / 2) * t.volume) := by
  simp [Process, ProcessBody, hm, hs, hge]

/-- A stopped Tape-mode track ignores `Process` calls. -/
theorem processMany_stopped (ops : LooperOps L) (xs : List ℚ) :
    ∀ t : TapeMachineTrack L, t.mode = MODE_TAPE → t.state = STATE_STOPPED →
      (processMany ops t xs).1 = t := by
  induction xs with
  | nil => intro t _ _; rfl
  | cons x xs ih =>
    intro t hm hs
    have h1 : (Process ops t x).1 = t := by simp [Process, ProcessBody, hm, hs]
    simp only [processMany, h1]
    exact ih t hm hs

/-- Closed form of a run of `Process` calls that stays below the capacity
limit while recording to tape. -/
theorem processMany_recording (ops : LooperOps L) (xs : List ℚ) :
    ∀ t : TapeMachineTrack L, t.mode = MODE_TAPE → t.state = STATE_RECORDING →
      t.track_length = t.record_position →
      t.record_position + xs.length ≤ TAPE_BUFFER_SIZE - 1 →
      processMany ops t xs =
        ({ t with
            tape_buffer := recordedBuffer t.tape_buffer t.record_position xs
            record_position := t.record_position + xs.length
            track_length := t.record_position + xs.length },
          xs.map (fun x => if t.muted then 0 else x * (1 / 2) * t.volume)) := by
  induction xs with
  | nil =>
    intro t _ _ hl _
    cases t with
    | mk mode state buf ph rp len armed muted vol looper hc =>
      simp only at hl
      subst hl
      simp [processMany, recordedBuffer_nil]
  | cons x xs ih =>
    intro t hm hs hl hb
    have hlt : t.record_position < TAPE_BUFFER_SIZE - 1 := by
      simp only [List.length_cons] at hb; omega
    have hP := Process_recording ops t x hm hs hlt
    have hb2 : t.record_position + 1 + xs.length ≤ TAPE_BUFFER_SIZE - 1 := by
      simp only [List.length_cons] at hb; omega
    have := ih (Process ops t x).1 (by rw [hP]; exact hm) (by rw [hP]; exact hs)
      (by rw [hP]) (by rw [hP]; exact hb2)
    simp only [processMany, this]
    rw [hP]
    simp only [recordedBuffer_cons, List.length_cons, List.map_cons]
    have e : t.record_position + 1 + xs.length = t.record_position + (xs.length + 1) := by omega
    rw [e]

/-! ## Quantisation error -/

theorem wrapInt16_of_inRange (z : Int) (hlo : -32768 ≤ z) (hhi : z ≤ 32767) :
    wrapInt16 z = z := by
  unfold wrapInt16
  omega

theorem truncToZero_spec (y : ℚ) (hlo : -32767 ≤ y) (hhi : y ≤ 32767) :
    -32767 ≤ truncToZero y ∧ truncToZero y ≤ 32767 ∧ |(truncToZero y : ℚ) - y| < 1 := by
  unfold truncToZero
  split_ifs with h
  · have h1 := Int.floor_le y
    have h2 := Int.lt_floor_add_one y
    have h3 : (0 : ℤ) ≤ ⌊y⌋ := Int.floor_nonneg.mpr h
    have h4 : ⌊y⌋ ≤ 32767 := by
      have : ((⌊y⌋ : ℤ) : ℚ) ≤ ((32767 : ℤ) : ℚ) := by push_cast; linarith
      exact_mod_cast this
    refine ⟨by omega, h4, ?_⟩
    rw [abs_lt]
    constructor <;> linarith
  · push_neg at h
    have h1 := Int.le_ceil y
    have h2 := Int.ceil_lt_add_one y
    have h3 : ⌈y⌉ ≤ 0 := Int.ceil_le.mpr (by simpa using h.le)
    have h4 : -32767 ≤ ⌈y⌉ := by
      have : ((-32767 : ℤ) : ℚ) ≤ ((⌈y⌉ : ℤ) : ℚ) := by push_cast; linarith
      exact_mod_cast this
    refine ⟨h4, by omega, ?_⟩
    rw [abs_lt]
    constructor <;> linarith

/-- Writing a sample in `[-1, 1]` to tape and reading it back loses less than
one quantisation step. -/
theorem quantize_roundtrip (x : ℚ) (hlo : -1 ≤ x) (hhi : x ≤ 1) :
    |dequantize (quantize x) - x| < 1 / 32767 := by
  obtain ⟨h1, h2, h3⟩ := truncToZero_spec (x * 32767) (by linarith) (by linarith)
  unfold dequantize quantize toInt16
  rw [wrapInt16_of_inRange _ (by omega) h2]
  have e : (truncToZero (x * 32767) : ℚ) / 32767 - x =
      ((truncToZero (x * 32767) : ℚ) - x * 32767) / 32767 := by
    field_simp
    ring
  rw [e, abs_div]
  have : |(32767 : ℚ)| = 32767 := abs_of_pos (by norm_num)
  rw [this]
  exact div_lt_div_of_pos_right h3 (by norm_num)

/-! ## Playback and overdub runs -/

theorem overdubbedBuffer_nil (buf : Nat → Int) (p : Nat) : overdubbedBuffer buf p [] = buf := by
  funext i
  simp only [overdubbedBuffer, List.length_nil, Nat.add_zero]
  have : ¬ (p ≤ i ∧ i < p) := by omega
  rw [if_neg this]

theorem overdubbedBuffer_cons (buf : Nat → Int) (p : Nat) (y : ℚ) (ys : List ℚ) :
    overdubbedBuffer
        (Function.update buf p (quantize ((dequantize (buf p) + y) * (7 / 10)))) (p + 1) ys =
      overdubbedBuffer buf p (y :: ys) := by
  funext i
  simp only [overdubbedBuffer, List.length_cons, Function.update_apply]
  by_cases h0 : i = p
  · subst h0
    have h1 : ¬ (i + 1 ≤ i ∧ i < i + 1 + ys.length) := by omega
    have h2 : i ≤ i ∧ i < i + (ys.length + 1) := by omega
    rw [if_neg h1, if_pos h2]
    simp
  · by_cases h1 : p + 1 ≤ i ∧ i < p + 1 + ys.length
    · have h2 : p ≤ i ∧ i < p + (ys.length + 1) := by omega
      have h3 : i - p = (i - (p + 1)) + 1 := by omega
      rw [if_pos h1, if_pos h2, if_neg h0, h3, List.getD_cons_succ]
    · have h2 : ¬ (p ≤ i ∧ i < p + (ys.length + 1)) := by omega
      rw [if_neg h1, if_neg h2, if_neg h0]

/-- One `Process` call while playing recorded tape content. -/
theorem Process_playing (ops : LooperOps L) (t : TapeMachineTrack L) (y : ℚ)
    (hm : t.mode = MODE_TAPE) (hs : t.state = STATE_PLAYING)
    (hlt : t.playhead_position < t.track_length) :
    Process ops t y =
      ({ t with playhead_position := t.playhead_position + 1 },
        if t.muted then 0 else dequantize (t.tape_buffer t.playhead_position) * t.volume) := by
  simp [Process, ProcessBody, hm, hs, hlt]

/-- One `Process` call while playing, at or past the end of the content. -/
theorem Process_playing_end (ops : LooperOps L) (t : TapeMachineTrack L) (y : ℚ)
    (hm : t.mode = MODE_TAPE) (hs : t.state = STATE_PLAYING)
    (hge : ¬ t.playhead_position < t.track_length) :
    Process ops t y = (t, 0) := by
  simp [Process, ProcessBody, hm, hs, hge]

/-- One `Process` call while overdubbing recorded tape content. -/
theorem Process_overdubbing (ops : LooperOps L) (t : TapeMachineTrack L) (y : ℚ)
    (hm : t.mode = MODE_TAPE) (hs : t.state = STATE_OVERDUBBING)
    (hlt : t.playhead_position < t.track_length) :
    Process ops t y =
      ({ t with
          tape_buffer := Function.update t.tape_buffer t.playhead_position
            (quantize ((dequantize (t.tape_buffer t.playhead_position) + y) * (7 / 10)))
          playhead_position := t.playhead_position + 1 },
        if t.muted then 0
        else (dequantize (t.tape_buffer t.playhead_position) + y) * (7 / 10) * t.volume) := by
  simp [Process, ProcessBody, hm, hs, hlt]

theorem range_succ_map {α : Type} (f : Nat → α) (n : Nat) :
    (List.range (n + 1)).map f = f 0 :: (List.range n).map (fun k => f (k + 1)) := by
  rw [List.range_succ_eq_map, List.map_cons, List.map_map]
  rfl

/-- Closed form of a run of `Process` calls that plays recorded content. -/
theorem processMany_playing (ops : LooperOps L) (ys : List ℚ) :
    ∀ t : TapeMachineTrack L, t.mode = MODE_TAPE → t.state = STATE_PLAYING →
      t.playhead_position + ys.length ≤ t.track_length →
      processMany ops t ys =
        ({ t with playhead_position := t.playhead_position + ys.length },
          (List.range ys.length).map (fun k =>
            if t.muted then 0 else dequantize (t.tape_buffer (t.playhead_position + k)) * t.volume)) := by
  induction ys with
  | nil => intro t _ _ _; rfl
  | cons y ys ih =>
    intro t hm hs hb
    simp only [List.length_cons] at hb
    have hP := Process_playing ops t y hm hs (by omega)
    have h := ih (Process ops t y).1 (by rw [hP]; exact hm) (by rw [hP]; exact hs)
      (by rw [hP]; simp only; omega)
    simp only [processMany, h]
    rw [hP]
    simp only [List.length_cons, range_succ_map, Nat.add_zero]
    have e : ∀ k, t.playhead_position + 1 + k = t.playhead_position + (k + 1) := by
      intro k; omega
    simp only [e]

/-- Closed form of a run of `Process` calls that overdubs recorded content. -/
theorem processMany_overdubbing (ops : LooperOps L) (ys : List ℚ) :
    ∀ t : TapeMachineTrack L, t.mode = MODE_TAPE → t.state = STATE_OVERDUBBING →
      t.playhead_position + ys.length ≤ t.track_length →
      processMany ops t ys =
        ({ t with
            tape_buffer := overdubbedBuffer t.tape_buffer t.playhead_position ys
            playhead_position := t.playhead_position + ys.length },
          (List.range ys.length).map (fun k =>
            if t.muted then 0
            else (dequantize (t.tape_buffer (t.playhead_position + k)) + ys.getD k 0) *
              (7 / 10) * t.volume)) := by
  induction ys with
  | nil =>
    intro t _ _ _
    simp [processMany, overdubbedBuffer_nil]
  | cons y ys ih =>
    intro t hm hs hb
    simp only [List.length_cons] at hb
    have hP := Process_overdubbing ops t y hm hs (by omega)
    have h := ih (Process ops t y).1 (by rw [hP]; exact hm) (by rw [hP]; exact hs)
      (by rw [hP]; simp only; omega)
    simp only [processMany, h]
    rw [hP]
    simp only [List.length_cons, range_succ_map, Nat.add_zero, overdubbedBuffer_cons,
      List.getD_cons_zero, List.getD_cons_succ]
    have e : ∀ k, t.playhead_position + 1 + k = t.playhead_position + (k + 1) := by
      intro k; omega
    have e3 : ∀ k, Function.update t.tape_buffer t.playhead_position
        (quantize ((dequantize (t.tape_buffer t.playhead_position) + y) * (7 / 10)))
        (t.playhead_position + 1 + k) = t.tape_buffer (t.playhead_position + (k + 1)) := by
      intro k
      rw [Function.update_apply, if_neg (by omega), e]
    simp only [e, e3]

/-! ## Fresh tape recordings -/

/-- In Tape mode `StartRecording` begins a fresh recording exactly when it
leaves the track in `STATE_RECORDING`. -/
theorem StartRecording_fresh (ops : LooperOps L) (t : TapeMachineTrack L)
    (hm : t.mode = MODE_TAPE) (hrec : (StartRecording ops t).state = STATE_RECORDING) :
    StartRecording ops t =
      { t with state := STATE_RECORDING, record_position := 0, track_length := 0 } := by
  cases t with
  | mk mode state buf ph rp len armed muted vol looper hc =>
    simp only at hm
    subst hm
    simp only [StartRecording] at hrec ⊢
    split_ifs at hrec ⊢ with h
    rfl

/-- State of a fresh tape recording after `xs.length ≤ TAPE_BUFFER_SIZE - 1`
calls of `Process`. -/
theorem fresh_recording_run (ops : LooperOps L) (t : TapeMachineTrack L) (xs : List ℚ)
    (hm : t.mode = MODE_TAPE) (hrec : (StartRecording ops t).state = STATE_RECORDING)
    (hlen : xs.length ≤ TAPE_BUFFER_SIZE - 1) :
    processMany ops (StartRecording ops t) xs =
      ({ t with
          state := STATE_RECORDING
          tape_buffer := recordedBuffer t.tape_buffer 0 xs
          record_position := xs.length
          track_length := xs.length },
        xs.map (fun x => if t.muted then 0 else x * (1 / 2) * t.volume)) := by
  rw [StartRecording_fresh ops t hm hrec]
  have h := processMany_recording ops xs
    { t with state := STATE_RECORDING, record_position := 0, track_length := 0 }
    hm rfl rfl (by simpa using hlen)
  rw [h]
  simp

/-- State of a fresh tape recording after at least `TAPE_BUFFER_SIZE` calls of
`Process`. -/
theorem fresh_recording_overrun (ops : LooperOps L) (t : TapeMachineTrack L) (xs : List ℚ)
    (hm : t.mode = MODE_TAPE) (hrec : (StartRecording ops t).state = STATE_RECORDING)
    (hlen : TAPE_BUFFER_SIZE ≤ xs.length) :
    (processMany ops (StartRecording ops t) xs).1 =
      { t with
          state := STATE_STOPPED
          tape_buffer := recordedBuffer t.tape_buffer 0 (xs.take (TAPE_BUFFER_SIZE - 1))
          record_position := TAPE_BUFFER_SIZE - 1
          track_length := TAPE_BUFFER_SIZE - 1 } := by
  have hc := tape_buffer_size_eq
  have htake : (xs.take (TAPE_BUFFER_SIZE - 1)).length = TAPE_BUFFER_SIZE - 1 := by
    rw [List.length_take]; omega
  have hsplit : xs = xs.take (TAPE_BUFFER_SIZE - 1) ++ xs.drop (TAPE_BUFFER_SIZE - 1) :=
    (List.take_append_drop _ _).symm
  have hdrop : (xs.drop (TAPE_BUFFER_SIZE - 1)).length ≠ 0 := by
    rw [List.length_drop]; omega
  cases hd : xs.drop (TAPE_BUFFER_SIZE - 1) with
  | nil => rw [hd] at hdrop; simp at hdrop
  | cons y ys =>
    have hP : processMany ops (StartRecording ops t) xs =
        processMany ops (StartRecording ops t) (xs.take (TAPE_BUFFER_SIZE - 1) ++ y :: ys) := by
      rw [← hd, List.take_append_drop]
    rw [hP, processMany_append,
      fresh_recording_run ops t (xs.take (TAPE_BUFFER_SIZE - 1)) hm hrec (by rw [htake])]
    simp only [processMany]
    have hF := Process_recording_full ops
      { t with
          state := STATE_RECORDING
          tape_buffer := recordedBuffer t.tape_buffer 0 (xs.take (TAPE_BUFFER_SIZE - 1))
          record_position := (xs.take (TAPE_BUFFER_SIZE - 1)).length
          track_length := (xs.take (TAPE_BUFFER_SIZE - 1)).length }
      y hm rfl (by simp only [htake]; omega)
    rw [hF]
    have hS := processMany_stopped ops ys
      { t with
          state := STATE_STOPPED
          tape_buffer := recordedBuffer t.tape_buffer 0 (xs.take (TAPE_BUFFER_SIZE - 1))
          record_position := (xs.take (TAPE_BUFFER_SIZE - 1)).length
          track_length := (xs.take (TAPE_BUFFER_SIZE - 1)).length }
      hm rfl
    rw [hS]
    simp only [htake]

/-- In Tape mode, unless the track is playing recorded content, `StartRecording`
leaves it in `STATE_RECORDING`. -/
theorem StartRecording_state_fresh (ops : LooperOps L) (t : TapeMachineTrack L)
    (hm : t.mode = MODE_TAPE) (hfresh : ¬ (0 < t.track_length ∧ t.state = STATE_PLAYING)) :
    (StartRecording ops t).state = STATE_RECORDING := by
  cases t with
  | mk mode state buf ph rp len armed muted vol looper hc =>
    simp only at hm hfresh
    subst hm
    simp only [StartRecording, if_neg hfresh]

/-- Samples returned when a fresh recording of `xs` is played back at once. -/
theorem record_then_play (ops : LooperOps L) (t : TapeMachineTrack L) (xs ys : List ℚ)
    (hm : t.mode = MODE_TAPE) (hs : t.state = STATE_STOPPED) (hp : t.playhead_position = 0)
    (hlen : xs.length ≤ TAPE_BUFFER_SIZE - 1) (hys : ys.length = xs.length) :
    (processMany ops (StartPlayback (processMany ops (StartRecording ops t) xs).1) ys).2 =
      (List.range xs.length).map (fun k =>
        if t.muted then 0 else dequantize (quantize (xs.getD k 0)) * t.volume) := by
  have hrec := StartRecording_state_fresh ops t hm (by rw [hs]; simp)
  rw [fresh_recording_run ops t xs hm hrec hlen]
  cases t with
  | mk mode state buf ph rp len armed muted vol looper hc =>
    simp only at hm hs hp
    subst hm hs hp
    cases hx : xs with
    | nil =>
      have : ys = [] := by rw [hx] at hys; simpa using hys
      subst this
      simp [processMany]
    | cons x xs2 =>
      rw [← hx]
      have hpos : 0 < xs.length := by rw [hx]; simp
      have hSP : StartPlayback
          ({ mode := MODE_TAPE, state := STATE_RECORDING, tape_buffer := recordedBuffer buf 0 xs,
             playhead_position := 0, record_position := xs.length, track_length := xs.length,
             armed := armed, muted := muted, volume := vol, looper := looper,
             loop_has_content := hc } : TapeMachineTrack L) =
          { mode := MODE_TAPE, state := STATE_PLAYING, tape_buffer := recordedBuffer buf 0 xs,
             playhead_position := 0, record_position := xs.length, track_length := xs.length,
             armed := armed, muted := muted, volume := vol, looper := looper,
             loop_has_content := hc } := by
        have h2 : ¬ xs.length ≤ 0 := by omega
        simp [StartPlayback, hpos, h2]
      simp only
      rw [hSP]
      have hPl := processMany_playing ops ys
        ({ mode := MODE_TAPE, state := STATE_PLAYING, tape_buffer := recordedBuffer buf 0 xs,
             playhead_position := 0, record_position := xs.length, track_length := xs.length,
             armed := armed, muted := muted, volume := vol, looper := looper,
             loop_has_content := hc } : TapeMachineTrack L) rfl rfl (by simp only; omega)
      rw [hPl]
      simp only [hys]
      apply List.map_congr_left
      intro k hk
      have hk2 : k < xs.length := List.mem_range.mp hk
      have hin : 0 ≤ 0 + k ∧ 0 + k < 0 + xs.length := by omega
      simp only [recordedBuffer, if_pos hin]
      simp

/-- When a fresh recording runs into the capacity limit and is played back at
once, playback call number `TAPE_BUFFER_SIZE` finds the tape at its end and
returns silence. -/
theorem overrun_then_play_last (ops : LooperOps L) (t : TapeMachineTrack L) (xs ys : List ℚ)
    (hm : t.mode = MODE_TAPE) (hs : t.state = STATE_STOPPED) (hp : t.playhead_position = 0)
    (hx : TAPE_BUFFER_SIZE ≤ xs.length) (hy : ys.length = TAPE_BUFFER_SIZE) :
    (processMany ops (StartPlayback (processMany ops (StartRecording ops t) xs).1)
      ys).2[TAPE_BUFFER_SIZE - 1]? = some 0 := by
  have hc := tape_buffer_size_eq
  have hrec := StartRecording_state_fresh ops t hm (by rw [hs]; simp)
  rw [fresh_recording_overrun ops t xs hm hrec hx]
  cases t with
  | mk mode state buf ph rp len armed muted vol looper hcont =>
    simp only at hm hs hp
    subst hm hs hp
    have hpos : 0 < TAPE_BUFFER_SIZE - 1 := by omega
    have h2 : ¬ TAPE_BUFFER_SIZE - 1 ≤ 0 := by omega
    have hSP : StartPlayback
        ({ mode := MODE_TAPE, state := STATE_STOPPED,
           tape_buffer := recordedBuffer buf 0 (xs.take (TAPE_BUFFER_SIZE - 1)),
           playhead_position := 0, record_position := TAPE_BUFFER_SIZE - 1,
           track_length := TAPE_BUFFER_SIZE - 1, armed := armed, muted := muted, volume := vol,
           looper := looper, loop_has_content := hcont } : TapeMachineTrack L) =
        { mode := MODE_TAPE, state := STATE_PLAYING,
           tape_buffer := recordedBuffer buf 0 (xs.take (TAPE_BUFFER_SIZE - 1)),
           playhead_position := 0, record_position := TAPE_BUFFER_SIZE - 1,
           track_length := TAPE_BUFFER_SIZE - 1, armed := armed, muted := muted, volume := vol,
           looper := looper, loop_has_content := hcont } := by
      simp [StartPlayback, hpos, h2]
    rw [hSP]
    have htake : (ys.take (TAPE_BUFFER_SIZE - 1)).length = TAPE_BUFFER_SIZE - 1 := by
      rw [List.length_take]; omega
    have hdrop : (ys.drop (TAPE_BUFFER_SIZE - 1)).length ≠ 0 := by
      rw [List.length_drop]; omega
    cases hd : ys.drop (TAPE_BUFFER_SIZE - 1) with
    | nil => rw [hd] at hdrop; simp at hdrop
    | cons y rest =>
      have hys : ys = ys.take (TAPE_BUFFER_SIZE - 1) ++ y :: rest := by
        rw [← hd, List.take_append_drop]
      rw [hys, processMany_append]
      have hPl := processMany_playing ops (ys.take (TAPE_BUFFER_SIZE - 1))
        ({ mode := MODE_TAPE, state := STATE_PLAYING,
           tape_buffer := recordedBuffer buf 0 (xs.take (TAPE_BUFFER_SIZE - 1)),
           playhead_position := 0, record_position := TAPE_BUFFER_SIZE - 1,
           track_length := TAPE_BUFFER_SIZE - 1, armed := armed, muted := muted, volume := vol,
           looper := looper, loop_has_content := hcont } : TapeMachineTrack L) rfl rfl
        (by simp only [htake]; omega)
      rw [hPl]
      simp only [processMany]
      have hEnd := Process_playing_end ops
        ({ mode := MODE_TAPE, state := STATE_PLAYING,
           tape_buffer := recordedBuffer buf 0 (xs.take (TAPE_BUFFER_SIZE - 1)),
           playhead_position := 0 + (ys.take (TAPE_BUFFER_SIZE - 1)).length,
           record_position := TAPE_BUFFER_SIZE - 1,
           track_length := TAPE_BUFFER_SIZE - 1, armed := armed, muted := muted, volume := vol,
           looper := looper, loop_has_content := hcont } : TapeMachineTrack L) y rfl rfl
        (by simp only [htake]; omega)
      rw [hEnd]
      rw [List.getElem?_append_right (by simp [htake])]
      simp [htake]

/-! ## Evaluation of the concrete tracks -/

theorem quantize_one : quantize 1 = 32767 := by
  norm_num [quantize, toInt16, truncToZero, wrapInt16]

theorem initTapeTrack_eq : initTapeTrack =
    { mode := MODE_TAPE, state := STATE_STOPPED, tape_buffer := zeroFill TAPE_BUFFER_SIZE zeroMem,
      playhead_position := 0, record_position := 0, track_length := 0, armed := false,
      muted := false, volume := 8 / 10, looper := [], loop_has_content := false } := by
  rfl

theorem overdubOneTrack_eq : overdubOneTrack =
    { mode := MODE_TAPE, state := STATE_OVERDUBBING,
      tape_buffer := Function.update (zeroFill TAPE_BUFFER_SIZE zeroMem) 0 (quantize 1),
      playhead_position := 0, record_position := 1, track_length := 1, armed := false,
      muted := false, volume := 8 / 10, looper := [], loop_has_content := false } := by
  rfl

/-! ## The binary32 arithmetic of the program -/

/-- Rounding to the nearest integer moves a value by at most one half. -/
theorem roundHalfEven_error (q : ℚ) : |(roundHalfEven q : ℚ) - q| ≤ 1 / 2 := by
  have h1 := Int.floor_le q
  have h2 := Int.lt_floor_add_one q
  unfold roundHalfEven
  split_ifs with ha hb hc
  · rw [abs_le]; constructor <;> linarith
  · rw [abs_le]; push_cast; constructor <;> linarith
  · rw [abs_le]; push_neg at ha hb; constructor <;> linarith
  · rw [abs_le]; push_neg at ha hb; push_cast; constructor <;> linarith

theorem roundHalfEven_zero : roundHalfEven 0 = 0 := by
  simp [roundHalfEven]

theorem round32_zero : round32 0 = 0 := by
  simp [round32, roundHalfEven_zero]

/-- The standard model of binary32 arithmetic: one rounding has relative error
at most `2^-24`, or absolute error at most `2^-150` in the subnormal range. -/
theorem round32_error (x : ℚ) : |round32 x - x| ≤ |x| / 2 ^ 24 + 1 / 2 ^ 150 := by
  by_cases hx : x = 0
  · subst hx
    rw [round32_zero]
    norm_num
  have hpos : (0 : ℚ) < 2 ^ (binade x - 23) := zpow_pos (by norm_num) _
  have h := roundHalfEven_error (x / 2 ^ (binade x - 23))
  have e : round32 x - x =
      ((roundHalfEven (x / 2 ^ (binade x - 23)) : ℚ) - x / 2 ^ (binade x - 23)) *
        2 ^ (binade x - 23) := by
    unfold round32
    field_simp
  rw [e, abs_mul, abs_of_pos hpos]
  have h1 : |(roundHalfEven (x / 2 ^ (binade x - 23)) : ℚ) - x / 2 ^ (binade x - 23)| *
      2 ^ (binade x - 23) ≤ 1 / 2 * 2 ^ (binade x - 23) :=
    mul_le_mul_of_nonneg_right h hpos.le
  have h2 : (1 / 2 : ℚ) * 2 ^ (binade x - 23) = 2 ^ (binade x) / 2 ^ 24 := by
    rw [zpow_sub₀ (by norm_num : (2 : ℚ) ≠ 0)]
    norm_num
    ring
  have h3 : (2 : ℚ) ^ (binade x) ≤ |x| + 1 / 2 ^ 126 := by
    unfold binade
    rcases le_total (Int.log 2 |x|) (-126) with hle | hle
    · rw [max_eq_right hle]
      have : (2 : ℚ) ^ (-126 : ℤ) = 1 / 2 ^ 126 := by
        rw [zpow_neg]; norm_num
      rw [this]
      have := abs_nonneg x
      linarith
    · rw [max_eq_left hle]
      have hx0 : 0 < |x| := abs_pos.mpr hx
      have := Int.zpow_log_le_self (by norm_num : 1 < 2) hx0
      have h4 : (0 : ℚ) ≤ 1 / 2 ^ 126 := by positivity
      push_cast at this
      linarith
  calc _ ≤ 1 / 2 * 2 ^ (binade x - 23) := h1
    _ = 2 ^ (binade x) / 2 ^ 24 := h2
    _ ≤ (|x| + 1 / 2 ^ 126) / 2 ^ 24 := by
        apply div_le_div_of_nonneg_right h3 (by positivity)
    _ = |x| / 2 ^ 24 + 1 / 2 ^ 150 := by
        rw [add_div]; norm_num

/-- The binade of a value between two consecutive powers of two. -/
theorem binade_eq (x : ℚ) (e : Int) (h1 : (2 : ℚ) ^ e ≤ |x|) (h2 : |x| < (2 : ℚ) ^ (e + 1))
    (h3 : -126 ≤ e) : binade x = e := by
  have hx : 0 < |x| := lt_of_lt_of_le (zpow_pos (by norm_num) e) h1
  have hb : 1 < 2 := by norm_num
  have ha : e ≤ Int.log 2 |x| := (Int.zpow_le_iff_le_log hb hx).mp (by exact_mod_cast h1)
  have hc : Int.log 2 |x| < e + 1 := (Int.lt_zpow_iff_log_lt hb hx).mp (by exact_mod_cast h2)
  unfold binade
  rw [max_eq_left (by omega)]
  omega

/-- The nearest integer of a value less than one half away from `n`. -/
theorem roundHalfEven_eq (q : ℚ) (n : Int) (h1 : (n : ℚ) - 1 / 2 < q) (h2 : q < (n : ℚ) + 1 / 2) :
    roundHalfEven q = n := by
  have hf1 := Int.floor_le q
  have hf2 := Int.lt_floor_add_one q
  have hlo : n - 1 ≤ ⌊q⌋ := by
    rw [Int.le_floor]; push_cast; linarith
  have hhi : ⌊q⌋ ≤ n := by
    have : ((⌊q⌋ : ℤ) : ℚ) < ((n + 1 : ℤ) : ℚ) := by push_cast; linarith
    have : ⌊q⌋ < n + 1 := by exact_mod_cast this
    omega
  unfold roundHalfEven
  rcases (by omega : ⌊q⌋ = n - 1 ∨ ⌊q⌋ = n) with h | h
  · have hq : (⌊q⌋ : ℚ) = (n : ℚ) - 1 := by rw [h]; push_cast; ring
    rw [if_neg (by rw [hq]; linarith), if_pos (by rw [hq]; linarith), h]
    ring
  · have hq : (⌊q⌋ : ℚ) = (n : ℚ) := by rw [h]
    rw [if_pos (by rw [hq]; linarith), h]

/-- Evaluation of `round32` from the binade and the nearest multiple of the unit
in the last place. -/
theorem round32_eval (x : ℚ) (e n : Int) (h1 : (2 : ℚ) ^ e ≤ |x|) (h2 : |x| < (2 : ℚ) ^ (e + 1))
    (h3 : -126 ≤ e) (hn1 : (n : ℚ) - 1 / 2 < x / 2 ^ (e - 23))
    (hn2 : x / 2 ^ (e - 23) < (n : ℚ) + 1 / 2) : round32 x = n * 2 ^ (e - 23) := by
  unfold round32
  rw [binade_eq x e h1 h2 h3, roundHalfEven_eq _ n hn1 hn2]

/-- The binary32 constant `0.8f`. -/
theorem round32_volume : round32 (8 / 10) = 13421773 / 16777216 := by
  have hb : binade (8 / 10) = -1 := by
    apply binade_eq
    · rw [abs_of_pos (by norm_num)]; norm_num
    · rw [abs_of_pos (by norm_num)]; norm_num
    · norm_num
  have hr : roundHalfEven (8 / 10 / 2 ^ ((-1 : ℤ) - 23)) = 13421773 := by
    apply roundHalfEven_eq
    · norm_num [zpow_neg]
    · norm_num [zpow_neg]
  unfold round32
  rw [hb, hr]
  norm_num [zpow_neg]

/-- At the input `32769 / 2^30` the exact product `x * 32767 = 1 - 2^-30` is
below 1 and truncates to 0, while its binary32 rounding is 1, so the sample
stored by the program is 1. -/
theorem quantize_rounding_gap :
    quantize (32769 / 2 ^ 30) = 0 ∧ round32 (32769 / 2 ^ 30 * 32767) = 1 ∧
    Rounded.quantize round32 (32769 / 2 ^ 30) = 1 := by
  have hb : binade (32769 / 2 ^ 30 * 32767) = -1 := by
    apply binade_eq
    · rw [abs_of_pos (by norm_num)]; norm_num
    · rw [abs_of_pos (by norm_num)]; norm_num
    · norm_num
  have hr : roundHalfEven (32769 / 2 ^ 30 * 32767 / 2 ^ ((-1 : ℤ) - 23)) = 16777216 := by
    apply roundHalfEven_eq
    · norm_num [zpow_neg]
    · norm_num [zpow_neg]
  have h1 : round32 (32769 / 2 ^ 30 * 32767) = 1 := by
    unfold round32
    rw [hb, hr]
    norm_num [zpow_neg]
  refine ⟨?_, h1, ?_⟩
  · have h0 : (0 : ℚ) ≤ 32769 / 2 ^ 30 * 32767 := by norm_num
    have hf : ⌊(32769 / 2 ^ 30 * 32767 : ℚ)⌋ = 0 := by
      rw [Int.floor_eq_iff]; constructor <;> norm_num
    simp only [quantize, toInt16, truncToZero, if_pos h0, hf]
    rfl
  · unfold Rounded.quantize
    rw [h1]
    norm_num [toInt16, truncToZero, wrapInt16]

/-- Without rounding the rounded model is the exact one. -/
theorem Rounded_Process_id (ops : LooperOps L) (t : TapeMachineTrack L) (x : ℚ) :
    Rounded.Process id ops t x = Process ops t x := by
  cases t with
  | mk mode state buf ph rp len armed muted vol looper hc =>
    cases mode <;> cases state <;> rfl

/-- In Tape mode, outside an overdub, the track left by a rounded `Process`
call is the one the exact `Process` leaves on the input that quantises to the
same sample. -/
theorem Rounded_Process_track (R : ℚ → ℚ) (ops : LooperOps L) (t : TapeMachineTrack L) (x : ℚ)
    (hm : t.mode = MODE_TAPE) (hs : t.state ≠ STATE_OVERDUBBING) :
    (Rounded.Process R ops t x).1 = (Process ops t (R (x * 32767) / 32767)).1 := by
  have hq : quantize (R (x * 32767) / 32767) = Rounded.quantize R x := by
    unfold quantize Rounded.quantize
    rw [div_mul_cancel₀ _ (by norm_num : (32767 : ℚ) ≠ 0)]
  cases t with
  | mk mode state buf ph rp len armed muted vol looper hc =>
    simp only at hm hs
    subst hm
    cases state
    · rfl
    · simp only [Rounded.Process, Rounded.ProcessBody, Process, ProcessBody]
      split_ifs <;> rfl
    · simp only [Rounded.Process, Rounded.ProcessBody, Process, ProcessBody]
      split_ifs
      · simp only [hq]
      · rfl
    · exact absurd rfl hs

/-- In Tape mode a `Process` call never starts an overdub. -/
theorem Process_keeps_tape_no_overdub (ops : LooperOps L) (t : TapeMachineTrack L) (x : ℚ)
    (hm : t.mode = MODE_TAPE) (hs : t.state ≠ STATE_OVERDUBBING) :
    (Process ops t x).1.mode = MODE_TAPE ∧ (Process ops t x).1.state ≠ STATE_OVERDUBBING := by
  cases t with
  | mk mode state buf ph rp len armed muted vol looper hc =>
    simp only at hm hs
    subst hm
    cases state <;> simp only [Process, ProcessBody] <;> (try split_ifs) <;>
      first
      | exact absurd rfl hs
      | (refine ⟨by first | rfl | trivial, ?_⟩
         intro h
         cases h)

/-- A run of rounded `Process` calls in Tape mode, outside an overdub, leaves
the track that the exact run leaves on the inputs that quantise to the same
samples. -/
theorem Rounded_processMany_track (R : ℚ → ℚ) (ops : LooperOps L) (xs : List ℚ) :
    ∀ t : TapeMachineTrack L, t.mode = MODE_TAPE → t.state ≠ STATE_OVERDUBBING →
      (Rounded.processMany R ops t xs).1 =
        (processMany ops t (xs.map (fun x => R (x * 32767) / 32767))).1 := by
  induction xs with
  | nil => intro t _ _; rfl
  | cons x xs ih =>
    intro t hm hs
    have h1 := Rounded_Process_track R ops t x hm hs
    have h2 := Process_keeps_tape_no_overdub ops t (R (x * 32767) / 32767) hm hs
    simp only [Rounded.processMany, processMany, List.map_cons, h1]
    exact ih _ h2.1 h2.2

/-- One rounded `Process` call while playing recorded tape content. -/
theorem Rounded_Process_playing (R : ℚ → ℚ) (ops : LooperOps L) (t : TapeMachineTrack L) (y : ℚ)
    (hm : t.mode = MODE_TAPE) (hs : t.state = STATE_PLAYING)
    (hlt : t.playhead_position < t.track_length) :
    Rounded.Process R ops t y =
      ({ t with playhead_position := t.playhead_position + 1 },
        if t.muted then 0
        else R (Rounded.dequantize R (t.tape_buffer t.playhead_position) * t.volume)) := by
  simp [Rounded.Process, Rounded.ProcessBody, hm, hs, hlt]

/-- Closed form of a run of rounded `Process` calls that plays recorded
content. -/
theorem Rounded_processMany_playing (R : ℚ → ℚ) (ops : LooperOps L) (ys : List ℚ) :
    ∀ t : TapeMachineTrack L, t.mode = MODE_TAPE → t.state = STATE_PLAYING →
      t.playhead_position + ys.length ≤ t.track_length →
      Rounded.processMany R ops t ys =
        ({ t with playhead_position := t.playhead_position + ys.length },
          (List.range ys.length).map (fun k =>
            if t.muted then 0
            else R (Rounded.dequantize R (t.tape_buffer (t.playhead_position + k)) * t.volume))) := by
  induction ys with
  | nil => intro t _ _ _; rfl
  | cons y ys ih =>
    intro t hm hs hb
    simp only [List.length_cons] at hb
    have hP := Rounded_Process_playing R ops t y hm hs (by omega)
    have h := ih (Rounded.Process R ops t y).1 (by rw [hP]; exact hm) (by rw [hP]; exact hs)
      (by rw [hP]; simp only; omega)
    simp only [Rounded.processMany, h]
    rw [hP]
    simp only [List.length_cons, range_succ_map, Nat.add_zero]
    have e : ∀ k, t.playhead_position + 1 + k = t.playhead_position + (k + 1) := by
      intro k; omega
    simp only [e]

/-- Samples returned when a fresh recording of `xs` is played back at once, in
the rounded model. -/
theorem Rounded_record_then_play (R : ℚ → ℚ) (ops : LooperOps L) (t : TapeMachineTrack L)
    (xs ys : List ℚ)
    (hm : t.mode = MODE_TAPE) (hs : t.state = STATE_STOPPED) (hp : t.playhead_position = 0)
    (hlen : xs.length ≤ TAPE_BUFFER_SIZE - 1) (hys : ys.length = xs.length) :
    (Rounded.processMany R ops
        (StartPlayback (Rounded.processMany R ops (StartRecording ops t) xs).1) ys).2 =
      (List.range xs.length).map (fun k =>
        if t.muted then 0
        else R (Rounded.dequantize R (Rounded.quantize R (xs.getD k 0)) * t.volume)) := by
  have hrec := StartRecording_state_fresh ops t hm (by rw [hs]; simp)
  have hfr := StartRecording_fresh ops t hm hrec
  rw [Rounded_processMany_track R ops xs (StartRecording ops t) (by rw [hfr]; exact hm)
    (by rw [hrec]; decide)]
  rw [fresh_recording_run ops t _ hm hrec (by simpa using hlen)]
  cases t with
  | mk mode state buf ph rp len armed muted vol looper hc =>
    simp only at hm hs hp
    subst hm hs hp
    cases hx : xs with
    | nil =>
      have : ys = [] := by rw [hx] at hys; simpa using hys
      subst this
      simp [Rounded.processMany]
    | cons x xs2 =>
      rw [← hx]
      have hpos : 0 < xs.length := by rw [hx]; simp
      simp only [List.length_map]
      have hSP : StartPlayback
          ({ mode := MODE_TAPE, state := STATE_RECORDING,
             tape_buffer := recordedBuffer buf 0 (xs.map (fun x => R (x * 32767) / 32767)),
             playhead_position := 0, record_position := xs.length, track_length := xs.length,
             armed := armed, muted := muted, volume := vol, looper := looper,
             loop_has_content := hc } : TapeMachineTrack L) =
          { mode := MODE_TAPE, state := STATE_PLAYING,
            tape_buffer := recordedBuffer buf 0 (xs.map (fun x => R (x * 32767) / 32767)),
             playhead_position := 0, record_position := xs.length, track_length := xs.length,
             armed := armed, muted := muted, volume := vol, looper := looper,
             loop_has_content := hc } := by
        have h2 : ¬ xs.length ≤ 0 := by omega
        simp [StartPlayback, hpos, h2]
      rw [hSP]
      have hPl := Rounded_processMany_playing R ops ys
        ({ mode := MODE_TAPE, state := STATE_PLAYING,
           tape_buffer := recordedBuffer buf 0 (xs.map (fun x => R (x * 32767) / 32767)),
             playhead_position := 0, record_position := xs.length, track_length := xs.length,
             armed := armed, muted := muted, volume := vol, looper := looper,
             loop_has_content := hc } : TapeMachineTrack L) rfl rfl (by simp only; omega)
      rw [hPl]
      simp only [hys]
      apply List.map_congr_left
      intro k hk
      have hk2 : k < xs.length := List.mem_range.mp hk
      have hin : 0 ≤ 0 + k ∧ 0 + k < 0 + (xs.map (fun x => R (x * 32767) / 32767)).length := by
        simp only [List.length_map]; omega
      simp only [recordedBuffer, if_pos hin]
      have hg : (xs.map (fun x => R (x * 32767) / 32767)).getD (0 + k - 0) 0 =
          R (xs.getD k 0 * 32767) / 32767 := by
        simp only [Nat.zero_add, Nat.sub_zero]
        rw [List.getD_eq_getElem _ _ (by simpa using hk2), List.getD_eq_getElem _ _ hk2,
          List.getElem_map]
      rw [hg]
      have hq : quantize (R (xs.getD k 0 * 32767) / 32767) = Rounded.quantize R (xs.getD k 0) := by
        unfold quantize Rounded.quantize
        rw [div_mul_cancel₀ _ (by norm_num : (32767 : ℚ) ≠ 0)]
      rw [hq]

/-- Truncation of a value strictly between `-32768` and `32768` stays in the
`int16_t` range and moves the value by less than 1. -/
theorem truncToZero_near (y : ℚ) (hlo : -32768 < y) (hhi : y < 32768) :
    -32767 ≤ truncToZero y ∧ truncToZero y ≤ 32767 ∧ |(truncToZero y : ℚ) - y| < 1 := by
  unfold truncToZero
  split_ifs with h
  · have h1 := Int.floor_le y
    have h2 := Int.lt_floor_add_one y
    have h3 : (0 : ℤ) ≤ ⌊y⌋ := Int.floor_nonneg.mpr h
    have h4 : ⌊y⌋ < 32768 := by
      have : ((⌊y⌋ : ℤ) : ℚ) < ((32768 : ℤ) : ℚ) := by push_cast; linarith
      exact_mod_cast this
    refine ⟨by omega, by omega, ?_⟩
    rw [abs_lt]
    constructor <;> linarith
  · push_neg at h
    have h1 := Int.le_ceil y
    have h2 := Int.ceil_lt_add_one y
    have h3 : ⌈y⌉ ≤ 0 := Int.ceil_le.mpr (by simpa using h.le)
    have h4 : -32768 < ⌈y⌉ := by
      have : ((-32768 : ℤ) : ℚ) < ((⌈y⌉ : ℤ) : ℚ) := by push_cast; linarith
      exact_mod_cast this
    refine ⟨by omega, by omega, ?_⟩
    rw [abs_lt]
    constructor <;> linarith

/-- Error of one record/play round trip of a sample in `[-1, 1]` under any
rounding with relative error `2^-24` and absolute error `2^-150`. -/
theorem rounded_roundtrip_error (R : ℚ → ℚ)
    (hR : ∀ y, |R y - y| ≤ |y| / 2 ^ 24 + 1 / 2 ^ 150) (x v : ℚ)
    (hlo : -1 ≤ x) (hhi : x ≤ 1) (hv : 0 ≤ v) :
    -32767 ≤ truncToZero (R (x * 32767)) ∧ truncToZero (R (x * 32767)) ≤ 32767 ∧
    Rounded.quantize R x = truncToZero (R (x * 32767)) ∧
    |R (Rounded.dequantize R (Rounded.quantize R x) * v) - x * v|
      ≤ v * (1 / 32767 + 1 / 2 ^ 22) + 1 / 2 ^ 150 := by
  -- the product and its truncation
  have hp : |x * 32767| ≤ 32767 := by
    rw [abs_le]; constructor <;> linarith
  have h1 := hR (x * 32767)
  have h1a : |R (x * 32767) - x * 32767| ≤ 32767 / 2 ^ 24 + 1 / 2 ^ 150 := by
    have : |x * 32767| / 2 ^ 24 ≤ 32767 / 2 ^ 24 :=
      div_le_div_of_nonneg_right hp (by positivity)
    linarith
  have h1b := abs_le.mp h1a
  have hp2 := abs_le.mp hp
  obtain ⟨ht1, ht2, ht3⟩ := truncToZero_near (R (x * 32767))
    (by norm_num at h1b ⊢; linarith) (by norm_num at h1b ⊢; linarith)
  have hq : Rounded.quantize R x = truncToZero (R (x * 32767)) := by
    unfold Rounded.quantize toInt16
    exact wrapInt16_of_inRange _ (by omega) ht2
  refine ⟨ht1, ht2, hq, ?_⟩
  rw [hq]
  set s : Int := truncToZero (R (x * 32767)) with hs
  -- the quotient
  have hsq : |(s : ℚ) / 32767| ≤ 1 := by
    rw [abs_le]
    have a1 : ((-32767 : ℤ) : ℚ) ≤ (s : ℚ) := by exact_mod_cast ht1
    have a2 : (s : ℚ) ≤ ((32767 : ℤ) : ℚ) := by exact_mod_cast ht2
    push_cast at a1 a2
    constructor
    · rw [le_div_iff₀ (by norm_num)]; linarith
    · rw [div_le_iff₀ (by norm_num)]; linarith
  have h2 := hR ((s : ℚ) / 32767)
  have h2a : |R ((s : ℚ) / 32767) - (s : ℚ) / 32767| ≤ 1 / 2 ^ 24 + 1 / 2 ^ 150 := by
    have : |(s : ℚ) / 32767| / 2 ^ 24 ≤ 1 / 2 ^ 24 :=
      div_le_div_of_nonneg_right hsq (by positivity)
    linarith
  -- distance of the dequantised sample from the input
  have ht3b := abs_lt.mp ht3
  have h2b := abs_le.mp h2a
  have hsq2 := abs_le.mp hsq
  have hd : |Rounded.dequantize R s - x| ≤ 1 / 32767 + 2 / 2 ^ 24 + 1 / 2 ^ 140 := by
    unfold Rounded.dequantize
    rw [abs_le]
    have e : (s : ℚ) / 32767 - x = ((s : ℚ) - x * 32767) / 32767 := by
      field_simp
      ring
    have b1 : (s : ℚ) - x * 32767 ≤ 1 + 32767 / 2 ^ 24 + 1 / 2 ^ 150 := by linarith
    have b2 : -(1 + 32767 / 2 ^ 24 + 1 / 2 ^ 150) ≤ (s : ℚ) - x * 32767 := by linarith
    have c1 : (s : ℚ) / 32767 - x ≤ (1 + 32767 / 2 ^ 24 + 1 / 2 ^ 150) / 32767 := by
      rw [e]; exact div_le_div_of_nonneg_right b1 (by norm_num)
    have c2 : -((1 + 32767 / 2 ^ 24 + 1 / 2 ^ 150) / 32767) ≤ (s : ℚ) / 32767 - x := by
      rw [e, ← neg_div]; exact div_le_div_of_nonneg_right b2 (by norm_num)
    norm_num at c1 c2 h2b ⊢
    constructor <;> linarith
  have hdabs : |Rounded.dequantize R s| ≤ 1 + 1 / 2 ^ 23 := by
    unfold Rounded.dequantize
    rw [abs_le]
    norm_num at h2b hsq2 ⊢
    constructor <;> linarith
  -- the product with the volume
  have h3 := hR (Rounded.dequantize R s * v)
  have hm : |Rounded.dequantize R s * v| ≤ (1 + 1 / 2 ^ 23) * v := by
    rw [abs_mul, abs_of_nonneg hv]
    exact mul_le_mul_of_nonneg_right hdabs hv
  have h3a : |R (Rounded.dequantize R s * v) - Rounded.dequantize R s * v|
      ≤ (1 + 1 / 2 ^ 23) * v / 2 ^ 24 + 1 / 2 ^ 150 := by
    have : |Rounded.dequantize R s * v| / 2 ^ 24 ≤ (1 + 1 / 2 ^ 23) * v / 2 ^ 24 :=
      div_le_div_of_nonneg_right hm (by positivity)
    linarith
  have h4 : |Rounded.dequantize R s * v - x * v| ≤ (1 / 32767 + 2 / 2 ^ 24 + 1 / 2 ^ 140) * v := by
    rw [← sub_mul, abs_mul, abs_of_nonneg hv]
    exact mul_le_mul_of_nonneg_right hd hv
  have h5 : |R (Rounded.dequantize R s * v) - x * v| ≤
      |R (Rounded.dequantize R s * v) - Rounded.dequantize R s * v| +
        |Rounded.dequantize R s * v - x * v| := by
    have := abs_add (R (Rounded.dequantize R s * v) - Rounded.dequantize R s * v)
      (Rounded.dequantize R s * v - x * v)
    simpa using this
  have h6 : (1 + 1 / 2 ^ 23) * v / 2 ^ 24 + (1 / 32767 + 2 / 2 ^ 24 + 1 / 2 ^ 140) * v ≤
      v * (1 / 32767 + 1 / 2 ^ 22) := by
    have : (0 : ℚ) ≤ v * (1 / 2 ^ 22 - (2 / 2 ^ 24 + 1 / 2 ^ 140) - (1 + 1 / 2 ^ 23) / 2 ^ 24) :=
      mul_nonneg hv (by norm_num)
    linarith
  linarith

/-! ## Record then play round trip (C1) -/

/-- C1, as stated, fails: on a freshly initialised track switched to Tape mode
(volume 0.8 as set by `Init`, not muted), record the single sample `1` and play
it back at once.  The playback call returns `0.8`, which is further from the
input `1` than the quantisation step `1/32767`. -/
theorem roundtrip_scaled_by_volume :
    initTapeTrack.mode = MODE_TAPE ∧ initTapeTrack.state = STATE_STOPPED ∧
    initTapeTrack.playhead_position = 0 ∧ initTapeTrack.track_length = 0 ∧
    (processMany logOps
      (StartPlayback (processMany logOps (StartRecording logOps initTapeTrack) [1]).1)
      [0]).2 = [4 / 5] ∧
    ¬ (|(4 / 5 : ℚ) - 1| ≤ 1 / 32767) := by
  refine ⟨rfl, rfl, rfl, rfl, ?_, ?_⟩
  · rw [fresh_recording_run logOps initTapeTrack [1] (by decide) (by decide) (by decide)]
    rw [initTapeTrack_eq]
    simp [StartPlayback, processMany, Process, ProcessBody, recordedBuffer, quantize_one,
      dequantize]
    norm_num
  · rw [abs_le]; norm_num

/-- The bound `n ≤ TAPE_BUFFER_SIZE` of C1 is also too generous: with volume 1
and no mute, recording `TAPE_BUFFER_SIZE` samples of value `1` and playing back
at once, the last playback call returns `0` (only `TAPE_BUFFER_SIZE - 1` samples
were stored), which is not within `1/32767` of the input `1`. -/
theorem roundtrip_loses_last_sample_at_capacity :
    unityTapeTrack.mode = MODE_TAPE ∧ unityTapeTrack.state = STATE_STOPPED ∧
    unityTapeTrack.playhead_position = 0 ∧ unityTapeTrack.muted = false ∧
    unityTapeTrack.volume = 1 ∧
    (List.replicate TAPE_BUFFER_SIZE (1 : ℚ))[TAPE_BUFFER_SIZE - 1]? = some 1 ∧
    (processMany logOps
      (StartPlayback (processMany logOps (StartRecording logOps unityTapeTrack)
        (List.replicate TAPE_BUFFER_SIZE 1)).1)
      (List.replicate TAPE_BUFFER_SIZE 0)).2[TAPE_BUFFER_SIZE - 1]? = some 0 ∧
    ¬ |(0 : ℚ) - 1| ≤ 1 / 32767 := by
  have hc := tape_buffer_size_eq
  refine ⟨rfl, rfl, rfl, rfl, ?_, ?_, ?_, ?_⟩
  · simp [unityTapeTrack, SetVolume, fclamp]
  · rw [List.getElem?_replicate]
    have : TAPE_BUFFER_SIZE - 1 < TAPE_BUFFER_SIZE := by omega
    simp [this]
  · exact overrun_then_play_last logOps unityTapeTrack _ _ rfl rfl rfl (by simp) (by simp)
  · rw [abs_le]; norm_num

/-- In binary32 arithmetic, too, the round trip of C1 returns the input scaled
by the volume: on the freshly initialised Tape-mode track (volume `0.8f`),
recording the sample `1` stores `32767` and the playback call returns `0.8f`. -/
theorem roundtrip_scaled_by_volume_binary32 :
    Rounded.quantize round32 1 = 32767 ∧
    (Rounded.processMany round32 logOps
      (StartPlayback (Rounded.processMany round32 logOps (StartRecording logOps float32TapeTrack)
        [1]).1) [0]).2 = [13421773 / 16777216] ∧
    ¬ (|(13421773 / 16777216 : ℚ) - 1| ≤ 1 / 32767) := by
  have r1 : round32 (1 * 32767) = 32767 := by
    rw [round32_eval (1 * 32767) 14 16776704] <;> norm_num [zpow_neg, abs_of_pos]
  have q1 : Rounded.quantize round32 1 = 32767 := by
    unfold Rounded.quantize
    rw [r1]
    norm_num [toInt16, truncToZero, wrapInt16]
  have r2 : round32 (((32767 : ℤ) : ℚ) / 32767) = 1 := by
    rw [round32_eval _ 0 8388608] <;> norm_num [zpow_neg, abs_of_pos]
  have r3 : round32 (1 * (13421773 / 16777216)) = 13421773 / 16777216 := by
    rw [round32_eval _ (-1) 13421773] <;> norm_num [zpow_neg, abs_of_pos]
  refine ⟨q1, ?_, ?_⟩
  · rw [Rounded_record_then_play round32 logOps float32TapeTrack [1] [0] rfl rfl rfl
      (by decide) rfl]
    have hv : float32TapeTrack.volume = 13421773 / 16777216 := by
      rw [show float32TapeTrack.volume = round32 (8 / 10) from rfl, round32_volume]
    have hmu : float32TapeTrack.muted = false := rfl
    have hr : List.range 1 = [0] := rfl
    simp only [List.length_singleton, hr, List.map_cons, List.map_nil,
      List.getD_cons_zero, hmu, hv, q1, Rounded.dequantize, r2, r3, Bool.false_eq_true, if_false]
  · rw [abs_le]; norm_num

/-- The rounding terms of the amended C1 are needed: at volume `0.8f` and input
`4165759 / 2^22` the stored sample is `32543`, the playback value is
`13330019 / 2^24`, and its distance from `x * volume` exceeds `volume / 32767`,
the bound that holds in exact arithmetic. -/
theorem roundtrip_exceeds_exact_bound :
    Rounded.quantize round32 (4165759 / 2 ^ 22) = 32543 ∧
    round32 (Rounded.dequantize round32 (Rounded.quantize round32 (4165759 / 2 ^ 22)) *
      round32 (8 / 10)) = 13330019 / 16777216 ∧
    ¬ (|round32 (Rounded.dequantize round32 (Rounded.quantize round32 (4165759 / 2 ^ 22)) *
        round32 (8 / 10)) - 4165759 / 2 ^ 22 * round32 (8 / 10)| ≤ round32 (8 / 10) / 32767) := by
  have r1 : round32 (4165759 / 2 ^ 22 * 32767) = 16662527 / 512 := by
    rw [round32_eval _ 14 16662527] <;> norm_num [zpow_neg, abs_of_pos]
  have q1 : Rounded.quantize round32 (4165759 / 2 ^ 22) = 32543 := by
    unfold Rounded.quantize
    rw [r1]
    have h0 : (0 : ℚ) ≤ 16662527 / 512 := by norm_num
    have hf : ⌊(16662527 / 512 : ℚ)⌋ = 32543 := by
      rw [Int.floor_eq_iff]; constructor <;> norm_num
    simp only [toInt16, truncToZero, if_pos h0, hf]
    rfl
  have r2 : round32 (((32543 : ℤ) : ℚ) / 32767) = 4165631 / 4194304 := by
    rw [round32_eval _ (-1) 16662524] <;> norm_num [zpow_neg, abs_of_pos]
  have r3 : round32 (4165631 / 4194304 * (13421773 / 16777216)) = 13330019 / 16777216 := by
    rw [round32_eval _ (-1) 13330019] <;> norm_num [zpow_neg, abs_of_pos]
  have hout : round32 (Rounded.dequantize round32 (Rounded.quantize round32 (4165759 / 2 ^ 22)) *
      round32 (8 / 10)) = 13330019 / 16777216 := by
    rw [q1, round32_volume]
    unfold Rounded.dequantize
    rw [r2, r3]
  refine ⟨q1, hout, ?_⟩
  rw [hout, round32_volume, abs_le]
  norm_num

/-- C1, amended: take a stopped Tape-mode track with the playhead at 0 (as in
its initial or just-cleared state) and non-negative volume, any
`n ≤ TAPE_BUFFER_SIZE - 1` and inputs `x[0..n)` in `[-1, 1]`, with every `float`
operation rounded to binary32 (`round32`).  After `StartRecording`,
`Process(x[i])` for `i < n`, `StartPlayback` and `n` further `Process` calls,
playback call `i` returns `round32 (round32 (s / 32767) * volume)` (and `0` when
the track is muted), where `s = trunc (round32 (x[i] * 32767))` is the 16-bit
sample stored by recording call `i`, within the `int16_t` range.  That value is
within `volume * (1/32767 + 2^-22) + 2^-150` of `x[i] * volume`; on an unmuted
track with volume 1 it is within `1/32767 + 2^-22 + 2^-150` of `x[i]`. -/
theorem record_play_roundtrip (ops : LooperOps L) (t : TapeMachineTrack L) (xs ys : List ℚ)
    (hm : t.mode = MODE_TAPE) (hs : t.state = STATE_STOPPED) (hp : t.playhead_position = 0)
    (hlen : xs.length ≤ TAPE_BUFFER_SIZE - 1) (hys : ys.length = xs.length)
    (hx : ∀ x ∈ xs, -1 ≤ x ∧ x ≤ 1) (hvol : 0 ≤ t.volume) :
    ∀ i, i < xs.length →
      (Rounded.processMany round32 ops
          (StartPlayback (Rounded.processMany round32 ops (StartRecording ops t) xs).1) ys).2[i]? =
        some (if t.muted then 0
          else round32 (Rounded.dequantize round32 (Rounded.quantize round32 (xs.getD i 0)) *
            t.volume)) ∧
      Rounded.quantize round32 (xs.getD i 0) = truncToZero (round32 (xs.getD i 0 * 32767)) ∧
      -32767 ≤ truncToZero (round32 (xs.getD i 0 * 32767)) ∧
      truncToZero (round32 (xs.getD i 0 * 32767)) ≤ 32767 ∧
      |round32 (Rounded.dequantize round32 (Rounded.quantize round32 (xs.getD i 0)) * t.volume) -
          xs.getD i 0 * t.volume| ≤ t.volume * (1 / 32767 + 1 / 2 ^ 22) + 1 / 2 ^ 150 ∧
      (t.muted = false → t.volume = 1 →
        ∃ out, (Rounded.processMany round32 ops
            (StartPlayback (Rounded.processMany round32 ops (StartRecording ops t) xs).1)
            ys).2[i]? = some out ∧
          |out - xs.getD i 0| ≤ 1 / 32767 + 1 / 2 ^ 22 + 1 / 2 ^ 150) := by
  intro i hi
  have hout := Rounded_record_then_play round32 ops t xs ys hm hs hp hlen hys
  have hmem : xs.getD i 0 ∈ xs := by
    rw [List.getD_eq_getElem _ _ hi]
    exact List.getElem_mem _
  obtain ⟨hq1, hq2, hq3, hq4⟩ := rounded_roundtrip_error round32 round32_error (xs.getD i 0)
    t.volume (hx _ hmem).1 (hx _ hmem).2 hvol
  have hget : (Rounded.processMany round32 ops
      (StartPlayback (Rounded.processMany round32 ops (StartRecording ops t) xs).1) ys).2[i]? =
      some (if t.muted then 0
        else round32 (Rounded.dequantize round32 (Rounded.quantize round32 (xs.getD i 0)) *
          t.volume)) := by
    rw [hout, List.getElem?_map, List.getElem?_range hi]
    rfl
  refine ⟨hget, hq3, hq1, hq2, hq4, ?_⟩
  intro hmu hv
  refine ⟨_, hget, ?_⟩
  rw [hv] at hq4
  rw [hmu, hv]
  simpa using hq4

theorem record_play_roundtrip_witness :
    float32TapeTrack.mode = MODE_TAPE ∧ float32TapeTrack.state = STATE_STOPPED ∧
    float32TapeTrack.playhead_position = 0 ∧ demoInput.length ≤ TAPE_BUFFER_SIZE - 1 ∧
    ([0, 0, 0] : List ℚ).length = demoInput.length ∧
    (∀ x ∈ demoInput, -1 ≤ x ∧ x ≤ 1) ∧ 0 ≤ float32TapeTrack.volume ∧
    ∀ i, i < demoInput.length →
      (Rounded.processMany round32 logOps
          (StartPlayback
            (Rounded.processMany round32 logOps (StartRecording logOps float32TapeTrack)
              demoInput).1) [0, 0, 0]).2[i]? =
        some (if float32TapeTrack.muted then 0
          else round32 (Rounded.dequantize round32
            (Rounded.quantize round32 (demoInput.getD i 0)) * float32TapeTrack.volume)) ∧
      Rounded.quantize round32 (demoInput.getD i 0) =
        truncToZero (round32 (demoInput.getD i 0 * 32767)) ∧
      -32767 ≤ truncToZero (round32 (demoInput.getD i 0 * 32767)) ∧
      truncToZero (round32 (demoInput.getD i 0 * 32767)) ≤ 32767 ∧
      |round32 (Rounded.dequantize round32 (Rounded.quantize round32 (demoInput.getD i 0)) *
            float32TapeTrack.volume) - demoInput.getD i 0 * float32TapeTrack.volume| ≤
        float32TapeTrack.volume * (1 / 32767 + 1 / 2 ^ 22) + 1 / 2 ^ 150 ∧
      (float32TapeTrack.muted = false → float32TapeTrack.volume = 1 →
        ∃ out, (Rounded.processMany round32 logOps
            (StartPlayback
              (Rounded.processMany round32 logOps (StartRecording logOps float32TapeTrack)
                demoInput).1) [0, 0, 0]).2[i]? = some out ∧
          |out - demoInput.getD i 0| ≤ 1 / 32767 + 1 / 2 ^ 22 + 1 / 2 ^ 150) :=
  have hx : ∀ x ∈ demoInput, -1 ≤ x ∧ x ≤ 1 := by
    intro x hx
    simp only [demoInput, List.mem_cons, List.mem_singleton, List.not_mem_nil, or_false] at hx
    rcases hx with rfl | rfl | rfl <;> norm_num
  have hv : 0 ≤ float32TapeTrack.volume := by
    rw [show float32TapeTrack.volume = round32 (8 / 10) from rfl, round32_volume]
    norm_num
  ⟨rfl, rfl, rfl, by decide, rfl, hx, hv,
    record_play_roundtrip logOps float32TapeTrack demoInput [0, 0, 0] rfl rfl rfl (by decide) rfl
      hx hv⟩

/-! ## Capacity limit of tape recording (C2) -/

/-- C2, as stated, fails for a Tape-mode track that is playing recorded
content: there `StartRecording` starts an overdub, so after `StartRecording` and
`m = 1` call of `Process` the track is in `STATE_OVERDUBBING` with
`track_length = record_position = 3`, not in `STATE_RECORDING` with
`track_length = record_position = 1`. -/
theorem startRecording_while_playing_overdubs :
    playingTapeTrack.mode = MODE_TAPE ∧
    ([0] : List ℚ).length ≤ TAPE_BUFFER_SIZE - 1 ∧
    (processMany logOps (StartRecording logOps playingTapeTrack) [0]).1.state
      = STATE_OVERDUBBING ∧
    (processMany logOps (StartRecording logOps playingTapeTrack) [0]).1.track_length = 3 ∧
    (processMany logOps (StartRecording logOps playingTapeTrack) [0]).1.record_position = 3 ∧
    ¬ ((processMany logOps (StartRecording logOps playingTapeTrack) [0]).1.state
        = STATE_RECORDING ∧
      (processMany logOps (StartRecording logOps playingTapeTrack) [0]).1.track_length
        = ([0] : List ℚ).length ∧
      (processMany logOps (StartRecording logOps playingTapeTrack) [0]).1.record_position
        = ([0] : List ℚ).length) := by
  refine ⟨by decide, by decide, by decide, by decide, by decide, by decide⟩

/-- C2, amended: take a Tape-mode track that is not playing recorded content
(so that `StartRecording` begins a recording rather than an overdub), and make
`m` calls of `Process` with arbitrary inputs after `StartRecording`.  If
`m ≤ TAPE_BUFFER_SIZE - 1` the track is still in `STATE_RECORDING` with
`track_length = record_position = m`, and every slot at an index `≥ m`, in
particular every slot at an index `≥ TAPE_BUFFER_SIZE - 1`, still holds what it
held before.  If `m ≥ TAPE_BUFFER_SIZE` the track is in `STATE_STOPPED` with
`record_position = track_length = TAPE_BUFFER_SIZE - 1`, and again no slot at an
index `≥ TAPE_BUFFER_SIZE - 1` has changed. -/
theorem recording_capacity_limit (ops : LooperOps L) (t : TapeMachineTrack L) (xs : List ℚ)
    (hm : t.mode = MODE_TAPE) (hfresh : ¬ (0 < t.track_length ∧ t.state = STATE_PLAYING)) :
    (xs.length ≤ TAPE_BUFFER_SIZE - 1 →
      (processMany ops (StartRecording ops t) xs).1.state = STATE_RECORDING ∧
      (processMany ops (StartRecording ops t) xs).1.track_length = xs.length ∧
      (processMany ops (StartRecording ops t) xs).1.record_position = xs.length ∧
      (∀ i, xs.length ≤ i →
        (processMany ops (StartRecording ops t) xs).1.tape_buffer i = t.tape_buffer i) ∧
      (∀ i, TAPE_BUFFER_SIZE - 1 ≤ i →
        (processMany ops (StartRecording ops t) xs).1.tape_buffer i = t.tape_buffer i)) ∧
    (TAPE_BUFFER_SIZE ≤ xs.length →
      (processMany ops (StartRecording ops t) xs).1.state = STATE_STOPPED ∧
      (processMany ops (StartRecording ops t) xs).1.record_position = TAPE_BUFFER_SIZE - 1 ∧
      (processMany ops (StartRecording ops t) xs).1.track_length = TAPE_BUFFER_SIZE - 1 ∧
      (∀ i, TAPE_BUFFER_SIZE - 1 ≤ i →
        (processMany ops (StartRecording ops t) xs).1.tape_buffer i = t.tape_buffer i)) := by
  have hrec := StartRecording_state_fresh ops t hm hfresh
  constructor
  · intro hlen
    rw [fresh_recording_run ops t xs hm hrec hlen]
    have hbuf : ∀ i, xs.length ≤ i → recordedBuffer t.tape_buffer 0 xs i = t.tape_buffer i := by
      intro i hi
      simp only [recordedBuffer]
      have : ¬ (0 ≤ i ∧ i < 0 + xs.length) := by omega
      rw [if_neg this]
    exact ⟨rfl, rfl, rfl, hbuf, fun i hi => hbuf i (by omega)⟩
  · intro hlen
    rw [fresh_recording_overrun ops t xs hm hrec hlen]
    have hc := tape_buffer_size_eq
    refine ⟨rfl, rfl, rfl, ?_⟩
    intro i hi
    simp only [recordedBuffer]
    have : ¬ (0 ≤ i ∧ i < 0 + (xs.take (TAPE_BUFFER_SIZE - 1)).length) := by
      rw [List.length_take]; omega
    rw [if_neg this]

theorem recording_capacity_limit_witness :
    initTapeTrack.mode = MODE_TAPE ∧
    ¬ (0 < initTapeTrack.track_length ∧ initTapeTrack.state = STATE_PLAYING) ∧
    ((([1, -1, 1 / 2] : List ℚ).length ≤ TAPE_BUFFER_SIZE - 1 →
      (processMany logOps (StartRecording logOps initTapeTrack) [1, -1, 1 / 2]).1.state
        = STATE_RECORDING ∧
      (processMany logOps (StartRecording logOps initTapeTrack) [1, -1, 1 / 2]).1.track_length
        = ([1, -1, 1 / 2] : List ℚ).length ∧
      (processMany logOps (StartRecording logOps initTapeTrack) [1, -1, 1 / 2]).1.record_position
        = ([1, -1, 1 / 2] : List ℚ).length ∧
      (∀ i, ([1, -1, 1 / 2] : List ℚ).length ≤ i →
        (processMany logOps (StartRecording logOps initTapeTrack) [1, -1, 1 / 2]).1.tape_buffer i
          = initTapeTrack.tape_buffer i) ∧
      (∀ i, TAPE_BUFFER_SIZE - 1 ≤ i →
        (processMany logOps (StartRecording logOps initTapeTrack) [1, -1, 1 / 2]).1.tape_buffer i
          = initTapeTrack.tape_buffer i)) ∧
    (TAPE_BUFFER_SIZE ≤ ([1, -1, 1 / 2] : List ℚ).length →
      (processMany logOps (StartRecording logOps initTapeTrack) [1, -1, 1 / 2]).1.state
        = STATE_STOPPED ∧
      (processMany logOps (StartRecording logOps initTapeTrack) [1, -1, 1 / 2]).1.record_position
        = TAPE_BUFFER_SIZE - 1 ∧
      (processMany logOps (StartRecording logOps initTapeTrack) [1, -1, 1 / 2]).1.track_length
        = TAPE_BUFFER_SIZE - 1 ∧
      (∀ i, TAPE_BUFFER_SIZE - 1 ≤ i →
        (processMany logOps (StartRecording logOps initTapeTrack) [1, -1, 1 / 2]).1.tape_buffer i
          = initTapeTrack.tape_buffer i))) :=
  ⟨by decide, by decide,
    recording_capacity_limit logOps initTapeTrack [1, -1, 1 / 2] (by decide) (by decide)⟩

/-! ## Mute does not interfere with transport (C3) -/

theorem ProcessBody_setMuted (ops : LooperOps L) (b : Bool) (t : TapeMachineTrack L) (x : ℚ) :
    ProcessBody ops (setMuted b t) x =
      (setMuted b (ProcessBody ops t x).1, (ProcessBody ops t x).2) := by
  cases t with
  | mk mode state buf ph rp len armed muted vol looper hc =>
    cases mode <;> cases state <;> simp only [ProcessBody, setMuted] <;> split_ifs <;> rfl

theorem step_setMuted (ops : LooperOps L) (b : Bool) (t : TapeMachineTrack L) (c : Command) :
    (step ops (setMuted b t) c).1 = setMuted b (step ops t c).1 := by
  cases c with
  | process x => simp only [step, Process, ProcessBody_setMuted]
  | startRecording =>
    cases t with
    | mk mode state buf ph rp len armed muted vol looper hc =>
      cases mode <;> simp only [step, StartRecording, setMuted] <;> split_ifs <;> rfl
  | startPlayback =>
    cases t with
    | mk mode state buf ph rp len armed muted vol looper hc =>
      cases mode <;> simp only [step, StartPlayback, setMuted] <;> (try split_ifs) <;> rfl
  | stop =>
    cases t with
    | mk mode state buf ph rp len armed muted vol looper hc =>
      cases mode <;> simp only [step, Stop, setMuted] <;> (try split_ifs) <;> rfl
  | rewind =>
    cases t with
    | mk mode state buf ph rp len armed muted vol looper hc =>
      cases mode <;> simp only [step, Rewind, setMuted] <;> (try split_ifs) <;> rfl
  | clear =>
    cases t with
    | mk mode state buf ph rp len armed muted vol looper hc =>
      cases mode <;> rfl
  | setMode m =>
    cases t with
    | mk mode state buf ph rp len armed muted vol looper hc =>
      cases mode <;> simp only [step, SetMode, Stop, setMuted] <;> split_ifs <;> rfl
  | toggleMode =>
    cases t with
    | mk mode state buf ph rp len armed muted vol looper hc =>
      cases mode <;> simp only [step, ToggleMode, SetMode, Stop, setMuted] <;> split_ifs <;> rfl

theorem step_muted_sample (ops : LooperOps L) (t : TapeMachineTrack L) (c : Command) :
    (step ops (setMuted true t) c).2 = (step ops t c).2.map (fun _ => 0) := by
  cases c with
  | process x =>
    simp only [step, Process, ProcessBody_setMuted]
    rfl
  | _ => rfl

theorem trajectory_setMuted (ops : LooperOps L) (b : Bool) (cmds : List Command) :
    ∀ t : TapeMachineTrack L,
      (trajectory ops (setMuted b t) cmds).map Prod.fst =
        (trajectory ops t cmds).map (fun p => setMuted b p.1) := by
  induction cmds with
  | nil => intro t; rfl
  | cons c cs ih =>
    intro t
    simp only [trajectory, List.map_cons, step_setMuted, ih]

theorem trajectory_muted_samples (ops : LooperOps L) (cmds : List Command) :
    ∀ t : TapeMachineTrack L,
      (trajectory ops (setMuted true t) cmds).map Prod.snd =
        (trajectory ops t cmds).map (fun p => p.2.map (fun _ => (0 : ℚ))) := by
  induction cmds with
  | nil => intro t; rfl
  | cons c cs ih =>
    intro t
    simp only [trajectory, List.map_cons, step_setMuted, step_muted_sample, ih]

/-- C3: run the same command sequence (`StartRecording`, `StartPlayback`,
`Stop`, `Rewind`, `Clear`, `SetMode`, `ToggleMode`, `Process` with any inputs)
on two tracks that differ only in `muted`.  After every command the two tracks
agree in every field other than `muted` (so in mode, state, playhead, record
cursor, length, content flag, buffer contents and loop primitive state), and in
the muted run every `Process` call returns `0`. -/
theorem mute_noninterference (ops : LooperOps L) (t : TapeMachineTrack L)
    (cmds : List Command) :
    (trajectory ops (setMuted true t) cmds).map (fun p => setMuted false p.1) =
      (trajectory ops (setMuted false t) cmds).map Prod.fst ∧
    (trajectory ops (setMuted true t) cmds).map (fun p => transportView p.1) =
      (trajectory ops (setMuted false t) cmds).map (fun p => transportView p.1) ∧
    (trajectory ops (setMuted true t) cmds).map Prod.snd =
      (trajectory ops (setMuted false t) cmds).map (fun p => p.2.map (fun _ => (0 : ℚ))) ∧
    ∀ p ∈ trajectory ops (setMuted true t) cmds, ∀ s, p.2 = some s → s = 0 := by
  have hT := trajectory_setMuted ops true cmds t
  have hF := trajectory_setMuted ops false cmds t
  have hS := trajectory_muted_samples ops cmds t
  have hS2 := trajectory_muted_samples ops cmds (setMuted false t)
  have e1 : ∀ x : TapeMachineTrack L, setMuted false (setMuted true x) = setMuted false x :=
    fun _ => rfl
  have e2 : ∀ (b : Bool) (x : TapeMachineTrack L), transportView (setMuted b x) = transportView x :=
    fun _ _ => rfl
  have e3 : setMuted true (setMuted false t) = setMuted true t := rfl
  have a1 : (trajectory ops (setMuted true t) cmds).map (fun p => setMuted false p.1) =
      (trajectory ops (setMuted false t) cmds).map Prod.fst := by
    have : (trajectory ops (setMuted true t) cmds).map (fun p => setMuted false p.1) =
        ((trajectory ops (setMuted true t) cmds).map Prod.fst).map (setMuted false) := by
      simp [List.map_map, Function.comp_def]
    rw [this, hT, hF]
    simp [List.map_map, Function.comp_def, e1]
  have a2 : (trajectory ops (setMuted true t) cmds).map (fun p => transportView p.1) =
      (trajectory ops (setMuted false t) cmds).map (fun p => transportView p.1) := by
    have h1 : ∀ u : TapeMachineTrack L,
        (trajectory ops u cmds).map (fun p => transportView p.1) =
          ((trajectory ops u cmds).map Prod.fst).map transportView := by
      intro u; simp [List.map_map, Function.comp_def]
    rw [h1, h1, hT, hF]
    simp [List.map_map, Function.comp_def, e2]
  have a3 : (trajectory ops (setMuted true t) cmds).map Prod.snd =
      (trajectory ops (setMuted false t) cmds).map (fun p => p.2.map (fun _ => (0 : ℚ))) := by
    rw [← hS2, e3]
  refine ⟨a1, a2, a3, ?_⟩
  intro p hp s hs
  have hmem : p.2 ∈ (trajectory ops (setMuted true t) cmds).map Prod.snd :=
    List.mem_map_of_mem _ hp
  rw [hS] at hmem
  obtain ⟨q, _, hq⟩ := List.mem_map.mp hmem
  rw [hs] at hq
  cases hq2 : q.2 with
  | none => rw [hq2] at hq; cases hq
  | some v => rw [hq2] at hq; simpa using hq.symm

/-! ## Clear (C4) -/

/-- C4: in Tape mode, whatever the state and buffer contents, `Clear` leaves
`track_length`, `playhead_position` and `record_position` at zero, the state
`STATE_STOPPED`, and every one of the `TAPE_BUFFER_SIZE` slots holding zero. -/
theorem clear_tape_resets (ops : LooperOps L) (t : TapeMachineTrack L)
    (hmode : t.mode = MODE_TAPE) :
    (Clear ops t).track_length = 0 ∧ (Clear ops t).playhead_position = 0 ∧
    (Clear ops t).record_position = 0 ∧ (Clear ops t).state = STATE_STOPPED ∧
    (Clear ops t).mode = MODE_TAPE ∧
    ∀ i, i < TAPE_BUFFER_SIZE → (Clear ops t).tape_buffer i = 0 := by
  refine ⟨?_, ?_, ?_, ?_, ?_, ?_⟩ <;> simp only [Clear, hmode]
  intro i hi
  simp [zeroFill_apply, hi]

theorem clear_tape_resets_witness :
    playingTapeTrack.mode = MODE_TAPE ∧
    (Clear logOps playingTapeTrack).track_length = 0 ∧
    (Clear logOps playingTapeTrack).playhead_position = 0 ∧
    (Clear logOps playingTapeTrack).record_position = 0 ∧
    (Clear logOps playingTapeTrack).state = STATE_STOPPED ∧
    (Clear logOps playingTapeTrack).mode = MODE_TAPE ∧
    ∀ i, i < TAPE_BUFFER_SIZE → (Clear logOps playingTapeTrack).tape_buffer i = 0 :=
  ⟨rfl, clear_tape_resets logOps playingTapeTrack rfl⟩

/-! ## Overdub with silent input (C5) -/

/-- C5, as stated, fails: the track reached from `Init` by `SetMode(MODE_TAPE)`,
`StartRecording`, `Process(1)`, `StartPlayback`, `StartRecording` overdubs its one
recorded sample (`existing[0] = 1`) from playhead 0 at the default volume 0.8.
The overdub call `Process(0)` returns `0.7 * 1 * 0.8 = 0.56`, not
`0.7 * existing[0] = 0.7`. -/
theorem overdub_output_scaled_by_volume :
    overdubOneTrack.mode = MODE_TAPE ∧ overdubOneTrack.state = STATE_OVERDUBBING ∧
    overdubOneTrack.playhead_position = 0 ∧ overdubOneTrack.track_length = 1 ∧
    dequantize (overdubOneTrack.tape_buffer 0) = 1 ∧
    (processMany logOps overdubOneTrack (List.replicate 1 0)).2 = [14 / 25] ∧
    (processMany logOps overdubOneTrack (List.replicate 1 0)).2[0]? ≠
      some (7 / 10 * dequantize (overdubOneTrack.tape_buffer 0)) := by
  have hd : dequantize (overdubOneTrack.tape_buffer 0) = 1 := by
    rw [overdubOneTrack_eq]
    simp [quantize_one, dequantize]
  have ho : (processMany logOps overdubOneTrack (List.replicate 1 0)).2 = [14 / 25] := by
    rw [overdubOneTrack_eq]
    simp [processMany, Process, ProcessBody, quantize_one, dequantize]
    norm_num
  refine ⟨rfl, rfl, rfl, rfl, hd, ho, ?_⟩
  rw [ho, hd]
  norm_num

/-- C5, amended: for a Tape-mode track in `STATE_OVERDUBBING` with the playhead
at 0 and `n` recorded samples, one pass of `n` calls `Process(0)` returns, at
call `i < n`, the value `0.7 * existing[i] * volume`, where `existing[i]` is the
dequantised sample stored at index `i` before the pass; a muted track returns
`0`.  On an unmuted track with volume 1 the returned value is
`0.7 * existing[i]`. -/
theorem overdub_silent_pass (ops : LooperOps L) (t : TapeMachineTrack L) (n : Nat)
    (hm : t.mode = MODE_TAPE) (hs : t.state = STATE_OVERDUBBING)
    (hp : t.playhead_position = 0) (hn : t.track_length = n) :
    ∀ i, i < n →
      (processMany ops t (List.replicate n 0)).2[i]? =
        some (if t.muted then 0 else 7 / 10 * dequantize (t.tape_buffer i) * t.volume) ∧
      (t.muted = false → t.volume = 1 →
        (processMany ops t (List.replicate n 0)).2[i]? =
          some (7 / 10 * dequantize (t.tape_buffer i))) := by
  intro i hi
  have hrun := processMany_overdubbing ops (List.replicate n 0) t hm hs
    (by rw [hp, List.length_replicate, hn]; omega)
  have hget : (processMany ops t (List.replicate n 0)).2[i]? =
      some (if t.muted then 0 else 7 / 10 * dequantize (t.tape_buffer i) * t.volume) := by
    rw [hrun]
    simp only [List.length_replicate]
    rw [List.getElem?_map, List.getElem?_range hi]
    simp only [Option.map_some', hp, Nat.zero_add]
    have : (List.replicate n (0 : ℚ)).getD i 0 = 0 := by
      simp [List.getD_eq_getElem?_getD, List.getElem?_replicate, hi]
    rw [this]
    congr 1
    split_ifs
    · rfl
    · ring
  refine ⟨hget, ?_⟩
  intro hmu hv
  rw [hget, hmu, hv]
  simp

theorem overdub_silent_pass_witness :
    overdubOneTrack.mode = MODE_TAPE ∧ overdubOneTrack.state = STATE_OVERDUBBING ∧
    overdubOneTrack.playhead_position = 0 ∧ overdubOneTrack.track_length = 1 ∧
    ∀ i, i < 1 →
      (processMany logOps overdubOneTrack (List.replicate 1 0)).2[i]? =
        some (if overdubOneTrack.muted then 0
          else 7 / 10 * dequantize (overdubOneTrack.tape_buffer i) * overdubOneTrack.volume) ∧
      (overdubOneTrack.muted = false → overdubOneTrack.volume = 1 →
        (processMany logOps overdubOneTrack (List.replicate 1 0)).2[i]? =
          some (7 / 10 * dequantize (overdubOneTrack.tape_buffer i))) :=
  ⟨rfl, rfl, rfl, rfl, overdub_silent_pass logOps overdubOneTrack 1 rfl rfl rfl rfl⟩

/-! ## Mode switch (C6) -/

/-- C6, as stated, fails: a freshly initialised Loop-mode track on which
`StartRecording` was pressed is in `STATE_RECORDING`; `SetMode(MODE_TAPE)` calls
`Stop`, which in Loop mode turns a recording track to `STATE_PLAYING`, so the
track ends in Tape mode with state `STATE_PLAYING`, not `STATE_STOPPED`. -/
theorem setMode_not_always_stopped :
    loopRecordingTrack.mode = MODE_LOOP ∧
    loopRecordingTrack.state = STATE_RECORDING ∧
    (SetMode logOps MODE_TAPE loopRecordingTrack).mode = MODE_TAPE ∧
    (SetMode logOps MODE_TAPE loopRecordingTrack).state = STATE_PLAYING ∧
    (ToggleMode logOps loopRecordingTrack).state = STATE_PLAYING ∧
    ¬ ((SetMode logOps MODE_TAPE loopRecordingTrack).state = STATE_STOPPED) := by
  refine ⟨by decide, by decide, by decide, by decide, by decide, by decide⟩

/-- C6, amended: for every track in any mode and any state, `SetMode(new)` with
`new` different from the current mode is `Stop()` followed by the assignment of
the mode, and so is `ToggleMode()`; the mode afterwards is `new`.  The state
afterwards is `STATE_STOPPED` for every Tape-mode track and for every Loop-mode
track that is stopped or playing, and `STATE_PLAYING` for a Loop-mode track that
is recording or overdubbing. -/
theorem setMode_stops (ops : LooperOps L) (t : TapeMachineTrack L) (new_mode : TrackMode)
    (hne : new_mode ≠ t.mode) :
    SetMode ops new_mode t = { Stop ops t with mode := new_mode } ∧
    (SetMode ops new_mode t).mode = new_mode ∧
    ToggleMode ops t = SetMode ops new_mode t ∧
    (t.mode = MODE_TAPE ∨ t.state = STATE_STOPPED ∨ t.state = STATE_PLAYING →
      (SetMode ops new_mode t).state = STATE_STOPPED) ∧
    (t.mode = MODE_LOOP → t.state = STATE_RECORDING ∨ t.state = STATE_OVERDUBBING →
      (SetMode ops new_mode t).state = STATE_PLAYING) := by
  have h1 : SetMode ops new_mode t = { Stop ops t with mode := new_mode } := by
    simp [SetMode, hne]
  have h3 : (if t.mode = MODE_LOOP then MODE_TAPE else MODE_LOOP) = new_mode := by
    cases hm : t.mode <;> cases new_mode <;> simp_all
  refine ⟨h1, by rw [h1], ?_, ?_, ?_⟩
  · unfold ToggleMode
    rw [h3]
  · intro hst
    rw [h1]
    show (Stop ops t).state = STATE_STOPPED
    unfold Stop
    cases hm : t.mode
    · rcases hst with h | h | h
      · rw [hm] at h; cases h
      · simp [h]
      · simp [h]
    · rfl
  · intro hm hst
    rw [h1]
    show (Stop ops t).state = STATE_PLAYING
    unfold Stop
    rw [hm]
    simp only [if_pos hst]

theorem setMode_stops_witness :
    MODE_LOOP ≠ playingTapeTrack.mode ∧
    (SetMode logOps MODE_LOOP playingTapeTrack =
        { Stop logOps playingTapeTrack with mode := MODE_LOOP } ∧
      (SetMode logOps MODE_LOOP playingTapeTrack).mode = MODE_LOOP ∧
      ToggleMode logOps playingTapeTrack = SetMode logOps MODE_LOOP playingTapeTrack ∧
      (playingTapeTrack.mode = MODE_TAPE ∨ playingTapeTrack.state = STATE_STOPPED ∨
          playingTapeTrack.state = STATE_PLAYING →
        (SetMode logOps MODE_LOOP playingTapeTrack).state = STATE_STOPPED) ∧
      (playingTapeTrack.mode = MODE_LOOP →
        playingTapeTrack.state = STATE_RECORDING ∨ playingTapeTrack.state = STATE_OVERDUBBING →
        (SetMode logOps MODE_LOOP playingTapeTrack).state = STATE_PLAYING)) :=
  ⟨by decide, setMode_stops logOps playingTapeTrack MODE_LOOP (by decide)⟩

/-! ## Cursor bounds (C7) -/

theorem cursorInv_Init (looper0 : L) (mem : Nat → Int) : CursorInv (Init looper0 mem) := by
  simp [CursorInv, Init]

theorem cursorInv_Stop (ops : LooperOps L) (t : TapeMachineTrack L) (h : CursorInv t) :
    CursorInv (Stop ops t) := by
  cases t with
  | mk mode state buf ph rp len armed muted vol looper hc =>
    cases mode <;> simp only [CursorInv, Stop] at h ⊢ <;> (try split_ifs) <;> exact h

theorem cursorInv_SetMode (ops : LooperOps L) (m : TrackMode) (t : TapeMachineTrack L)
    (h : CursorInv t) : CursorInv (SetMode ops m t) := by
  unfold SetMode
  split_ifs
  · exact cursorInv_Stop ops t h
  · exact h

theorem cursorInv_Process (ops : LooperOps L) (t : TapeMachineTrack L) (x : ℚ)
    (h : CursorInv t) : CursorInv (Process ops t x).1 := by
  cases t with
  | mk mode state buf ph rp len armed muted vol looper hc =>
    simp only [CursorInv] at h
    obtain ⟨h1, h2, h3⟩ := h
    cases mode <;> cases state <;> simp only [CursorInv, Process, ProcessBody] <;>
      (try split_ifs) <;> (refine ⟨?_, ?_, ?_⟩ <;> (try simp only) <;> omega)

theorem cursorInv_step (ops : LooperOps L) (t : TapeMachineTrack L) (c : Command)
    (h : CursorInv t) : CursorInv (step ops t c).1 := by
  cases c with
  | process x => exact cursorInv_Process ops t x h
  | stop => exact cursorInv_Stop ops t h
  | startRecording =>
    cases t with
    | mk mode state buf ph rp len armed muted vol looper hc =>
      simp only [CursorInv] at h
      obtain ⟨h1, h2, h3⟩ := h
      cases mode <;> simp only [CursorInv, step, StartRecording] <;> (try split_ifs) <;>
        (refine ⟨?_, ?_, ?_⟩ <;> (try simp only) <;> omega)
  | startPlayback =>
    cases t with
    | mk mode state buf ph rp len armed muted vol looper hc =>
      simp only [CursorInv] at h
      obtain ⟨h1, h2, h3⟩ := h
      cases mode <;> simp only [CursorInv, step, StartPlayback] <;> (try split_ifs) <;>
        (refine ⟨?_, ?_, ?_⟩ <;> (try simp only) <;> omega)
  | rewind =>
    cases t with
    | mk mode state buf ph rp len armed muted vol looper hc =>
      simp only [CursorInv] at h
      obtain ⟨h1, h2, h3⟩ := h
      cases mode <;> simp only [CursorInv, step, Rewind] <;> (try split_ifs) <;>
        (refine ⟨?_, ?_, ?_⟩ <;> (try simp only) <;> omega)
  | clear =>
    cases t with
    | mk mode state buf ph rp len armed muted vol looper hc =>
      simp only [CursorInv] at h
      obtain ⟨h1, h2, h3⟩ := h
      cases mode <;> simp only [CursorInv, step, Clear] <;>
        (refine ⟨?_, ?_, ?_⟩ <;> omega)
  | setMode m => exact cursorInv_SetMode ops m t h
  | toggleMode => exact cursorInv_SetMode ops _ t h

theorem cursorInv_of_reachable (ops : LooperOps L) (looper0 : L) (mem : Nat → Int)
    (t : TapeMachineTrack L) (h : Reachable ops looper0 mem t) : CursorInv t := by
  induction h with
  | init => exact cursorInv_Init looper0 mem
  | command t c _ ih => exact cursorInv_step ops t c ih
  | setVolume t v _ ih => exact ih
  | toggleMute t _ ih => exact ih

/-- C7: in every state reachable from `Init` by `StartRecording`,
`StartPlayback`, `Stop`, `Rewind`, `Clear`, `SetMode`, `ToggleMode` and
`Process` with arbitrary inputs (and by `SetVolume` and `ToggleMute`), the
playhead, the record cursor and the length are all at most `TAPE_BUFFER_SIZE`;
they are natural numbers, so non-negative, and in fact they never exceed
`TAPE_BUFFER_SIZE - 1`. -/
theorem cursor_bounds (ops : LooperOps L) (looper0 : L) (mem : Nat → Int)
    (t : TapeMachineTrack L) (h : Reachable ops looper0 mem t) :
    (0 ≤ t.playhead_position ∧ t.playhead_position ≤ TAPE_BUFFER_SIZE) ∧
    (0 ≤ t.record_position ∧ t.record_position ≤ TAPE_BUFFER_SIZE) ∧
    t.track_length ≤ TAPE_BUFFER_SIZE ∧
    t.playhead_position < TAPE_BUFFER_SIZE ∧ t.record_position < TAPE_BUFFER_SIZE ∧
    t.track_length < TAPE_BUFFER_SIZE := by
  obtain ⟨h1, h2, h3⟩ := cursorInv_of_reachable ops looper0 mem t h
  have hc := tape_buffer_size_eq
  omega

theorem cursor_bounds_witness :
    Reachable logOps [] zeroMem threeStepTrack ∧
    ((0 ≤ threeStepTrack.playhead_position ∧
        threeStepTrack.playhead_position ≤ TAPE_BUFFER_SIZE) ∧
      (0 ≤ threeStepTrack.record_position ∧
        threeStepTrack.record_position ≤ TAPE_BUFFER_SIZE) ∧
      threeStepTrack.track_length ≤ TAPE_BUFFER_SIZE ∧
      threeStepTrack.playhead_position < TAPE_BUFFER_SIZE ∧
      threeStepTrack.record_position < TAPE_BUFFER_SIZE ∧
      threeStepTrack.track_length < TAPE_BUFFER_SIZE) :=
  ⟨Reachable.command _ _ (Reachable.command _ _ (Reachable.command _ _ Reachable.init)),
    cursor_bounds logOps [] zeroMem threeStepTrack
      (Reachable.command _ _ (Reachable.command _ _ (Reachable.command _ _ Reachable.init)))⟩

/-! ## StartPlayback without content (C8) -/

/-- C8: when `HasContent` is false (Loop mode: `loop_has_content` false; Tape
mode: `track_length` zero), `StartPlayback` returns the track unchanged in every
field, including the state of the loop primitive; a stopped track stays
stopped. -/
theorem startPlayback_without_content (t : TapeMachineTrack L)
    (h : HasContent t = false) :
    StartPlayback t = t ∧ (t.state = STATE_STOPPED → (StartPlayback t).state = STATE_STOPPED) := by
  have key : StartPlayback t = t := by
    unfold HasContent at h
    unfold StartPlayback
    cases hm : t.mode <;> simp only [hm] at h ⊢
    · simp [h]
    · have : ¬ 0 < t.track_length := by simpa using h
      simp [this]
  exact ⟨key, fun hs => by rw [key]; exact hs⟩

theorem startPlayback_without_content_witness :
    HasContent initTapeTrack = false ∧
    (StartPlayback initTapeTrack = initTapeTrack ∧
      (initTapeTrack.state = STATE_STOPPED →
        (StartPlayback initTapeTrack).state = STATE_STOPPED)) :=
  ⟨by decide, startPlayback_without_content initTapeTrack (by decide)⟩

/-! ## Stop on a stopped track (C9) -/

/-- C9: on a track whose state is `STATE_STOPPED`, in Loop mode and in Tape
mode alike, `Stop` returns the track unchanged in every field; the loop
primitive is not touched, and a second `Stop` changes nothing either. -/
theorem stop_when_stopped (ops : LooperOps L) (t : TapeMachineTrack L)
    (h : t.state = STATE_STOPPED) :
    Stop ops t = t ∧ (Stop ops t).looper = t.looper ∧ Stop ops (Stop ops t) = Stop ops t := by
  have key : Stop ops t = t := by
    cases t with
    | mk mode state buf ph rp len armed muted vol looper hc =>
      simp only at h
      subst h
      cases mode <;> simp [Stop]
  refine ⟨key, by rw [key], by rw [key, key]⟩

theorem stop_when_stopped_witness :
    initTrack.state = STATE_STOPPED ∧
    (Stop logOps initTrack = initTrack ∧ (Stop logOps initTrack).looper = initTrack.looper ∧
      Stop logOps (Stop logOps initTrack) = Stop logOps initTrack) :=
  ⟨rfl, stop_when_stopped logOps initTrack rfl⟩

/-! ## Capacity exhaustion (C10) -/

/-- C10, as stated, fails in its last clause: on a Tape-mode track recording
at the default volume 0.8 with the record cursor at `TAPE_BUFFER_SIZE - 1`,
`Process(1)` returns `1 * 0.5 * 0.8 = 0.4`, not the monitor sample `0.5`. -/
theorem overflow_sample_scaled_by_volume :
    fullTapeTrack.mode = MODE_TAPE ∧ fullTapeTrack.state = STATE_RECORDING ∧
    fullTapeTrack.record_position = TAPE_BUFFER_SIZE - 1 ∧
    (Process logOps fullTapeTrack 1).2 = 2 / 5 ∧
    (Process logOps fullTapeTrack 1).2 ≠ 1 * (1 / 2) := by
  have h : (Process logOps fullTapeTrack 1).2 = 2 / 5 := by
    simp [Process, ProcessBody, fullTapeTrack]
    norm_num
  refine ⟨rfl, rfl, rfl, h, ?_⟩
  rw [h]
  norm_num

/-- C10, amended: the `Process` call made in Tape mode, state
`STATE_RECORDING`, with `record_position = TAPE_BUFFER_SIZE - 1` changes the
state to `STATE_STOPPED` and nothing else (buffer, length, both cursors and all
other fields are as before), so `IsRecording` goes from true to false; the
local `output` is `input * 0.5`, and the returned sample is that value times
`volume`, or `0` when the track is muted. -/
theorem process_at_capacity (ops : LooperOps L) (t : TapeMachineTrack L) (input : ℚ)
    (hmode : t.mode = MODE_TAPE) (hstate : t.state = STATE_RECORDING)
    (hpos : t.record_position = TAPE_BUFFER_SIZE - 1) :
    (Process ops t input).1 = { t with state := STATE_STOPPED } ∧
    IsRecording t = true ∧ IsRecording (Process ops t input).1 = false ∧
    (ProcessBody ops t input).2 = input * (1 / 2) ∧
    (Process ops t input).2 = if t.muted then 0 else input * (1 / 2) * t.volume := by
  have hb : ProcessBody ops t input = ({ t with state := STATE_STOPPED }, input * (1 / 2)) := by
    simp [ProcessBody, hmode, hstate, hpos]
  refine ⟨?_, ?_, ?_, ?_, ?_⟩
  · simp [Process, hb]
  · simp [IsRecording, hstate]
  · simp [Process, hb, IsRecording]
  · rw [hb]
  · simp [Process, hb]

theorem process_at_capacity_witness :
    fullTapeTrack.mode = MODE_TAPE ∧ fullTapeTrack.state = STATE_RECORDING ∧
    fullTapeTrack.record_position = TAPE_BUFFER_SIZE - 1 ∧
    ((Process logOps fullTapeTrack 1).1 = { fullTapeTrack with state := STATE_STOPPED } ∧
      IsRecording fullTapeTrack = true ∧
      IsRecording (Process logOps fullTapeTrack 1).1 = false ∧
      (ProcessBody logOps fullTapeTrack 1).2 = 1 * (1 / 2) ∧
      (Process logOps fullTapeTrack 1).2 =
        if fullTapeTrack.muted then 0 else 1 * (1 / 2) * fullTapeTrack.volume) :=
  ⟨rfl, rfl, rfl, process_at_capacity logOps fullTapeTrack 1 rfl rfl rfl⟩


/-! ## StartRecording in Tape mode (C13) -/

/-- C13: in Tape mode, if `track_length > 0` and the state is `STATE_PLAYING`,
`StartRecording` sets the state to `STATE_OVERDUBBING` and changes nothing else
(playhead, record cursor, length and buffer are as before); in every other case
it sets the state to `STATE_RECORDING`, the record cursor and the length to 0,
and changes nothing else (playhead and buffer contents are as before). -/
theorem startRecording_tape (ops : LooperOps L) (t : TapeMachineTrack L)
    (hm : t.mode = MODE_TAPE) :
    ((0 < t.track_length ∧ t.state = STATE_PLAYING) →
      StartRecording ops t = { t with state := STATE_OVERDUBBING } ∧
      (StartRecording ops t).state = STATE_OVERDUBBING ∧
      (StartRecording ops t).playhead_position = t.playhead_position ∧
      (StartRecording ops t).record_position = t.record_position ∧
      (StartRecording ops t).track_length = t.track_length ∧
      (StartRecording ops t).tape_buffer = t.tape_buffer) ∧
    (¬ (0 < t.track_length ∧ t.state = STATE_PLAYING) →
      StartRecording ops t =
        { t with state := STATE_RECORDING, record_position := 0, track_length := 0 } ∧
      (StartRecording ops t).state = STATE_RECORDING ∧
      (StartRecording ops t).record_position = 0 ∧
      (StartRecording ops t).track_length = 0 ∧
      (StartRecording ops t).playhead_position = t.playhead_position ∧
      (StartRecording ops t).tape_buffer = t.tape_buffer) := by
  cases t with
  | mk mode state buf ph rp len armed muted vol looper hc =>
    simp only at hm
    subst hm
    constructor
    · intro h
      simp only [StartRecording, if_pos h, and_self]
    · intro h
      simp only [StartRecording, if_neg h, and_self]

theorem startRecording_tape_witness :
    playingTapeTrack.mode = MODE_TAPE ∧
    (((0 < playingTapeTrack.track_length ∧ playingTapeTrack.state = STATE_PLAYING) →
      StartRecording logOps playingTapeTrack =
        { playingTapeTrack with state := STATE_OVERDUBBING } ∧
      (StartRecording logOps playingTapeTrack).state = STATE_OVERDUBBING ∧
      (StartRecording logOps playingTapeTrack).playhead_position
        = playingTapeTrack.playhead_position ∧
      (StartRecording logOps playingTapeTrack).record_position
        = playingTapeTrack.record_position ∧
      (StartRecording logOps playingTapeTrack).track_length = playingTapeTrack.track_length ∧
      (StartRecording logOps playingTapeTrack).tape_buffer = playingTapeTrack.tape_buffer) ∧
    (¬ (0 < playingTapeTrack.track_length ∧ playingTapeTrack.state = STATE_PLAYING) →
      StartRecording logOps playingTapeTrack =
        { playingTapeTrack with
            state := STATE_RECORDING, record_position := 0, track_length := 0 } ∧
      (StartRecording logOps playingTapeTrack).state = STATE_RECORDING ∧
      (StartRecording logOps playingTapeTrack).record_position = 0 ∧
      (StartRecording logOps playingTapeTrack).track_length = 0 ∧
      (StartRecording logOps playingTapeTrack).playhead_position
        = playingTapeTrack.playhead_position ∧
      (StartRecording logOps playingTapeTrack).tape_buffer = playingTapeTrack.tape_buffer)) :=
  ⟨rfl, startRecording_tape logOps playingTapeTrack rfl⟩

/-! ## StartPlayback in Tape mode (C14) -/

/-- C14: in Tape mode with `track_length > 0`, `StartPlayback` sets the state
to `STATE_PLAYING`; the playhead becomes 0 if it was at or beyond the length and
is unchanged otherwise; record cursor, length, buffer and all other fields are
unchanged.  With `track_length = 0` the call returns the track as it was. -/
theorem startPlayback_tape (t : TapeMachineTrack L) (hm : t.mode = MODE_TAPE) :
    (0 < t.track_length →
      (StartPlayback t).state = STATE_PLAYING ∧
      (t.track_length ≤ t.playhead_position → (StartPlayback t).playhead_position = 0) ∧
      (t.playhead_position < t.track_length →
        (StartPlayback t).playhead_position = t.playhead_position) ∧
      (StartPlayback t).record_position = t.record_position ∧
      (StartPlayback t).track_length = t.track_length ∧
      (StartPlayback t).tape_buffer = t.tape_buffer ∧
      StartPlayback t =
        { t with state := STATE_PLAYING,
                 playhead_position :=
                   if t.track_length ≤ t.playhead_position then 0 else t.playhead_position }) ∧
    (t.track_length = 0 → StartPlayback t = t) := by
  cases t with
  | mk mode state buf ph rp len armed muted vol looper hc =>
    simp only at hm
    subst hm
    constructor
    · intro h
      simp only at h
      by_cases hge : len ≤ ph
      · have hlt : ¬ ph < len := by omega
        simp [StartPlayback, h, hge, hlt]
      · have hlt : ph < len := by omega
        simp [StartPlayback, h, hge, hlt]
    · intro h
      simp only at h
      subst h
      simp [StartPlayback]

theorem startPlayback_tape_witness :
    endOfTapeTrack.mode = MODE_TAPE ∧
    ((0 < endOfTapeTrack.track_length →
      (StartPlayback endOfTapeTrack).state = STATE_PLAYING ∧
      (endOfTapeTrack.track_length ≤ endOfTapeTrack.playhead_position →
        (StartPlayback endOfTapeTrack).playhead_position = 0) ∧
      (endOfTapeTrack.playhead_position < endOfTapeTrack.track_length →
        (StartPlayback endOfTapeTrack).playhead_position = endOfTapeTrack.playhead_position) ∧
      (StartPlayback endOfTapeTrack).record_position = endOfTapeTrack.record_position ∧
      (StartPlayback endOfTapeTrack).track_length = endOfTapeTrack.track_length ∧
      (StartPlayback endOfTapeTrack).tape_buffer = endOfTapeTrack.tape_buffer ∧
      StartPlayback endOfTapeTrack =
        { endOfTapeTrack with
            state := STATE_PLAYING,
            playhead_position :=
              if endOfTapeTrack.track_length ≤ endOfTapeTrack.playhead_position then 0
              else endOfTapeTrack.playhead_position }) ∧
    (endOfTapeTrack.track_length = 0 → StartPlayback endOfTapeTrack = endOfTapeTrack)) :=
  ⟨rfl, startPlayback_tape endOfTapeTrack rfl⟩

/-! ## Tape playback never loops by itself (C15) -/

/-- C15: in Tape mode, state `STATE_PLAYING`, with the playhead at or beyond
the length, `Process` returns 0 for every input and returns the track unchanged
(state still `STATE_PLAYING`, playhead neither advanced nor reset); hence any
number of further `Process` calls all return 0 and leave the track unchanged.
Only after `StartPlayback` (with content on tape) does `Process` deliver the
sample at index 0 again. -/
theorem playback_never_loops (ops : LooperOps L) (t : TapeMachineTrack L)
    (hm : t.mode = MODE_TAPE) (hs : t.state = STATE_PLAYING)
    (hend : t.track_length ≤ t.playhead_position) :
    (∀ input, Process ops t input = (t, 0)) ∧
    (∀ inputs : List ℚ,
      processMany ops t inputs = (t, List.replicate inputs.length 0)) ∧
    (0 < t.track_length → ∀ input,
      (Process ops (StartPlayback t) input).2 =
        if t.muted then 0 else dequantize (t.tape_buffer 0) * t.volume) := by
  have h1 : ∀ input, Process ops t input = (t, 0) := fun input =>
    Process_playing_end ops t input hm hs (by omega)
  refine ⟨h1, ?_, ?_⟩
  · intro inputs
    induction inputs with
    | nil => rfl
    | cons x xs ih =>
      simp only [processMany, h1, ih, List.length_cons, List.replicate_succ]
  · intro hlen input
    cases t with
    | mk mode state buf ph rp len armed muted vol looper hc =>
      simp only at hm hs hend hlen
      subst hm hs
      simp [StartPlayback, Process, ProcessBody, hlen, hend]

theorem playback_never_loops_witness :
    endOfTapeTrack.mode = MODE_TAPE ∧ endOfTapeTrack.state = STATE_PLAYING ∧
    endOfTapeTrack.track_length ≤ endOfTapeTrack.playhead_position ∧
    ((∀ input, Process logOps endOfTapeTrack input = (endOfTapeTrack, 0)) ∧
    (∀ inputs : List ℚ,
      processMany logOps endOfTapeTrack inputs =
        (endOfTapeTrack, List.replicate inputs.length 0)) ∧
    (0 < endOfTapeTrack.track_length → ∀ input,
      (Process logOps (StartPlayback endOfTapeTrack) input).2 =
        if endOfTapeTrack.muted then 0
        else dequantize (endOfTapeTrack.tape_buffer 0) * endOfTapeTrack.volume)) :=
  ⟨rfl, rfl, by decide, playback_never_loops logOps endOfTapeTrack rfl rfl (by decide)⟩

/-! ## Stop in Tape mode (C16) -/

/-- C16: in Tape mode, whatever the state, `Stop` sets the state to
`STATE_STOPPED` and changes nothing else: playhead, record cursor, length and
every buffer slot are as before. -/
theorem stop_tape (ops : LooperOps L) (t : TapeMachineTrack L) (hm : t.mode = MODE_TAPE) :
    Stop ops t = { t with state := STATE_STOPPED } ∧
    (Stop ops t).state = STATE_STOPPED ∧
    (Stop ops t).playhead_position = t.playhead_position ∧
    (Stop ops t).record_position = t.record_position ∧
    (Stop ops t).track_length = t.track_length ∧
    (∀ i, (Stop ops t).tape_buffer i = t.tape_buffer i) := by
  cases t with
  | mk mode state buf ph rp len armed muted vol looper hc =>
    simp only at hm
    subst hm
    simp [Stop]

theorem stop_tape_witness :
    playingTapeTrack.mode = MODE_TAPE ∧
    (Stop logOps playingTapeTrack = { playingTapeTrack with state := STATE_STOPPED } ∧
    (Stop logOps playingTapeTrack).state = STATE_STOPPED ∧
    (Stop logOps playingTapeTrack).playhead_position = playingTapeTrack.playhead_position ∧
    (Stop logOps playingTapeTrack).record_position = playingTapeTrack.record_position ∧
    (Stop logOps playingTapeTrack).track_length = playingTapeTrack.track_length ∧
    (∀ i, (Stop logOps playingTapeTrack).tape_buffer i = playingTapeTrack.tape_buffer i)) :=
  ⟨rfl, stop_tape logOps playingTapeTrack rfl⟩

/-! ## Rewind in Tape mode (C17) -/

/-- C17: in Tape mode, whatever the state, `Rewind` sets the playhead to 0 and
changes nothing else (state, record cursor, length and buffer are as before).
If the track is playing with `track_length > 0`, the next `Process` call returns
the dequantised sample stored at index 0 times the volume (0 when muted) and
leaves the playhead at 1. -/
theorem rewind_tape (ops : LooperOps L) (t : TapeMachineTrack L) (hm : t.mode = MODE_TAPE) :
    Rewind ops t = { t with playhead_position := 0 } ∧
    (Rewind ops t).playhead_position = 0 ∧
    (Rewind ops t).state = t.state ∧
    (Rewind ops t).record_position = t.record_position ∧
    (Rewind ops t).track_length = t.track_length ∧
    (Rewind ops t).tape_buffer = t.tape_buffer ∧
    (t.state = STATE_PLAYING → 0 < t.track_length → ∀ input,
      (Process ops (Rewind ops t) input).2 =
        (if t.muted then 0 else dequantize (t.tape_buffer 0) * t.volume) ∧
      (Process ops (Rewind ops t) input).1.playhead_position = 1 ∧
      (Process ops (Rewind ops t) input).1 = { t with playhead_position := 1 }) := by
  cases t with
  | mk mode state buf ph rp len armed muted vol looper hc =>
    simp only at hm
    subst hm
    refine ⟨rfl, rfl, rfl, rfl, rfl, rfl, ?_⟩
    intro hs hlen input
    simp only at hs hlen
    subst hs
    simp [Rewind, Process, ProcessBody, hlen]

theorem rewind_tape_witness :
    endOfTapeTrack.mode = MODE_TAPE ∧
    (Rewind logOps endOfTapeTrack = { endOfTapeTrack with playhead_position := 0 } ∧
    (Rewind logOps endOfTapeTrack).playhead_position = 0 ∧
    (Rewind logOps endOfTapeTrack).state = endOfTapeTrack.state ∧
    (Rewind logOps endOfTapeTrack).record_position = endOfTapeTrack.record_position ∧
    (Rewind logOps endOfTapeTrack).track_length = endOfTapeTrack.track_length ∧
    (Rewind logOps endOfTapeTrack).tape_buffer = endOfTapeTrack.tape_buffer ∧
    (endOfTapeTrack.state = STATE_PLAYING → 0 < endOfTapeTrack.track_length → ∀ input,
      (Process logOps (Rewind logOps endOfTapeTrack) input).2 =
        (if endOfTapeTrack.muted then 0
          else dequantize (endOfTapeTrack.tape_buffer 0) * endOfTapeTrack.volume) ∧
      (Process logOps (Rewind logOps endOfTapeTrack) input).1.playhead_position = 1 ∧
      (Process logOps (Rewind logOps endOfTapeTrack) input).1 =
        { endOfTapeTrack with playhead_position := 1 })) :=
  ⟨rfl, rewind_tape logOps endOfTapeTrack rfl⟩

/-! ## Stop in Loop mode (C18) -/

/-- C18: in Loop mode, if the state is `STATE_RECORDING` or
`STATE_OVERDUBBING`, `Stop` applies the record toggle of the loop primitive once
to the primitive's state, sets the state to `STATE_PLAYING` and the content flag
to true, and changes nothing else; otherwise (state `STATE_STOPPED` or
`STATE_PLAYING`) it sets the state to `STATE_STOPPED` and changes nothing else,
so the primitive and the content flag are untouched. -/
theorem stop_loop (ops : LooperOps L) (t : TapeMachineTrack L) (hm : t.mode = MODE_LOOP) :
    ((t.state = STATE_RECORDING ∨ t.state = STATE_OVERDUBBING) →
      Stop ops t =
        { t with looper := ops.TrigRecord t.looper, state := STATE_PLAYING,
                 loop_has_content := true } ∧
      (Stop ops t).looper = ops.TrigRecord t.looper ∧
      (Stop ops t).state = STATE_PLAYING ∧
      (Stop ops t).loop_has_content = true) ∧
    ((t.state = STATE_STOPPED ∨ t.state = STATE_PLAYING) →
      Stop ops t = { t with state := STATE_STOPPED } ∧
      (Stop ops t).state = STATE_STOPPED ∧
      (Stop ops t).looper = t.looper ∧
      (Stop ops t).loop_has_content = t.loop_has_content) := by
  cases t with
  | mk mode state buf ph rp len armed muted vol looper hc =>
    simp only at hm
    subst hm
    constructor
    · intro h
      simp only at h
      simp [Stop, h]
    · intro h
      simp only at h
      have h2 : ¬ (state = STATE_RECORDING ∨ state = STATE_OVERDUBBING) := by
        rcases h with h | h <;> subst h <;> simp
      simp [Stop, h2]

theorem stop_loop_witness :
    loopRecordingTrack.mode = MODE_LOOP ∧
    (((loopRecordingTrack.state = STATE_RECORDING ∨
        loopRecordingTrack.state = STATE_OVERDUBBING) →
      Stop logOps loopRecordingTrack =
        { loopRecordingTrack with
            looper := logOps.TrigRecord loopRecordingTrack.looper, state := STATE_PLAYING,
            loop_has_content := true } ∧
      (Stop logOps loopRecordingTrack).looper = logOps.TrigRecord loopRecordingTrack.looper ∧
      (Stop logOps loopRecordingTrack).state = STATE_PLAYING ∧
      (Stop logOps loopRecordingTrack).loop_has_content = true) ∧
    ((loopRecordingTrack.state = STATE_STOPPED ∨ loopRecordingTrack.state = STATE_PLAYING) →
      Stop logOps loopRecordingTrack = { loopRecordingTrack with state := STATE_STOPPED } ∧
      (Stop logOps loopRecordingTrack).state = STATE_STOPPED ∧
      (Stop logOps loopRecordingTrack).looper = loopRecordingTrack.looper ∧
      (Stop logOps loopRecordingTrack).loop_has_content
        = loopRecordingTrack.loop_has_content)) :=
  ⟨rfl, stop_loop logOps loopRecordingTrack rfl⟩

/-- The call log of C18: with the logging stand-in for the primitive, `Stop` on
a recording or overdubbing Loop-mode track adds exactly one `trigRecord` entry
to the log, and on a stopped or playing one it adds nothing. -/
theorem stop_loop_call_log (t : TapeMachineTrack (List LooperCall)) (hm : t.mode = MODE_LOOP) :
    ((t.state = STATE_RECORDING ∨ t.state = STATE_OVERDUBBING) →
      (Stop logOps t).looper = LooperCall.trigRecord :: t.looper) ∧
    ((t.state = STATE_STOPPED ∨ t.state = STATE_PLAYING) →
      (Stop logOps t).looper = t.looper) := by
  cases t with
  | mk mode state buf ph rp len armed muted vol looper hc =>
    simp only at hm
    subst hm
    constructor
    · intro h
      simp only at h
      simp [Stop, h, logOps]
    · intro h
      simp only at h
      have h2 : ¬ (state = STATE_RECORDING ∨ state = STATE_OVERDUBBING) := by
        rcases h with h | h <;> subst h <;> simp
      simp [Stop, h2]

/-! ## Rewind in Loop mode (C19) -/

/-- C19: in Loop mode with state `STATE_PLAYING`, `Rewind` applies `Clear` and
then the record toggle to the loop primitive, once each and in that order, and
changes nothing else: the state is still `STATE_PLAYING` and the content flag is
as before.  In every other Loop-mode state `Rewind` returns the track unchanged,
primitive included. -/
theorem rewind_loop (ops : LooperOps L) (t : TapeMachineTrack L) (hm : t.mode = MODE_LOOP) :
    (t.state = STATE_PLAYING →
      Rewind ops t = { t with looper := ops.TrigRecord (ops.Clear t.looper) } ∧
      (Rewind ops t).looper = ops.TrigRecord (ops.Clear t.looper) ∧
      (Rewind ops t).state = STATE_PLAYING ∧
      (Rewind ops t).loop_has_content = t.loop_has_content) ∧
    (t.state ≠ STATE_PLAYING → Rewind ops t = t ∧ (Rewind ops t).looper = t.looper) := by
  cases t with
  | mk mode state buf ph rp len armed muted vol looper hc =>
    simp only at hm
    subst hm
    constructor
    · intro h
      simp only at h
      subst h
      simp [Rewind]
    · intro h
      simp only at h
      simp [Rewind, h]

theorem rewind_loop_witness :
    loopPlayingTrack.mode = MODE_LOOP ∧
    ((loopPlayingTrack.state = STATE_PLAYING →
      Rewind logOps loopPlayingTrack =
        { loopPlayingTrack with
            looper := logOps.TrigRecord (logOps.Clear loopPlayingTrack.looper) } ∧
      (Rewind logOps loopPlayingTrack).looper =
        logOps.TrigRecord (logOps.Clear loopPlayingTrack.looper) ∧
      (Rewind logOps loopPlayingTrack).state = STATE_PLAYING ∧
      (Rewind logOps loopPlayingTrack).loop_has_content = loopPlayingTrack.loop_has_content) ∧
    (loopPlayingTrack.state ≠ STATE_PLAYING →
      Rewind logOps loopPlayingTrack = loopPlayingTrack ∧
      (Rewind logOps loopPlayingTrack).looper = loopPlayingTrack.looper)) :=
  ⟨rfl, rewind_loop logOps loopPlayingTrack rfl⟩

/-- The call log of C19: with the logging stand-in for the primitive, `Rewind`
on a playing Loop-mode track adds the entries `clear` and then `trigRecord` to
the log (most recent first), and in every other state it adds nothing. -/
theorem rewind_loop_call_log (t : TapeMachineTrack (List LooperCall)) (hm : t.mode = MODE_LOOP) :
    (t.state = STATE_PLAYING →
      (Rewind logOps t).looper = LooperCall.trigRecord :: LooperCall.clear :: t.looper) ∧
    (t.state ≠ STATE_PLAYING → (Rewind logOps t).looper = t.looper) := by
  cases t with
  | mk mode state buf ph rp len armed muted vol looper hc =>
    simp only at hm
    subst hm
    constructor
    · intro h
      simp only at h
      subst h
      simp [Rewind, logOps]
    · intro h
      simp only at h
      simp [Rewind, h]

/-! ## Loop-mode per-sample rules (C22) -/

/-- C22: for a Loop-mode track and input `x`, `Process(x)` in state
`STATE_STOPPED` returns 0 and leaves the track, loop primitive included,
unchanged; in state `STATE_PLAYING` it feeds the primitive `0` (not `x`) and
changes nothing but the primitive; in state `STATE_OVERDUBBING` it feeds `x` and
changes nothing but the primitive; in state `STATE_RECORDING` it feeds `x`, and
afterwards the state is `STATE_PLAYING` with the content flag set exactly when
the primitive reports that it is no longer recording, otherwise the track is
still in `STATE_RECORDING` with its content flag as before.  In every case
playhead, record cursor, length and tape buffer are unchanged, and the returned
sample is the primitive's output times the volume, or 0 when muted. -/
theorem loop_process_rules (ops : LooperOps L) (t : TapeMachineTrack L) (x : ℚ)
    (hm : t.mode = MODE_LOOP) :
    (t.state = STATE_STOPPED → Process ops t x = (t, 0)) ∧
    (t.state = STATE_PLAYING →
      (Process ops t x).1 = { t with looper := (ops.Process t.looper 0).2 } ∧
      (ProcessBody ops t x).2 = (ops.Process t.looper 0).1 ∧
      (Process ops t x).1.state = STATE_PLAYING) ∧
    (t.state = STATE_OVERDUBBING →
      (Process ops t x).1 = { t with looper := (ops.Process t.looper x).2 } ∧
      (ProcessBody ops t x).2 = (ops.Process t.looper x).1 ∧
      (Process ops t x).1.state = STATE_OVERDUBBING) ∧
    (t.state = STATE_RECORDING →
      (Process ops t x).1.looper = (ops.Process t.looper x).2 ∧
      (ProcessBody ops t x).2 = (ops.Process t.looper x).1 ∧
      (ops.Recording (ops.Process t.looper x).2 = false →
        (Process ops t x).1 =
          { t with looper := (ops.Process t.looper x).2, state := STATE_PLAYING,
                   loop_has_content := true }) ∧
      (ops.Recording (ops.Process t.looper x).2 = true →
        (Process ops t x).1 = { t with looper := (ops.Process t.looper x).2 }) ∧
      ((Process ops t x).1.state = STATE_PLAYING ∧ (Process ops t x).1.loop_has_content = true ↔
        ops.Recording (ops.Process t.looper x).2 = false)) ∧
    ((Process ops t x).1.playhead_position = t.playhead_position ∧
      (Process ops t x).1.record_position = t.record_position ∧
      (Process ops t x).1.track_length = t.track_length ∧
      (Process ops t x).1.tape_buffer = t.tape_buffer ∧
      (Process ops t x).1.mode = MODE_LOOP) ∧
    (Process ops t x).2 = if t.muted then 0 else (ProcessBody ops t x).2 * t.volume := by
  cases t with
  | mk mode state buf ph rp len armed muted vol looper hc =>
    simp only at hm
    subst hm
    refine ⟨?_, ?_, ?_, ?_, ?_, ?_⟩
    · intro hs
      simp only at hs
      subst hs
      simp [Process, ProcessBody]
    · intro hs
      simp only at hs
      subst hs
      simp [Process, ProcessBody]
    · intro hs
      simp only at hs
      subst hs
      simp [Process, ProcessBody]
    · intro hs
      simp only at hs
      subst hs
      cases hr : ops.Recording (ops.Process looper x).2 <;>
        simp [Process, ProcessBody, hr]
    · cases state <;> simp only [Process, ProcessBody] <;> (try split_ifs) <;> trivial
    · cases state <;> simp only [Process, ProcessBody] <;> (try split_ifs) <;> rfl

theorem loop_process_rules_witness :
    loopRecordingTrack.mode = MODE_LOOP ∧
    ((loopRecordingTrack.state = STATE_STOPPED →
      Process logOps loopRecordingTrack 1 = (loopRecordingTrack, 0)) ∧
    (loopRecordingTrack.state = STATE_PLAYING →
      (Process logOps loopRecordingTrack 1).1 =
        { loopRecordingTrack with looper := (logOps.Process loopRecordingTrack.looper 0).2 } ∧
      (ProcessBody logOps loopRecordingTrack 1).2 =
        (logOps.Process loopRecordingTrack.looper 0).1 ∧
      (Process logOps loopRecordingTrack 1).1.state = STATE_PLAYING) ∧
    (loopRecordingTrack.state = STATE_OVERDUBBING →
      (Process logOps loopRecordingTrack 1).1 =
        { loopRecordingTrack with looper := (logOps.Process loopRecordingTrack.looper 1).2 } ∧
      (ProcessBody logOps loopRecordingTrack 1).2 =
        (logOps.Process loopRecordingTrack.looper 1).1 ∧
      (Process logOps loopRecordingTrack 1).1.state = STATE_OVERDUBBING) ∧
    (loopRecordingTrack.state = STATE_RECORDING →
      (Process logOps loopRecordingTrack 1).1.looper =
        (logOps.Process loopRecordingTrack.looper 1).2 ∧
      (ProcessBody logOps loopRecordingTrack 1).2 =
        (logOps.Process loopRecordingTrack.looper 1).1 ∧
      (logOps.Recording (logOps.Process loopRecordingTrack.looper 1).2 = false →
        (Process logOps loopRecordingTrack 1).1 =
          { loopRecordingTrack with
              looper := (logOps.Process loopRecordingTrack.looper 1).2, state := STATE_PLAYING,
              loop_has_content := true }) ∧
      (logOps.Recording (logOps.Process loopRecordingTrack.looper 1).2 = true →
        (Process logOps loopRecordingTrack 1).1 =
          { loopRecordingTrack with looper := (logOps.Process loopRecordingTrack.looper 1).2 }) ∧
      ((Process logOps loopRecordingTrack 1).1.state = STATE_PLAYING ∧
          (Process logOps loopRecordingTrack 1).1.loop_has_content = true ↔
        logOps.Recording (logOps.Process loopRecordingTrack.looper 1).2 = false)) ∧
    ((Process logOps loopRecordingTrack 1).1.playhead_position
        = loopRecordingTrack.playhead_position ∧
      (Process logOps loopRecordingTrack 1).1.record_position
        = loopRecordingTrack.record_position ∧
      (Process logOps loopRecordingTrack 1).1.track_length = loopRecordingTrack.track_length ∧
      (Process logOps loopRecordingTrack 1).1.tape_buffer = loopRecordingTrack.tape_buffer ∧
      (Process logOps loopRecordingTrack 1).1.mode = MODE_LOOP) ∧
    (Process logOps loopRecordingTrack 1).2 =
      if loopRecordingTrack.muted then 0
      else (ProcessBody logOps loopRecordingTrack 1).2 * loopRecordingTrack.volume) :=
  ⟨rfl, loop_process_rules logOps loopRecordingTrack 1 rfl⟩

/-- The call log of C22: with the logging stand-in for the primitive, `Process`
on a Loop-mode track adds no entry when stopped, the entry `process 0` when
playing, and the entry `process x` when overdubbing or recording. -/
theorem loop_process_call_log (t : TapeMachineTrack (List LooperCall)) (x : ℚ)
    (hm : t.mode = MODE_LOOP) :
    (t.state = STATE_STOPPED → (Process logOps t x).1.looper = t.looper) ∧
    (t.state = STATE_PLAYING →
      (Process logOps t x).1.looper = LooperCall.process 0 :: t.looper) ∧
    (t.state = STATE_OVERDUBBING →
      (Process logOps t x).1.looper = LooperCall.process x :: t.looper) ∧
    (t.state = STATE_RECORDING →
      (Process logOps t x).1.looper = LooperCall.process x :: t.looper) := by
  cases t with
  | mk mode state buf ph rp len armed muted vol looper hc =>
    simp only at hm
    subst hm
    refine ⟨?_, ?_, ?_, ?_⟩ <;> intro hs <;> simp only at hs <;> subst hs <;>
      simp only [Process, ProcessBody, logOps] <;> (try split_ifs) <;> rfl

/-! ## Tape-buffer indexing stays in bounds (C24) -/

theorem tapeAccessIndex_lt_length_or_guard (t : TapeMachineTrack L) (i : Nat)
    (h : tapeAccessIndex t = some i) :
    i < TAPE_BUFFER_SIZE - 1 ∨ i < t.track_length := by
  cases t with
  | mk mode state buf ph rp len armed muted vol looper hc =>
    cases mode <;> cases state <;> simp only [tapeAccessIndex] at h <;>
      first
      | cases h
      | (split_ifs at h with hlt
         cases h
         first | exact Or.inl hlt | exact Or.inr hlt)

/-- `Process` changes the tape buffer at no index other than
`tapeAccessIndex`. -/
theorem Process_writes_only_at_access (ops : LooperOps L) (t : TapeMachineTrack L) (x : ℚ)
    (j : Nat) (hj : tapeAccessIndex t ≠ some j) :
    (Process ops t x).1.tape_buffer j = t.tape_buffer j := by
  cases t with
  | mk mode state buf ph rp len armed muted vol looper hc =>
    cases mode <;> cases state <;>
      simp only [tapeAccessIndex, Process, ProcessBody] at hj ⊢ <;>
      (try split_ifs at hj ⊢) <;>
      first
      | rfl
      | (simp only [Function.update_apply]
         rw [if_neg]
         intro hEq
         exact hj (by rw [hEq]))

/-- The sample returned by `Process` depends on the tape buffer only through
the slot at `tapeAccessIndex`. -/
theorem Process_reads_only_at_access (ops : LooperOps L) (t : TapeMachineTrack L) (x : ℚ)
    (buf2 : Nat → Int) (hagree : ∀ i, tapeAccessIndex t = some i → buf2 i = t.tape_buffer i) :
    (Process ops { t with tape_buffer := buf2 } x).2 = (Process ops t x).2 := by
  cases t with
  | mk mode state buf ph rp len armed muted vol looper hc =>
    cases mode <;> cases state <;>
      simp only [tapeAccessIndex, Process, ProcessBody] at hagree ⊢ <;>
      (try split_ifs at hagree ⊢) <;>
      first
      | rfl
      | simp only [hagree _ rfl]

/-- C24: in every state reachable from `Init` by transport commands, mode
switches and `Process` calls with arbitrary inputs (and by `SetVolume` and
`ToggleMute`), the index at which `Process` reads or writes `tape_buffer` (the
record cursor when recording, the playhead when playing or overdubbing)
satisfies `0 ≤ index < TAPE_BUFFER_SIZE`. -/
theorem tape_access_in_bounds (ops : LooperOps L) (looper0 : L) (mem : Nat → Int)
    (t : TapeMachineTrack L) (h : Reachable ops looper0 mem t) :
    ∀ i, tapeAccessIndex t = some i → 0 ≤ i ∧ i < TAPE_BUFFER_SIZE := by
  intro i hi
  have hinv := cursorInv_of_reachable ops looper0 mem t h
  have hc := tape_buffer_size_eq
  obtain ⟨_, _, h3⟩ := hinv
  rcases tapeAccessIndex_lt_length_or_guard t i hi with h1 | h1
  · exact ⟨Nat.zero_le _, by omega⟩
  · exact ⟨Nat.zero_le _, by omega⟩

theorem tape_access_in_bounds_witness :
    Reachable logOps [] zeroMem threeStepTrack ∧
    tapeAccessIndex threeStepTrack = some 1 ∧
    (0 ≤ 1 ∧ 1 < TAPE_BUFFER_SIZE) :=
  ⟨Reachable.command _ _ (Reachable.command _ _ (Reachable.command _ _ Reachable.init)),
    by decide,
    tape_access_in_bounds logOps [] zeroMem threeStepTrack
      (Reachable.command _ _ (Reachable.command _ _ (Reachable.command _ _ Reachable.init)))
      1 (by decide)⟩

/-! ## Quantisation and the 16-bit range (C25) -/

/-- The value stored while recording is the cast of `recordCastValue`. -/
theorem quantize_eq_cast_record (input : ℚ) : quantize input = toInt16 (recordCastValue input) := rfl

/-- The value stored while overdubbing is the cast of `overdubCastValue`. -/
theorem overdub_write_eq_cast (stored : Int) (input : ℚ) :
    quantize ((dequantize stored + input) * (7 / 10)) = toInt16 (overdubCastValue stored input) := rfl

/-- The recording half of C25 holds: for an input in `[-1, 1]` the value
converted while recording lies in the 16-bit range and is stored without
wrapping. -/
theorem record_cast_in_range (input : ℚ) (hlo : -1 ≤ input) (hhi : input ≤ 1) :
    -32768 ≤ truncToZero (recordCastValue input) ∧ truncToZero (recordCastValue input) ≤ 32767 ∧
    quantize input = truncToZero (recordCastValue input) := by
  obtain ⟨h1, h2, _⟩ := truncToZero_spec (input * 32767) (by linarith) (by linarith)
  refine ⟨by unfold recordCastValue; omega, h2, ?_⟩
  unfold quantize toInt16 recordCastValue
  exact wrapInt16_of_inRange _ (by omega) h2

/-- C25 fails in the overdub path: on the track reached from `Init` by
`SetMode(MODE_TAPE)`, `StartRecording`, `Process(1)`, `StartPlayback`,
`StartRecording`, the stored sample at the playhead is `32767` and the overdub
call `Process(1)` converts `(1 + 1) * 0.7 * 32767 = 45873.8`, whose integer part
`45873` exceeds `32767`; with two's complement wrapping the slot then holds
`-19663`. -/
theorem overdub_cast_overflows :
    overdubOneTrack.mode = MODE_TAPE ∧ overdubOneTrack.state = STATE_OVERDUBBING ∧
    tapeAccessIndex overdubOneTrack = some 0 ∧
    overdubOneTrack.tape_buffer 0 = 32767 ∧
    overdubCastValue (overdubOneTrack.tape_buffer 0) 1 = 229369 / 5 ∧
    truncToZero (overdubCastValue (overdubOneTrack.tape_buffer 0) 1) = 45873 ∧
    ¬ (truncToZero (overdubCastValue (overdubOneTrack.tape_buffer 0) 1) ≤ 32767) ∧
    (Process logOps overdubOneTrack 1).1.tape_buffer 0 = -19663 := by
  have hb : overdubOneTrack.tape_buffer 0 = 32767 := by
    rw [overdubOneTrack_eq]
    simp [quantize_one]
  have hv : overdubCastValue (overdubOneTrack.tape_buffer 0) 1 = 229369 / 5 := by
    rw [hb]
    norm_num [overdubCastValue, dequantize]
  have ht : truncToZero (overdubCastValue (overdubOneTrack.tape_buffer 0) 1) = 45873 := by
    rw [hv]
    have h0 : (0 : ℚ) ≤ 229369 / 5 := by norm_num
    simp only [truncToZero, if_pos h0]
    rw [Int.floor_eq_iff]
    constructor <;> norm_num
  refine ⟨rfl, rfl, by decide, hb, hv, ht, by rw [ht]; norm_num, ?_⟩
  have hP := Process_overdubbing logOps overdubOneTrack 1 rfl rfl (by decide)
  rw [hP]
  simp only [Function.update_same]
  rw [overdub_write_eq_cast]
  unfold toInt16
  rw [show overdubOneTrack.playhead_position = 0 from rfl, ht]
  norm_num [wrapInt16]

/-! ## Loop-mode playback implies content (C26) -/

theorem loopContentInv_Stop (ops : LooperOps L) (t : TapeMachineTrack L)
    (h : LoopContentInv t) : LoopContentInv (Stop ops t) := by
  cases t with
  | mk mode state buf ph rp len armed muted vol looper hc =>
    cases mode <;> cases state <;> intro hm hs <;>
      simp [Stop] at hm hs ⊢

theorem loopContentInv_SetMode (ops : LooperOps L) (m : TrackMode) (t : TapeMachineTrack L)
    (h : LoopContentInv t) : LoopContentInv (SetMode ops m t) := by
  cases t with
  | mk mode state buf ph rp len armed muted vol looper hc =>
    cases mode <;> cases m <;> cases state <;> intro hm hs <;>
      first
      | exact h hm hs
      | simp [SetMode, Stop] at hm hs ⊢

theorem loopContentInv_Process (ops : LooperOps L) (t : TapeMachineTrack L) (x : ℚ)
    (h : LoopContentInv t) : LoopContentInv (Process ops t x).1 := by
  cases t with
  | mk mode state buf ph rp len armed muted vol looper hc =>
    cases mode <;> cases state <;> simp only [Process, ProcessBody] <;>
      (try split_ifs) <;> intro hm hs <;>
      first
      | (cases hm <;> done)
      | rfl
      | exact h hm hs

theorem loopContentInv_step (ops : LooperOps L) (t : TapeMachineTrack L) (c : Command)
    (h : LoopContentInv t) : LoopContentInv (step ops t c).1 := by
  cases c with
  | process x => exact loopContentInv_Process ops t x h
  | stop => exact loopContentInv_Stop ops t h
  | setMode m => exact loopContentInv_SetMode ops m t h
  | toggleMode => exact loopContentInv_SetMode ops _ t h
  | startRecording =>
    cases t with
    | mk mode state buf ph rp len armed muted vol looper hc =>
      cases mode <;> cases state <;> simp only [step, StartRecording] <;>
        (try split_ifs with hif) <;> intro hm hs <;>
        first
        | (cases hm <;> done)
        | (simp at hs <;> done)
        | (simp at hif <;> done)
        | (simp at hif; exact hif)
  | startPlayback =>
    cases t with
    | mk mode state buf ph rp len armed muted vol looper hc =>
      cases mode <;> cases state <;> simp only [step, StartPlayback] <;>
        (try split_ifs with hif) <;> intro hm hs <;>
        first
        | (cases hm <;> done)
        | exact hif
        | exact h hm hs
  | rewind =>
    cases t with
    | mk mode state buf ph rp len armed muted vol looper hc =>
      cases mode <;> cases state <;> simp only [step, Rewind] <;>
        (try split_ifs with hif) <;> intro hm hs <;>
        first
        | contradiction
        | (cases hm <;> done)
        | exact h hm hs
  | clear =>
    cases t with
    | mk mode state buf ph rp len armed muted vol looper hc =>
      cases mode <;> intro hm hs <;> simp [step, Clear] at hm hs

theorem loopContentInv_of_reachable (ops : LooperOps L) (looper0 : L) (mem : Nat → Int)
    (t : TapeMachineTrack L) (h : Reachable ops looper0 mem t) : LoopContentInv t := by
  induction h with
  | init =>
    intro _ hs
    rcases hs with hs | hs <;> cases hs
  | command t c _ ih => exact loopContentInv_step ops t c ih
  | setVolume t v _ ih => exact ih
  | toggleMute t _ ih => exact ih

/-- C26: in every state reachable from `Init` by `StartRecording`,
`StartPlayback`, `Stop`, `Rewind`, `Clear`, `SetMode`, `ToggleMode` and `Process`
calls (and by `SetVolume` and `ToggleMute`), for any behaviour of the loop
primitive: if the mode is `MODE_LOOP` and the state is `STATE_PLAYING` or
`STATE_OVERDUBBING`, then `loop_has_content` is true. -/
theorem loop_playback_implies_content (ops : LooperOps L) (looper0 : L) (mem : Nat → Int)
    (t : TapeMachineTrack L) (h : Reachable ops looper0 mem t)
    (hm : t.mode = MODE_LOOP) (hs : t.state = STATE_PLAYING ∨ t.state = STATE_OVERDUBBING) :
    t.loop_has_content = true :=
  loopContentInv_of_reachable ops looper0 mem t h hm hs

theorem loop_playback_implies_content_witness :
    Reachable logOps [] zeroMem loopPlayingTrack ∧ loopPlayingTrack.mode = MODE_LOOP ∧
    (loopPlayingTrack.state = STATE_PLAYING ∨ loopPlayingTrack.state = STATE_OVERDUBBING) ∧
    loopPlayingTrack.loop_has_content = true :=
  ⟨Reachable.command _ Command.stop (Reachable.command _ Command.startRecording Reachable.init),
    rfl, Or.inl rfl,
    loop_playback_implies_content logOps [] zeroMem loopPlayingTrack
      (Reachable.command _ Command.stop
        (Reachable.command _ Command.startRecording Reachable.init))
      rfl (Or.inl rfl)⟩

end TapeMachine

/-! # The mix buses -/

namespace FourTrackLooper

open TapeMachine (LooperOps constOps)

variable {L : Type}

theorem anySoloActive_eq_false (tracks : List (LooperTrack L))
    (h : ∀ t ∈ tracks, t.solo = false) : anySoloActive tracks = false := by
  induction tracks with
  | nil => rfl
  | cons t ts ih =>
    have ht : t.solo = false := h t (List.mem_cons_self _ _)
    simp only [anySoloActive, ht]
    exact ih (fun u hu => h u (List.mem_cons_of_mem _ hu))

theorem anySoloActive_eq_true (tracks : List (LooperTrack L))
    (h : ∃ t ∈ tracks, t.solo = true) : anySoloActive tracks = true := by
  induction tracks with
  | nil => obtain ⟨t, ht, _⟩ := h; cases ht
  | cons t ts ih =>
    by_cases ht : t.solo = true
    · simp [anySoloActive, ht]
    · obtain ⟨u, hu, hs⟩ := h
      rcases List.mem_cons.mp hu with rfl | hmem
      · exact absurd hs ht
      · simp only [anySoloActive, ht]
        exact ih ⟨u, hmem, hs⟩

/-- With `any_solo_active` false the track loop adds every track's sample and
counts every track. -/
theorem trackLoop_all (ops : LooperOps L) (mono : ℚ) (tracks : List (LooperTrack L)) :
    ∀ acc : ℚ × Nat,
      (trackLoop ops mono false tracks acc).2 =
        (acc.1 + (tracks.map (fun t => (Process ops t mono).2)).sum, acc.2 + tracks.length) := by
  induction tracks with
  | nil => intro acc; simp [trackLoop]
  | cons t ts ih =>
    intro acc
    simp only [trackLoop, ih, List.map_cons, List.sum_cons, List.length_cons]
    simp only [Bool.false_eq_true, if_false, Prod.mk.injEq]
    constructor
    · ring
    · omega

/-- With `any_solo_active` true the track loop adds the samples of the soloed
tracks only and counts the soloed tracks only. -/
theorem trackLoop_solo (ops : LooperOps L) (mono : ℚ) (tracks : List (LooperTrack L)) :
    ∀ acc : ℚ × Nat,
      (trackLoop ops mono true tracks acc).2 =
        (acc.1 + ((tracks.filter (fun t => t.solo)).map (fun t => (Process ops t mono).2)).sum,
          acc.2 + (tracks.filter (fun t => t.solo)).length) := by
  induction tracks with
  | nil => intro acc; simp [trackLoop]
  | cons t ts ih =>
    intro acc
    have hs : (Process ops t mono).1.solo = t.solo := rfl
    simp only [trackLoop, ih, hs]
    by_cases ht : t.solo = true
    · simp only [ht, if_true, List.filter_cons_of_pos, List.map_cons, List.sum_cons,
        List.length_cons, Prod.mk.injEq]
      constructor
      · ring
      · omega
    · simp only [ht, Bool.false_eq_true, if_false, if_true]
      rw [List.filter_cons_of_neg (by simpa using ht)]

/-! ## Divide-by-active-count mix (C11) -/

/-- With no track soloed and zero dry input, a bus of more than one track writes
the sum of all track samples divided by the number of tracks, times the master
volume; every track is counted. -/
theorem mix_without_solo (ops : LooperOps L) (tracks : List (LooperTrack L))
    (master_volume input_left input_right : ℚ)
    (hsolo : ∀ t ∈ tracks, t.solo = false) (hN : 1 < tracks.length)
    (hdry : (input_left + input_right) * (1 / 2) = 0) :
    (AudioSample ops master_volume tracks input_left input_right).out =
      master_volume *
        (tracks.map (fun t => (Process ops t ((input_left + input_right) * (1 / 2))).2)).sum /
        (tracks.length : ℚ) ∧
    (AudioSample ops master_volume tracks input_left input_right).active_tracks
      = tracks.length := by
  simp only [AudioSample, anySoloActive_eq_false tracks hsolo, trackLoop_all, Nat.zero_add,
    zero_add, if_pos hN, hdry, zero_mul, add_zero, and_true]
  ring

/-- C11, as stated, fails on the program: the callback always mixes its
`NUM_TRACKS = 4` tracks and, with no solo, counts all of them.  With master
volume 1, zero input and two tracks producing `0.8` and `0.8` (the other two
silent), the count is 4 and the mixed sample is `1.6 / 4 = 0.4`, not `0.8`. -/
theorem mix_counts_silent_tracks :
    twoSoundingTracks.length = NUM_TRACKS ∧
    (∀ t ∈ twoSoundingTracks, t.solo = false) ∧
    twoSoundingTracks.map (fun t => (Process constOps t 0).2) = [4 / 5, 4 / 5, 0, 0] ∧
    (AudioSample constOps 1 twoSoundingTracks 0 0).active_tracks = 4 ∧
    (AudioSample constOps 1 twoSoundingTracks 0 0).out = 2 / 5 ∧
    ¬ ((AudioSample constOps 1 twoSoundingTracks 0 0).out = 4 / 5) := by
  have hout : (AudioSample constOps 1 twoSoundingTracks 0 0).out = 2 / 5 := by
    simp [twoSoundingTracks, AudioSample, anySoloActive, trackLoop, Process, constOps,
      constTrack]
    norm_num
  refine ⟨rfl, ?_, ?_, ?_, hout, ?_⟩
  · intro t ht
    simp only [twoSoundingTracks, List.mem_cons, List.mem_singleton, List.not_mem_nil,
      or_false] at ht
    rcases ht with rfl | rfl | rfl | rfl <;> rfl
  · simp [twoSoundingTracks, Process, constOps, constTrack]
  · simp [twoSoundingTracks, AudioSample, anySoloActive, trackLoop, Process, constOps,
      constTrack]
  · rw [hout]; norm_num

/-- C11, amended: the FourTrackLooper callback mixes its `NUM_TRACKS = 4` tracks.
In a frame in which no track is soloed and the mono input (the dry signal) is
zero, the sample written to the outputs is
`master_volume * (t[0] + t[1] + t[2] + t[3]) / 4`, where `t[i]` is the sample
track `i` returns for this frame, and the count `active_tracks` is 4: silent and
muted tracks are counted.  (The callback has no limiter, so this is the final
mixed sample.)  At master volume 1 and zero input, tracks producing `0.5`,
`-0.5`, `0`, `0` mix to `0`; tracks producing `0.8`, `0.8`, `0`, `0` mix to
`0.4`; four tracks producing `0.8` mix to `0.8`. -/
theorem divide_by_active_count_mix (ops : LooperOps L) (tracks : List (LooperTrack L))
    (master_volume input_left input_right : ℚ)
    (hlen : tracks.length = NUM_TRACKS) (hsolo : ∀ t ∈ tracks, t.solo = false)
    (hdry : (input_left + input_right) * (1 / 2) = 0) :
    (AudioSample ops master_volume tracks input_left input_right).out =
      master_volume *
        (tracks.map (fun t => (Process ops t ((input_left + input_right) * (1 / 2))).2)).sum /
        4 ∧
    (AudioSample ops master_volume tracks input_left input_right).active_tracks = 4 ∧
    (AudioSample constOps 1 cancellingTracks 0 0).out = 0 ∧
    (AudioSample constOps 1 twoSoundingTracks 0 0).out = 2 / 5 ∧
    (AudioSample constOps 1 fourSoundingTracks 0 0).out = 4 / 5 := by
  have h4 : tracks.length = 4 := hlen
  have h := mix_without_solo ops tracks master_volume input_left input_right hsolo
    (by omega) hdry
  rw [h4] at h
  refine ⟨by rw [h.1]; norm_num, h.2, ?_, ?_, ?_⟩
  · simp [cancellingTracks, AudioSample, anySoloActive, trackLoop, Process, constOps,
      constTrack]
    norm_num
  · simp [twoSoundingTracks, AudioSample, anySoloActive, trackLoop, Process, constOps,
      constTrack]
    norm_num
  · simp [fourSoundingTracks, AudioSample, anySoloActive, trackLoop, Process, constOps,
      constTrack]
    norm_num

theorem divide_by_active_count_mix_witness :
    cancellingTracks.length = NUM_TRACKS ∧
    (∀ t ∈ cancellingTracks, t.solo = false) ∧
    ((0 : ℚ) + 0) * (1 / 2) = 0 ∧
    ((AudioSample constOps 1 cancellingTracks 0 0).out =
      1 * (cancellingTracks.map
          (fun t => (Process constOps t (((0 : ℚ) + 0) * (1 / 2))).2)).sum / 4 ∧
    (AudioSample constOps 1 cancellingTracks 0 0).active_tracks = 4 ∧
    (AudioSample constOps 1 cancellingTracks 0 0).out = 0 ∧
    (AudioSample constOps 1 twoSoundingTracks 0 0).out = 2 / 5 ∧
    (AudioSample constOps 1 fourSoundingTracks 0 0).out = 4 / 5) :=
  have hs : ∀ t ∈ cancellingTracks, t.solo = false := by
    intro t ht
    simp only [cancellingTracks, List.mem_cons, List.mem_singleton, List.not_mem_nil,
      or_false] at ht
    rcases ht with rfl | rfl | rfl | rfl <;> rfl
  ⟨rfl, hs, by norm_num,
    divide_by_active_count_mix constOps cancellingTracks 1 0 0 rfl hs (by norm_num)⟩

end FourTrackLooper

namespace FourTrackLooperAdvanced

open TapeMachine (FloatMath TanhBounded standInMath)

theorem UpdateSoloState_eq_true {P : Prims} (tracks : List (AdvancedLooperTrack P))
    (h : ∃ t ∈ tracks, t.solo = true) : UpdateSoloState tracks = true := by
  induction tracks with
  | nil => obtain ⟨t, ht, _⟩ := h; cases ht
  | cons t ts ih =>
    by_cases ht : t.solo = true
    · simp [UpdateSoloState, ht]
    · obtain ⟨u, hu, hs⟩ := h
      rcases List.mem_cons.mp hu with rfl | hmem
      · exact absurd hs ht
      · simp only [UpdateSoloState, ht]
        exact ih ⟨u, hmem, hs⟩

/-- With `any_solo_active` true the stereo track loop adds the left and right
samples of the soloed tracks only and counts the soloed tracks only. -/
theorem stereoLoop_solo (P : Prims) (M : FloatMath) (mono : ℚ) (sync : Bool)
    (tracks : List (AdvancedLooperTrack P)) :
    ∀ acc : ℚ × ℚ × Nat,
      (trackLoop P M mono sync true tracks acc).2 =
        (acc.1 + ((tracks.filter (fun t => t.solo)).map
            (fun t => (GetStereoOutput P M t mono sync).2.1)).sum,
          acc.2.1 + ((tracks.filter (fun t => t.solo)).map
            (fun t => (GetStereoOutput P M t mono sync).2.2)).sum,
          acc.2.2 + (tracks.filter (fun t => t.solo)).length) := by
  induction tracks with
  | nil => intro acc; simp [trackLoop]
  | cons t ts ih =>
    intro acc
    have hs : (GetStereoOutput P M t mono sync).1.solo = t.solo := rfl
    simp only [trackLoop, ih, hs]
    by_cases ht : t.solo = true
    · simp only [ht, if_true, List.filter_cons_of_pos, List.map_cons, List.sum_cons,
        List.length_cons, Prod.mk.injEq]
      refine ⟨by ring, by ring, by omega⟩
    · simp only [ht, Bool.false_eq_true, if_false, if_true]
      rw [List.filter_cons_of_neg (by simpa using ht)]

theorem UpdateSoloState_eq_false {P : Prims} (tracks : List (AdvancedLooperTrack P))
    (h : ∀ t ∈ tracks, t.solo = false) : UpdateSoloState tracks = false := by
  induction tracks with
  | nil => rfl
  | cons t ts ih =>
    have ht : t.solo = false := h t (List.mem_cons_self _ _)
    simp only [UpdateSoloState, ht]
    exact ih (fun u hu => h u (List.mem_cons_of_mem _ hu))

/-- The track loop leaves every solo flag as it was. -/
theorem stereoLoop_keeps_solo (P : Prims) (M : FloatMath) (mono : ℚ) (sync anySolo : Bool)
    (tracks : List (AdvancedLooperTrack P)) :
    ∀ acc : ℚ × ℚ × Nat,
      UpdateSoloState (trackLoop P M mono sync anySolo tracks acc).1 = UpdateSoloState tracks := by
  induction tracks with
  | nil => intro acc; rfl
  | cons t ts ih =>
    intro acc
    have hs : (GetStereoOutput P M t mono sync).1.solo = t.solo := rfl
    simp only [trackLoop, UpdateSoloState, hs, ih]

/-- `UpdateSync` touches neither `any_solo_active` nor `master_volume`. -/
theorem UpdateSync_keeps_mix_globals (g : Globals) :
    (UpdateSync g).any_solo_active = g.any_solo_active ∧
    (UpdateSync g).master_volume = g.master_volume := by
  simp only [UpdateSync]
  split_ifs <;> exact ⟨rfl, rfl⟩

/-- With `any_solo_active` false the stereo track loop adds the left and right
samples of every track and counts every track. -/
theorem stereoLoop_all (P : Prims) (M : FloatMath) (mono : ℚ) (sync : Bool)
    (tracks : List (AdvancedLooperTrack P)) :
    ∀ acc : ℚ × ℚ × Nat,
      (trackLoop P M mono sync false tracks acc).2 =
        (acc.1 + (tracks.map (fun t => (GetStereoOutput P M t mono sync).2.1)).sum,
          acc.2.1 + (tracks.map (fun t => (GetStereoOutput P M t mono sync).2.2)).sum,
          acc.2.2 + tracks.length) := by
  induction tracks with
  | nil => intro acc; simp [trackLoop]
  | cons t ts ih =>
    intro acc
    simp only [trackLoop, ih, List.map_cons, List.sum_cons, List.length_cons]
    simp only [Bool.false_eq_true, if_false, Prod.mk.injEq]
    refine ⟨by ring, by ring, by omega⟩

/-- Toggling one solo flag keeps the number of tracks. -/
theorem toggleSoloAt_length {P : Prims} (tracks : List (AdvancedLooperTrack P)) :
    ∀ i, (toggleSoloAt i tracks).length = tracks.length := by
  induction tracks with
  | nil => intro i; cases i <;> rfl
  | cons t ts ih =>
    intro i
    cases i with
    | zero => rfl
    | succ i => simp [toggleSoloAt, ih]

/-- The track loop returns as many tracks as it was given. -/
theorem stereoLoop_length (P : Prims) (M : FloatMath) (mono : ℚ) (sync anySolo : Bool)
    (tracks : List (AdvancedLooperTrack P)) :
    ∀ acc : ℚ × ℚ × Nat,
      (trackLoop P M mono sync anySolo tracks acc).1.length = tracks.length := by
  induction tracks with
  | nil => intro acc; rfl
  | cons t ts ih => intro acc; simp [trackLoop, ih]

/-- Every frame finds the `NUM_TRACKS = 4` tracks of the program. -/
theorem FrameState_length (P : Prims) (M : FloatMath) (g : Globals)
    (tracks : List (AdvancedLooperTrack P)) (h : FrameState P M g tracks) :
    tracks.length = NUM_TRACKS := by
  induction h with
  | start g tracks hl _ _ => exact hl
  | toggleSolo g tracks i _ ih => rw [toggleSoloAt_length, ih]
  | scanReset g tracks _ ih => exact ih
  | scanDone g tracks _ ih => exact ih
  | audio g tracks l r _ ih =>
    simp only [AudioSample, preLimiterMix, stereoLoop_length]
    exact ih

/-- After a `ToggleSolo` that sets a solo flag, and until the solo scan has run,
the flag `any_solo_active` can be false while a track is soloed; once the scan
is done it agrees with the tracks. -/
theorem FrameState_scanDone_flag (P : Prims) (g : Globals)
    (tracks : List (AdvancedLooperTrack P)) :
    ({ g with any_solo_active := UpdateSoloState tracks } : Globals).any_solo_active = true ↔
      ∃ t ∈ tracks, t.solo = true := by
  constructor
  · intro h
    by_contra hne
    push_neg at hne
    have := UpdateSoloState_eq_false tracks (fun t ht => by simpa using hne t ht)
    simp only at h
    rw [this] at h
    cases h
  · intro h
    exact UpdateSoloState_eq_true tracks h

end FourTrackLooperAdvanced

namespace TapeMachine

theorem standInMath_tanhBounded : TanhBounded standInMath := by
  intro x
  have hpos : (0 : ℚ) < 1 + |x| := by positivity
  simp only [standInMath]
  constructor
  · rw [le_div_iff₀ hpos]
    have := neg_abs_le x
    linarith
  · rw [div_le_one hpos]
    have := le_abs_self x
    linarith

end TapeMachine

namespace MixBus

open TapeMachine (LooperOps FloatMath TanhBounded constOps standInMath)

/-! ## Solo resolution in the mix (C12) -/

/-- C12, as stated, fails in two ways.  In the FourTrackLooper callback the
count is the number of soloed tracks, not of soloed tracks that contribute a
non-zero sample: with tracks two and three soloed and track three muted, the
soloed tracks return `0.4` and `0`, the sum is `0.4`, yet the count is 2 and the
mix `0.2`.  In FourTrackLooperAdvanced the callback reads the flag
`any_solo_active`, which only the solo scan of `UpdateControls` writes: a frame
that starts after the `ToggleSolo` of track two and before the scan finds a
soloed track and the flag still false, and mixes and counts all four tracks
(left sum `0.2 + 0.4 + 0.6 + 0 = 1.2`, count 4, not `0.4` and 1). -/
theorem solo_counts_muted_and_flag_lags :
    ((∃ t ∈ mutedSoloScenario, t.solo = true) ∧
      (mutedSoloScenario.filter (fun t => t.solo)).map
        (fun t => (FourTrackLooper.Process constOps t 0).2) = [2 / 5, 0] ∧
      (FourTrackLooper.AudioSample constOps 1 mutedSoloScenario 0 0).sum = 2 / 5 ∧
      (FourTrackLooper.AudioSample constOps 1 mutedSoloScenario 0 0).active_tracks = 2 ∧
      (FourTrackLooper.AudioSample constOps 1 mutedSoloScenario 0 0).out = 1 / 5) ∧
    (FourTrackLooperAdvanced.FrameState FourTrackLooperAdvanced.standInPrims standInMath
        (FourTrackLooperAdvanced.initGlobals false) stereoSoloScenario ∧
      (∃ t ∈ stereoSoloScenario, t.solo = true) ∧
      (FourTrackLooperAdvanced.UpdateSync
        (FourTrackLooperAdvanced.initGlobals false)).any_solo_active = false ∧
      (FourTrackLooperAdvanced.UpdateSync
        (FourTrackLooperAdvanced.initGlobals false)).sync_trigger = false ∧
      (FourTrackLooperAdvanced.trackLoop FourTrackLooperAdvanced.standInPrims standInMath
          (((0 : ℚ) + 0) * (1 / 2))
          (FourTrackLooperAdvanced.UpdateSync
            (FourTrackLooperAdvanced.initGlobals false)).sync_trigger
          (FourTrackLooperAdvanced.UpdateSync
            (FourTrackLooperAdvanced.initGlobals false)).any_solo_active
          stereoSoloScenario (0, 0, 0)).2 = (6 / 5, 0, 4) ∧
      ((stereoSoloScenario.filter (fun t => t.solo)).map (fun t =>
          (FourTrackLooperAdvanced.GetStereoOutput FourTrackLooperAdvanced.standInPrims
            standInMath t 0 false).2.1)).sum = 2 / 5 ∧
      (stereoSoloScenario.filter (fun t => t.solo)).length = 1) := by
  have hsync : (FourTrackLooperAdvanced.UpdateSync
      (FourTrackLooperAdvanced.initGlobals false)).sync_trigger = false := by
    simp [FourTrackLooperAdvanced.UpdateSync, FourTrackLooperAdvanced.initGlobals,
      FourTrackLooperAdvanced.SAMPLE_RATE, TapeMachine.truncToZero]
  have hflag := (FourTrackLooperAdvanced.UpdateSync_keeps_mix_globals
    (FourTrackLooperAdvanced.initGlobals false)).1
  have hfs : FourTrackLooperAdvanced.FrameState FourTrackLooperAdvanced.standInPrims standInMath
      (FourTrackLooperAdvanced.initGlobals false) stereoSoloScenario :=
    FourTrackLooperAdvanced.FrameState.toggleSolo (FourTrackLooperAdvanced.initGlobals false)
      stereoTracks 1
      (FourTrackLooperAdvanced.FrameState.start _ _ rfl rfl (by
        intro t ht
        simp only [stereoTracks, List.mem_cons, List.mem_singleton, List.not_mem_nil,
          or_false] at ht
        rcases ht with rfl | rfl | rfl | rfl <;> rfl))
  refine ⟨⟨?_, ?_, ?_, ?_, ?_⟩, hfs, ?_, hflag, hsync, ?_, ?_, ?_⟩
  · exact ⟨FourTrackLooper.constTrack (2 / 5) true, by simp [mutedSoloScenario], rfl⟩
  · simp [mutedSoloScenario, FourTrackLooper.Process, FourTrackLooper.ToggleMute, constOps,
      FourTrackLooper.constTrack]
  · simp [mutedSoloScenario, FourTrackLooper.AudioSample, FourTrackLooper.anySoloActive,
      FourTrackLooper.trackLoop, FourTrackLooper.Process, FourTrackLooper.ToggleMute, constOps,
      FourTrackLooper.constTrack]
  · simp [mutedSoloScenario, FourTrackLooper.AudioSample, FourTrackLooper.anySoloActive,
      FourTrackLooper.trackLoop, FourTrackLooper.Process, FourTrackLooper.ToggleMute, constOps,
      FourTrackLooper.constTrack]
  · simp [mutedSoloScenario, FourTrackLooper.AudioSample, FourTrackLooper.anySoloActive,
      FourTrackLooper.trackLoop, FourTrackLooper.Process, FourTrackLooper.ToggleMute, constOps,
      FourTrackLooper.constTrack]
    norm_num
  · exact ⟨FourTrackLooperAdvanced.standInTrack (2 / 5) true, by simp [stereoSoloScenario], rfl⟩
  · rw [hsync, hflag]
    simp [stereoSoloScenario, FourTrackLooperAdvanced.initGlobals,
      FourTrackLooperAdvanced.trackLoop,
      FourTrackLooperAdvanced.GetStereoOutput, FourTrackLooperAdvanced.Process,
      FourTrackLooperAdvanced.standInTrack, FourTrackLooperAdvanced.standInPrims, standInMath]
    norm_num
  · simp [stereoSoloScenario, FourTrackLooperAdvanced.GetStereoOutput,
      FourTrackLooperAdvanced.Process,
      FourTrackLooperAdvanced.standInTrack, FourTrackLooperAdvanced.standInPrims, standInMath]
  · simp [stereoSoloScenario, FourTrackLooperAdvanced.standInTrack]

/-- C12, amended: in a frame in which at least one track is soloed, the
FourTrackLooper callback (which recomputes `any_solo_active` for every sample)
finds the flag true, its mix sum is exactly the sum of the samples returned by
the tracks with `solo == true`, and its count `active_tracks` (the denominator of
the normalisation) is exactly the number of tracks with `solo == true`, whether
or not they are muted or return `0`; the sample written out is computed from
that sum and count only.  In the FourTrackLooperAdvanced callback the same holds
in every frame in which the flag `any_solo_active` is true: the left and right
sums are the sums over the tracks with `solo == true`, `contributing_tracks` is
their number, and the pre-limiter mix is computed from these only.  Tracks with
`solo == false` enter neither the sums nor the count.  On four tracks producing
`0.2`, `0.4`, `0.6` and `0` with only the second soloed, the sum is `0.4`, the
count 1 and (master volume 1, zero input) the mix `0.4`. -/
theorem solo_resolution :
    (∀ (L : Type) (ops : LooperOps L) (tracks : List (FourTrackLooper.LooperTrack L))
        (master_volume input_left input_right : ℚ),
      (∃ t ∈ tracks, t.solo = true) →
      (FourTrackLooper.AudioSample ops master_volume tracks input_left input_right).any_solo_active = true ∧
      (FourTrackLooper.AudioSample ops master_volume tracks input_left input_right).sum =
        ((tracks.filter (fun t => t.solo)).map (fun t =>
          (FourTrackLooper.Process ops t ((input_left + input_right) * (1 / 2))).2)).sum ∧
      (FourTrackLooper.AudioSample ops master_volume tracks input_left input_right).active_tracks = (tracks.filter (fun t => t.solo)).length ∧
      (FourTrackLooper.AudioSample ops master_volume tracks input_left input_right).out =
        (if 1 < (tracks.filter (fun t => t.solo)).length then
            ((tracks.filter (fun t => t.solo)).map (fun t =>
          (FourTrackLooper.Process ops t ((input_left + input_right) * (1 / 2))).2)).sum /
              ((tracks.filter (fun t => t.solo)).length : ℚ)
          else
            ((tracks.filter (fun t => t.solo)).map (fun t =>
          (FourTrackLooper.Process ops t ((input_left + input_right) * (1 / 2))).2)).sum) *
          master_volume + ((input_left + input_right) * (1 / 2)) * (1 / 10)) ∧
    (∀ (P : FourTrackLooperAdvanced.Prims) (M : FloatMath) (g : FourTrackLooperAdvanced.Globals)
        (tracks : List (FourTrackLooperAdvanced.AdvancedLooperTrack P))
        (input_left input_right : ℚ),
      g.any_solo_active = true →
      (FourTrackLooperAdvanced.trackLoop P M ((input_left + input_right) * (1 / 2))
          (FourTrackLooperAdvanced.UpdateSync g).sync_trigger
          (FourTrackLooperAdvanced.UpdateSync g).any_solo_active tracks (0, 0, 0)).2 =
        (((tracks.filter (fun t => t.solo)).map (fun t =>
            (FourTrackLooperAdvanced.GetStereoOutput P M t ((input_left + input_right) * (1 / 2))
              (FourTrackLooperAdvanced.UpdateSync g).sync_trigger).2.1)).sum,
          ((tracks.filter (fun t => t.solo)).map (fun t =>
            (FourTrackLooperAdvanced.GetStereoOutput P M t ((input_left + input_right) * (1 / 2))
              (FourTrackLooperAdvanced.UpdateSync g).sync_trigger).2.2)).sum,
          (tracks.filter (fun t => t.solo)).length) ∧
      (FourTrackLooperAdvanced.preLimiterMix P M g tracks input_left input_right).2.2.1 =
        (if 0 < (tracks.filter (fun t => t.solo)).length then
          ((tracks.filter (fun t => t.solo)).map (fun t =>
            (FourTrackLooperAdvanced.GetStereoOutput P M t ((input_left + input_right) * (1 / 2))
              (FourTrackLooperAdvanced.UpdateSync g).sync_trigger).2.1)).sum *
            (1 / M.sqrtf ((tracks.filter (fun t => t.solo)).length : ℚ))
          else
          ((tracks.filter (fun t => t.solo)).map (fun t =>
            (FourTrackLooperAdvanced.GetStereoOutput P M t ((input_left + input_right) * (1 / 2))
              (FourTrackLooperAdvanced.UpdateSync g).sync_trigger).2.1)).sum) * g.master_volume +
          input_left * (5 / 100) ∧
      (FourTrackLooperAdvanced.preLimiterMix P M g tracks input_left input_right).2.2.2 =
        (if 0 < (tracks.filter (fun t => t.solo)).length then
          ((tracks.filter (fun t => t.solo)).map (fun t =>
            (FourTrackLooperAdvanced.GetStereoOutput P M t ((input_left + input_right) * (1 / 2))
              (FourTrackLooperAdvanced.UpdateSync g).sync_trigger).2.2)).sum *
            (1 / M.sqrtf ((tracks.filter (fun t => t.solo)).length : ℚ))
          else
          ((tracks.filter (fun t => t.solo)).map (fun t =>
            (FourTrackLooperAdvanced.GetStereoOutput P M t ((input_left + input_right) * (1 / 2))
              (FourTrackLooperAdvanced.UpdateSync g).sync_trigger).2.2)).sum) * g.master_volume +
          input_right * (5 / 100)) ∧
    (soloScenario.length = FourTrackLooper.NUM_TRACKS ∧
      (FourTrackLooper.AudioSample constOps 1 soloScenario 0 0).sum = 2 / 5 ∧
      (FourTrackLooper.AudioSample constOps 1 soloScenario 0 0).active_tracks = 1 ∧
      (FourTrackLooper.AudioSample constOps 1 soloScenario 0 0).out = 2 / 5) ∧
    (stereoSoloScenario.length = FourTrackLooperAdvanced.NUM_TRACKS ∧
      (FourTrackLooperAdvanced.trackLoop FourTrackLooperAdvanced.standInPrims standInMath 0 false
        true stereoSoloScenario (0, 0, 0)).2 = (2 / 5, 0, 1)) := by
  refine ⟨?_, ?_, ⟨rfl, ?_, ?_, ?_⟩, rfl, ?_⟩
  · intro L ops tracks master_volume input_left input_right h
    have ha := FourTrackLooper.anySoloActive_eq_true tracks h
    simp only [FourTrackLooper.AudioSample, ha, FourTrackLooper.trackLoop_solo, zero_add,
      Nat.zero_add, true_and]
  · intro P M g tracks input_left input_right hg
    have hk := FourTrackLooperAdvanced.UpdateSync_keeps_mix_globals g
    have hflag : (FourTrackLooperAdvanced.UpdateSync g).any_solo_active = true := by
      rw [hk.1, hg]
    refine ⟨?_, ?_, ?_⟩
    · rw [hflag, FourTrackLooperAdvanced.stereoLoop_solo]
      simp
    · simp only [FourTrackLooperAdvanced.preLimiterMix, hflag,
        FourTrackLooperAdvanced.stereoLoop_solo, zero_add, Nat.zero_add, hk.2]
    · simp only [FourTrackLooperAdvanced.preLimiterMix, hflag,
        FourTrackLooperAdvanced.stereoLoop_solo, zero_add, Nat.zero_add, hk.2]
  · simp [soloScenario, FourTrackLooper.AudioSample, FourTrackLooper.anySoloActive,
      FourTrackLooper.trackLoop, FourTrackLooper.Process, constOps, FourTrackLooper.constTrack]
  · simp [soloScenario, FourTrackLooper.AudioSample, FourTrackLooper.anySoloActive,
      FourTrackLooper.trackLoop, FourTrackLooper.Process, constOps, FourTrackLooper.constTrack]
  · simp [soloScenario, FourTrackLooper.AudioSample, FourTrackLooper.anySoloActive,
      FourTrackLooper.trackLoop, FourTrackLooper.Process, constOps, FourTrackLooper.constTrack]
  · simp [stereoSoloScenario, FourTrackLooperAdvanced.trackLoop,
      FourTrackLooperAdvanced.GetStereoOutput, FourTrackLooperAdvanced.Process,
      FourTrackLooperAdvanced.standInTrack, FourTrackLooperAdvanced.standInPrims, standInMath]

theorem solo_resolution_witness :
    (∃ t ∈ mutedSoloScenario, t.solo = true) ∧
    ((FourTrackLooper.AudioSample constOps 1 mutedSoloScenario 0 0).any_solo_active = true ∧
      (FourTrackLooper.AudioSample constOps 1 mutedSoloScenario 0 0).sum =
        ((mutedSoloScenario.filter (fun t => t.solo)).map (fun t =>
          (FourTrackLooper.Process constOps t (((0 : ℚ) + 0) * (1 / 2))).2)).sum ∧
      (FourTrackLooper.AudioSample constOps 1 mutedSoloScenario 0 0).active_tracks = (mutedSoloScenario.filter (fun t => t.solo)).length ∧
      (FourTrackLooper.AudioSample constOps 1 mutedSoloScenario 0 0).out =
        (if 1 < (mutedSoloScenario.filter (fun t => t.solo)).length then
            ((mutedSoloScenario.filter (fun t => t.solo)).map (fun t =>
          (FourTrackLooper.Process constOps t (((0 : ℚ) + 0) * (1 / 2))).2)).sum /
              ((mutedSoloScenario.filter (fun t => t.solo)).length : ℚ)
          else
            ((mutedSoloScenario.filter (fun t => t.solo)).map (fun t =>
          (FourTrackLooper.Process constOps t (((0 : ℚ) + 0) * (1 / 2))).2)).sum) *
          1 + (((0 : ℚ) + 0) * (1 / 2)) * (1 / 10)) ∧
    (FourTrackLooperAdvanced.initGlobals true).any_solo_active = true ∧
    ((FourTrackLooperAdvanced.trackLoop FourTrackLooperAdvanced.standInPrims standInMath (((0 : ℚ) + 0) * (1 / 2))
          (FourTrackLooperAdvanced.UpdateSync (FourTrackLooperAdvanced.initGlobals true)).sync_trigger
          (FourTrackLooperAdvanced.UpdateSync (FourTrackLooperAdvanced.initGlobals true)).any_solo_active stereoSoloScenario (0, 0, 0)).2 =
        (((stereoSoloScenario.filter (fun t => t.solo)).map (fun t =>
            (FourTrackLooperAdvanced.GetStereoOutput FourTrackLooperAdvanced.standInPrims standInMath t (((0 : ℚ) + 0) * (1 / 2))
              (FourTrackLooperAdvanced.UpdateSync (FourTrackLooperAdvanced.initGlobals true)).sync_trigger).2.1)).sum,
          ((stereoSoloScenario.filter (fun t => t.solo)).map (fun t =>
            (FourTrackLooperAdvanced.GetStereoOutput FourTrackLooperAdvanced.standInPrims standInMath t (((0 : ℚ) + 0) * (1 / 2))
              (FourTrackLooperAdvanced.UpdateSync (FourTrackLooperAdvanced.initGlobals true)).sync_trigger).2.2)).sum,
          (stereoSoloScenario.filter (fun t => t.solo)).length) ∧
      (FourTrackLooperAdvanced.preLimiterMix FourTrackLooperAdvanced.standInPrims standInMath (FourTrackLooperAdvanced.initGlobals true) stereoSoloScenario 0 0).2.2.1 =
        (if 0 < (stereoSoloScenario.filter (fun t => t.solo)).length then
          ((stereoSoloScenario.filter (fun t => t.solo)).map (fun t =>
            (FourTrackLooperAdvanced.GetStereoOutput FourTrackLooperAdvanced.standInPrims standInMath t (((0 : ℚ) + 0) * (1 / 2))
              (FourTrackLooperAdvanced.UpdateSync (FourTrackLooperAdvanced.initGlobals true)).sync_trigger).2.1)).sum *
            (1 / standInMath.sqrtf ((stereoSoloScenario.filter (fun t => t.solo)).length : ℚ))
          else
          ((stereoSoloScenario.filter (fun t => t.solo)).map (fun t =>
            (FourTrackLooperAdvanced.GetStereoOutput FourTrackLooperAdvanced.standInPrims standInMath t (((0 : ℚ) + 0) * (1 / 2))
              (FourTrackLooperAdvanced.UpdateSync (FourTrackLooperAdvanced.initGlobals true)).sync_trigger).2.1)).sum) * (FourTrackLooperAdvanced.initGlobals true).master_volume +
          (0 : ℚ) * (5 / 100) ∧
      (FourTrackLooperAdvanced.preLimiterMix FourTrackLooperAdvanced.standInPrims standInMath (FourTrackLooperAdvanced.initGlobals true) stereoSoloScenario 0 0).2.2.2 =
        (if 0 < (stereoSoloScenario.filter (fun t => t.solo)).length then
          ((stereoSoloScenario.filter (fun t => t.solo)).map (fun t =>
            (FourTrackLooperAdvanced.GetStereoOutput FourTrackLooperAdvanced.standInPrims standInMath t (((0 : ℚ) + 0) * (1 / 2))
              (FourTrackLooperAdvanced.UpdateSync (FourTrackLooperAdvanced.initGlobals true)).sync_trigger).2.2)).sum *
            (1 / standInMath.sqrtf ((stereoSoloScenario.filter (fun t => t.solo)).length : ℚ))
          else
          ((stereoSoloScenario.filter (fun t => t.solo)).map (fun t =>
            (FourTrackLooperAdvanced.GetStereoOutput FourTrackLooperAdvanced.standInPrims standInMath t (((0 : ℚ) + 0) * (1 / 2))
              (FourTrackLooperAdvanced.UpdateSync (FourTrackLooperAdvanced.initGlobals true)).sync_trigger).2.2)).sum) * (FourTrackLooperAdvanced.initGlobals true).master_volume +
          (0 : ℚ) * (5 / 100)) :=
  have h1 : ∃ t ∈ mutedSoloScenario, t.solo = true :=
    ⟨FourTrackLooper.constTrack (2 / 5) true, by simp [mutedSoloScenario], rfl⟩
  ⟨h1, solo_resolution.1 ℚ constOps mutedSoloScenario 1 0 0 h1, rfl,
    solo_resolution.2.1 FourTrackLooperAdvanced.standInPrims standInMath
      (FourTrackLooperAdvanced.initGlobals true) stereoSoloScenario 0 0 rfl⟩

/-! ## Soft limiting (C20) -/

/-- C20, as stated, fails for the FourTrackLooper callback, which has no
limiter: with four tracks as `Init` leaves them, each playing back the
full-scale value `1`, master volume 1 and input `1` on both channels, the sample
written out is `4/4 * 1 + 1 * 0.1 = 1.1`.  It lies outside `[-1, 1]`, so it is
not of the form `tanh(k * m)` for any function with the range of `tanh`. -/
theorem fourTrackLooper_output_not_limited :
    (FourTrackLooper.AudioSample constOps 1 fullScaleTracks 1 1).out = 11 / 10 ∧
    ¬ (-1 ≤ (FourTrackLooper.AudioSample constOps 1 fullScaleTracks 1 1).out ∧
        (FourTrackLooper.AudioSample constOps 1 fullScaleTracks 1 1).out ≤ 1) ∧
    (∀ M : FloatMath, TanhBounded M → ∀ k m : ℚ,
      (FourTrackLooper.AudioSample constOps 1 fullScaleTracks 1 1).out ≠ M.tanhf (k * m)) := by
  have h : (FourTrackLooper.AudioSample constOps 1 fullScaleTracks 1 1).out = 11 / 10 := by
    simp [fullScaleTracks, FourTrackLooper.AudioSample, FourTrackLooper.anySoloActive,
      FourTrackLooper.trackLoop, FourTrackLooper.Process, constOps, FourTrackLooper.constTrack]
    norm_num
  refine ⟨h, ?_, ?_⟩
  · rw [h]; norm_num
  · intro M hM k m heq
    have := (hM (k * m)).2
    rw [← heq, h] at this
    norm_num at this

/-- C20, amended: for every frame, every input sample and every track state,
each output sample written by the FourTrackLooperSimple, FourTrackLooperAdvanced
and FourTrackTapeMachine callbacks equals `tanh(k * m)` for the pre-limiter mix
`m`, with drive constant `k = 0.9`, `k = 0.8` and `k = 1` respectively, all in
`[0.8, 1.0]`; since `tanh` takes values in `[-1, 1]`, so does every such output
sample.  (The FourTrackLooper callback is left out: it applies no limiter.) -/
theorem soft_limiter_bounds (M : FloatMath) (hM : TanhBounded M) :
    (∀ (L : Type) (ops : LooperOps L) (master_vol : ℚ)
        (tracks : List (FourTrackLooperSimple.SimpleLooperTrack L)) (input_left input_right : ℚ),
      (FourTrackLooperSimple.AudioSample M ops master_vol tracks input_left input_right).2.1 =
        M.tanhf (9 / 10 *
          (FourTrackLooperSimple.preLimiterMix M ops master_vol tracks input_left input_right).2) ∧
      (FourTrackLooperSimple.AudioSample M ops master_vol tracks input_left input_right).2.2 =
        M.tanhf (9 / 10 *
          (FourTrackLooperSimple.preLimiterMix M ops master_vol tracks input_left input_right).2) ∧
      -1 ≤ (FourTrackLooperSimple.AudioSample M ops master_vol tracks input_left input_right).2.1 ∧
      (FourTrackLooperSimple.AudioSample M ops master_vol tracks input_left input_right).2.1 ≤ 1 ∧
      -1 ≤ (FourTrackLooperSimple.AudioSample M ops master_vol tracks input_left input_right).2.2 ∧
      (FourTrackLooperSimple.AudioSample M ops master_vol tracks input_left input_right).2.2 ≤ 1) ∧
    (∀ (P : FourTrackLooperAdvanced.Prims) (g : FourTrackLooperAdvanced.Globals)
        (tracks : List (FourTrackLooperAdvanced.AdvancedLooperTrack P))
        (input_left input_right : ℚ),
      (FourTrackLooperAdvanced.AudioSample P M g tracks input_left input_right).2.2.1 =
        M.tanhf (8 / 10 *
          (FourTrackLooperAdvanced.preLimiterMix P M g tracks input_left input_right).2.2.1) ∧
      (FourTrackLooperAdvanced.AudioSample P M g tracks input_left input_right).2.2.2 =
        M.tanhf (8 / 10 *
          (FourTrackLooperAdvanced.preLimiterMix P M g tracks input_left input_right).2.2.2) ∧
      -1 ≤ (FourTrackLooperAdvanced.AudioSample P M g tracks input_left input_right).2.2.1 ∧
      (FourTrackLooperAdvanced.AudioSample P M g tracks input_left input_right).2.2.1 ≤ 1 ∧
      -1 ≤ (FourTrackLooperAdvanced.AudioSample P M g tracks input_left input_right).2.2.2 ∧
      (FourTrackLooperAdvanced.AudioSample P M g tracks input_left input_right).2.2.2 ≤ 1) ∧
    (∀ (L : Type) (ops : LooperOps L) (master_vol : ℚ)
        (tracks : List (TapeMachine.TapeMachineTrack L)) (input_left input_right : ℚ),
      (TapeMachine.AudioSample M ops master_vol tracks input_left input_right).2.1 =
        M.tanhf (1 *
          (TapeMachine.preLimiterMix ops master_vol tracks input_left input_right).2) ∧
      (TapeMachine.AudioSample M ops master_vol tracks input_left input_right).2.2 =
        M.tanhf (1 *
          (TapeMachine.preLimiterMix ops master_vol tracks input_left input_right).2) ∧
      -1 ≤ (TapeMachine.AudioSample M ops master_vol tracks input_left input_right).2.1 ∧
      (TapeMachine.AudioSample M ops master_vol tracks input_left input_right).2.1 ≤ 1 ∧
      -1 ≤ (TapeMachine.AudioSample M ops master_vol tracks input_left input_right).2.2 ∧
      (TapeMachine.AudioSample M ops master_vol tracks input_left input_right).2.2 ≤ 1) ∧
    ((8 / 10 : ℚ) ≤ 9 / 10 ∧ (9 / 10 : ℚ) ≤ 1 ∧ (8 / 10 : ℚ) ≤ 8 / 10 ∧ (8 / 10 : ℚ) ≤ 1) := by
  refine ⟨?_, ?_, ?_, by norm_num⟩
  · intro L ops master_vol tracks input_left input_right
    refine ⟨?_, ?_, (hM _).1, (hM _).2, (hM _).1, (hM _).2⟩
    · simp only [FourTrackLooperSimple.AudioSample, mul_comm]
    · simp only [FourTrackLooperSimple.AudioSample, mul_comm]
  · intro P g tracks input_left input_right
    refine ⟨?_, ?_, (hM _).1, (hM _).2, (hM _).1, (hM _).2⟩
    · simp only [FourTrackLooperAdvanced.AudioSample, mul_comm]
    · simp only [FourTrackLooperAdvanced.AudioSample, mul_comm]
  · intro L ops master_vol tracks input_left input_right
    refine ⟨?_, ?_, (hM _).1, (hM _).2, (hM _).1, (hM _).2⟩
    · simp only [TapeMachine.AudioSample, one_mul]
    · simp only [TapeMachine.AudioSample, one_mul]

theorem soft_limiter_bounds_witness :
    TanhBounded standInMath ∧
    ((∀ (L : Type) (ops : LooperOps L) (master_vol : ℚ)
        (tracks : List (FourTrackLooperSimple.SimpleLooperTrack L)) (input_left input_right : ℚ),
      (FourTrackLooperSimple.AudioSample standInMath ops master_vol tracks input_left input_right).2.1 =
        standInMath.tanhf (9 / 10 *
          (FourTrackLooperSimple.preLimiterMix standInMath ops master_vol tracks input_left input_right).2) ∧
      (FourTrackLooperSimple.AudioSample standInMath ops master_vol tracks input_left input_right).2.2 =
        standInMath.tanhf (9 / 10 *
          (FourTrackLooperSimple.preLimiterMix standInMath ops master_vol tracks input_left input_right).2) ∧
      -1 ≤ (FourTrackLooperSimple.AudioSample standInMath ops master_vol tracks input_left input_right).2.1 ∧
      (FourTrackLooperSimple.AudioSample standInMath ops master_vol tracks input_left input_right).2.1 ≤ 1 ∧
      -1 ≤ (FourTrackLooperSimple.AudioSample standInMath ops master_vol tracks input_left input_right).2.2 ∧
      (FourTrackLooperSimple.AudioSample standInMath ops master_vol tracks input_left input_right).2.2 ≤ 1) ∧
    (∀ (P : FourTrackLooperAdvanced.Prims) (g : FourTrackLooperAdvanced.Globals)
        (tracks : List (FourTrackLooperAdvanced.AdvancedLooperTrack P))
        (input_left input_right : ℚ),
      (FourTrackLooperAdvanced.AudioSample P standInMath g tracks input_left input_right).2.2.1 =
        standInMath.tanhf (8 / 10 *
          (FourTrackLooperAdvanced.preLimiterMix P standInMath g tracks input_left input_right).2.2.1) ∧
      (FourTrackLooperAdvanced.AudioSample P standInMath g tracks input_left input_right).2.2.2 =
        standInMath.tanhf (8 / 10 *
          (FourTrackLooperAdvanced.preLimiterMix P standInMath g tracks input_left input_right).2.2.2) ∧
      -1 ≤ (FourTrackLooperAdvanced.AudioSample P standInMath g tracks input_left input_right).2.2.1 ∧
      (FourTrackLooperAdvanced.AudioSample P standInMath g tracks input_left input_right).2.2.1 ≤ 1 ∧
      -1 ≤ (FourTrackLooperAdvanced.AudioSample P standInMath g tracks input_left input_right).2.2.2 ∧
      (FourTrackLooperAdvanced.AudioSample P standInMath g tracks input_left input_right).2.2.2 ≤ 1) ∧
    (∀ (L : Type) (ops : LooperOps L) (master_vol : ℚ)
        (tracks : List (TapeMachine.TapeMachineTrack L)) (input_left input_right : ℚ),
      (TapeMachine.AudioSample standInMath ops master_vol tracks input_left input_right).2.1 =
        standInMath.tanhf (1 *
          (TapeMachine.preLimiterMix ops master_vol tracks input_left input_right).2) ∧
      (TapeMachine.AudioSample standInMath ops master_vol tracks input_left input_right).2.2 =
        standInMath.tanhf (1 *
          (TapeMachine.preLimiterMix ops master_vol tracks input_left input_right).2) ∧
      -1 ≤ (TapeMachine.AudioSample standInMath ops master_vol tracks input_left input_right).2.1 ∧
      (TapeMachine.AudioSample standInMath ops master_vol tracks input_left input_right).2.1 ≤ 1 ∧
      -1 ≤ (TapeMachine.AudioSample standInMath ops master_vol tracks input_left input_right).2.2 ∧
      (TapeMachine.AudioSample standInMath ops master_vol tracks input_left input_right).2.2 ≤ 1) ∧
    ((8 / 10 : ℚ) ≤ 9 / 10 ∧ (9 / 10 : ℚ) ≤ 1 ∧ (8 / 10 : ℚ) ≤ 8 / 10 ∧ (8 / 10 : ℚ) ≤ 1)) :=
  ⟨TapeMachine.standInMath_tanhBounded, soft_limiter_bounds standInMath TapeMachine.standInMath_tanhBounded⟩

end MixBus

/-! # Panning -/

namespace FourTrackLooperAdvanced

open TapeMachine (FloatMath UnitCircle circleMath fclamp)

theorem circleMath_unitCircle : UnitCircle circleMath := by
  intro x
  have h : (1 : ℚ) + x / 2 * (x / 2) ≠ 0 := by
    have : (0 : ℚ) ≤ x / 2 * (x / 2) := mul_self_nonneg _
    linarith
  have key : ∀ a b d : ℚ, d ≠ 0 → a / d * (a / d) + b / d * (b / d) = (a * a + b * b) / (d * d) := by
    intro a b d hd
    field_simp
  simp only [circleMath]
  rw [key _ _ _ h, div_eq_one_iff_eq (mul_ne_zero h h)]
  ring

/-- `SetPan` keeps the pan in `[-1, 1]`. -/
theorem SetPan_range {P : Prims} (p : ℚ) (t : AdvancedLooperTrack P) :
    -1 ≤ (SetPan p t).pan ∧ (SetPan p t).pan ≤ 1 := by
  simp only [SetPan, fclamp]
  constructor
  · exact le_min (le_max_right _ _) (by norm_num)
  · exact min_le_right _ _

/-! ## Constant-power pan law (C21) -/

/-- C21: for every track (so for every pan, in particular every pan in
`[-1, 1]` that `SetPan` can leave) and every mono sample returned by `Process`,
`GetStereoOutput` yields `left = mono * cos(pan * HALFPI_F)` and
`right = mono * sin(pan * HALFPI_F)`; by the Pythagorean identity of cosine and
sine, `left^2 + right^2 = mono^2` whatever the pan. -/
theorem constant_power_pan (P : Prims) (M : FloatMath) (hM : UnitCircle M)
    (t : AdvancedLooperTrack P) (input : ℚ) (sync_trigger : Bool) :
    (GetStereoOutput P M t input sync_trigger).2.1 =
      (Process P M t input sync_trigger).2 * M.cosf (t.pan * M.HALFPI_F) ∧
    (GetStereoOutput P M t input sync_trigger).2.2 =
      (Process P M t input sync_trigger).2 * M.sinf (t.pan * M.HALFPI_F) ∧
    (GetStereoOutput P M t input sync_trigger).2.1 ^ 2 +
        (GetStereoOutput P M t input sync_trigger).2.2 ^ 2 =
      (Process P M t input sync_trigger).2 ^ 2 := by
  have hp : (Process P M t input sync_trigger).1.pan = t.pan := rfl
  refine ⟨?_, ?_, ?_⟩
  · simp only [GetStereoOutput, hp]
  · simp only [GetStereoOutput, hp]
  · simp only [GetStereoOutput, hp]
    have := hM (t.pan * M.HALFPI_F)
    calc ((Process P M t input sync_trigger).2 * M.cosf (t.pan * M.HALFPI_F)) ^ 2 +
          ((Process P M t input sync_trigger).2 * M.sinf (t.pan * M.HALFPI_F)) ^ 2
        = (Process P M t input sync_trigger).2 ^ 2 *
            (M.cosf (t.pan * M.HALFPI_F) * M.cosf (t.pan * M.HALFPI_F) +
              M.sinf (t.pan * M.HALFPI_F) * M.sinf (t.pan * M.HALFPI_F)) := by ring
      _ = (Process P M t input sync_trigger).2 ^ 2 := by rw [this, mul_one]

theorem constant_power_pan_witness :
    UnitCircle circleMath ∧
    ((GetStereoOutput standInPrims circleMath (SetPan (1 / 2) (standInTrack 1 false)) 0 false).2.1 =
      (Process standInPrims circleMath (SetPan (1 / 2) (standInTrack 1 false)) 0 false).2 *
        circleMath.cosf ((SetPan (1 / 2) (standInTrack 1 false)).pan * circleMath.HALFPI_F) ∧
    (GetStereoOutput standInPrims circleMath (SetPan (1 / 2) (standInTrack 1 false)) 0 false).2.2 =
      (Process standInPrims circleMath (SetPan (1 / 2) (standInTrack 1 false)) 0 false).2 *
        circleMath.sinf ((SetPan (1 / 2) (standInTrack 1 false)).pan * circleMath.HALFPI_F) ∧
    (GetStereoOutput standInPrims circleMath (SetPan (1 / 2) (standInTrack 1 false)) 0
          false).2.1 ^ 2 +
        (GetStereoOutput standInPrims circleMath (SetPan (1 / 2) (standInTrack 1 false)) 0
          false).2.2 ^ 2 =
      (Process standInPrims circleMath (SetPan (1 / 2) (standInTrack 1 false)) 0 false).2 ^ 2) :=
  ⟨circleMath_unitCircle,
    constant_power_pan standInPrims circleMath circleMath_unitCircle
      (SetPan (1 / 2) (standInTrack 1 false)) 0 false⟩

/-! ## Centre pan (C23) -/

/-- With pan 0 the left channel carries the whole mono sample and the right
channel nothing. -/
theorem centre_pan_output (P : Prims) (M : FloatMath) (hcos : M.cosf 0 = 1) (hsin : M.sinf 0 = 0)
    (t : AdvancedLooperTrack P) (hpan : t.pan = 0) (input : ℚ) (sync_trigger : Bool) :
    (GetStereoOutput P M t input sync_trigger).2.1 = (Process P M t input sync_trigger).2 ∧
    (GetStereoOutput P M t input sync_trigger).2.2 = 0 := by
  have hp : (Process P M t input sync_trigger).1.pan = 0 := hpan
  simp only [GetStereoOutput, hp, zero_mul, hcos, hsin, mul_one, mul_zero, and_self]

/-- C23 fails on the code: a track as `Init` leaves it has `pan = 0`, which the
source documents as the centre, yet for the mono sample `1` `GetStereoOutput`
delivers `left = 1 * cos 0 = 1` and `right = 1 * sin 0 = 0`: the whole signal on
the left channel, nothing on the right. -/
theorem centre_pan_is_hard_left :
    (Init standInPrims (1 : ℚ) (0 : ℚ) () (0 : ℚ)).pan = 0 ∧
    (Process standInPrims circleMath (Init standInPrims (1 : ℚ) (0 : ℚ) () (0 : ℚ)) 0 false).2 = 1 ∧
    (GetStereoOutput standInPrims circleMath (Init standInPrims (1 : ℚ) (0 : ℚ) () (0 : ℚ))
      0 false).2.1 = 1 ∧
    (GetStereoOutput standInPrims circleMath (Init standInPrims (1 : ℚ) (0 : ℚ) () (0 : ℚ))
      0 false).2.2 = 0 ∧
    (GetStereoOutput standInPrims circleMath (Init standInPrims (1 : ℚ) (0 : ℚ) () (0 : ℚ))
      0 false).2.1 ≠
    (GetStereoOutput standInPrims circleMath (Init standInPrims (1 : ℚ) (0 : ℚ) () (0 : ℚ))
      0 false).2.2 := by
  have hP : (Process standInPrims circleMath (Init standInPrims (1 : ℚ) (0 : ℚ) () (0 : ℚ))
      0 false).2 = 1 := by
    simp [Process, Init, standInPrims]
  have h := centre_pan_output standInPrims circleMath (by simp [circleMath])
    (by simp [circleMath]) (Init standInPrims (1 : ℚ) (0 : ℚ) () (0 : ℚ)) rfl 0 false
  refine ⟨rfl, hP, ?_, h.2, ?_⟩
  · rw [h.1, hP]
  · rw [h.1, h.2, hP]; norm_num

end FourTrackLooperAdvanced
